import Mathlib

/-!
# Sapphire `NaviProvider`: corridor maintenance and path smoothing

A shallow embedding of `src/world/Navi/NaviProvider.cpp`.

* C arrays are lists whose length is the capacity of the array; every access is
  bounds-checked and an access outside the array is a memory fault (`none`, or
  `Fault.polysOOB` / `Fault.smoothOOB` inside `findFollowPath`).
* `int32_t` counters that the code never makes negative are natural numbers; the
  places where the code relies on a negative value (`furthestPath = -1`, a negative
  `size`) use integers.
* `float` values are exact rationals, `dtMathSqrtf` is a parameter.
* The Detour queries (`findNearestPoly`, `findPath`, `findStraightPath`,
  `moveAlongSurface`, ...) are library code outside the repository: they are fields
  of `dtNavMeshQuery` / `dtNavMesh`, arbitrary functions of their arguments.
* `MAX_POLYS` and `MAX_SMOOTH` are declared in `NaviProvider.h`, which is not part of
  the sources at hand; they are the fields of `Config`.
-/

namespace Sapphire.World.Navi

/-! ## Data model -/

/-- Polygon reference (`dtPolyRef`); `0` is the null reference. -/
abbrev dtPolyRef := Nat

/-- A `float[3]`. -/
structure Vec3 where
  x : Rat
  y : Rat
  z : Rat
  deriving DecidableEq, Repr

/-- The caller-facing position type `Common::FFXIVARR_POSITION3`. -/
structure FFXIVARR_POSITION3 where
  x : Rat
  y : Rat
  z : Rat
  deriving DecidableEq, Repr

/-- One entry of the straight path returned by `findStraightPath`:
`steerPath[k*3..]`, `steerPathFlags[k]`, `steerPathPolys[k]`. -/
structure SteerPoint where
  pos : Vec3
  flag : Nat
  ref : dtPolyRef
  deriving DecidableEq, Repr

/-- The part of `dtNavMesh` that the provider uses. -/
structure dtNavMesh where
  /-- The call `getTileAndPolyByRef( ref, &tile, &poly )` together with the walk
  `for( k = poly->firstLink; k != DT_NULL_LINK; k = tile->links[ k ].next )`:
  `none` when the status is a failure, otherwise the `ref` fields of the links
  of the polygon in the order of the walk. -/
  polyLinks : dtPolyRef → Option (List dtPolyRef)
  /-- The call `getOffMeshConnectionPolyEndPoints( prevRef, polyRef, startPos, endPos )`:
  `none` when the status is a failure. -/
  getOffMeshConnectionPolyEndPoints : dtPolyRef → dtPolyRef → Option (Vec3 × Vec3)

/-- The part of `dtNavMeshQuery` that the provider uses. -/
structure dtNavMeshQuery where
  /-- The mesh returned by `getAttachedNavMesh()`. -/
  getAttachedNavMesh : dtNavMesh
  /-- Nearest polygon to a point within the half extents; `0` when there is none. -/
  findNearestPoly : Vec3 → Vec3 → dtPolyRef
  /-- The polygon corridor from `startRef` to `endRef`. -/
  findPath : dtPolyRef → dtPolyRef → Vec3 → Vec3 → List dtPolyRef
  closestPointOnPoly : dtPolyRef → Vec3 → Vec3
  /-- Straight path from a position to a position across a corridor. -/
  findStraightPath : Vec3 → Vec3 → List dtPolyRef → List SteerPoint
  /-- The resulting position and the visited polygons. -/
  moveAlongSurface : dtPolyRef → Vec3 → Vec3 → Vec3 × List dtPolyRef
  /-- The height of the polygon at a position, `none` when the status is a failure. -/
  getPolyHeight : dtPolyRef → Vec3 → Option Rat

/-- The provider: `m_naviMesh`, `m_naviMeshQuery` (null pointers are `none`) and
`m_polyFindRange`. -/
structure NaviProvider where
  m_naviMesh : Option dtNavMesh
  m_naviMeshQuery : Option dtNavMeshQuery
  m_polyFindRange : Vec3

/-- Constants of `NaviProvider.h` and the square root of the math library. -/
structure Config where
  MAX_POLYS : Nat
  MAX_SMOOTH : Nat
  dtMathSqrtf : Rat → Rat

/-- What ends a call other than a normal return. -/
inductive Fault where
  /-- The exception `std::runtime_error( "No navimesh loaded" )`. -/
  | noNavimesh
  /-- An access outside a polygon buffer (`polys`, `visited`). -/
  | polysOOB
  /-- An access outside `smoothPath`. -/
  | smoothOOB
  /-- The iteration budget of the model ran out. -/
  | outOfFuel
  deriving DecidableEq, Repr

deriving instance DecidableEq for Except

def DT_STRAIGHTPATH_END : Nat := 2
def DT_STRAIGHTPATH_OFFMESH_CONNECTION : Nat := 4
def STEP_SIZE : Rat := 6 / 5
def SLOP : Rat := 3 / 20

/-- Bounds-checked write `a[i] = v`. -/
def wr {α : Type} (a : List α) (i : Nat) (v : α) : Option (List α) :=
  if i < a.length then some (a.set i v) else none

/-- The call `memmove( a + dst, a + src, n * sizeof( dtPolyRef ) )`; a negative `n`
becomes a huge `size_t` and leaves the array. -/
def memmove (a : List dtPolyRef) (dst src n : Int) : Option (List dtPolyRef) :=
  if 0 ≤ dst ∧ 0 ≤ src ∧ 0 ≤ n ∧ dst + n ≤ a.length ∧ src + n ≤ a.length then
    some (a.take dst.toNat ++ ((a.drop src.toNat).take n.toNat ++ a.drop (dst.toNat + n.toNat)))
  else none

def dtVsub (a b : Vec3) : Vec3 := ⟨a.x - b.x, a.y - b.y, a.z - b.z⟩
def dtVdot (a b : Vec3) : Rat := a.x * b.x + a.y * b.y + a.z * b.z
def dtVmad (a b : Vec3) (s : Rat) : Vec3 := ⟨a.x + b.x * s, a.y + b.y * s, a.z + b.z * s⟩

/-! ## `fixupCorridor` -/

/-- The inner loop `for( j = nvisited - 1; j >= 0; --j )` of `fixupCorridor` at corridor
index `i`; the first argument is `j + 1`, the state is
`(furthestPath, furthestVisited, found)`. -/
def fixupCorridor.inner (path visited : List dtPolyRef) (i : Nat) :
    Nat → Int × Int × Bool → Option (Int × Int × Bool)
  | 0, s => some s
  | j + 1, s =>
    match path[i]?, visited[j]? with
    | some p, some v =>
      fixupCorridor.inner path visited i j (if p = v then ((i : Int), (j : Int), true) else s)
    | _, _ => none

/-- The outer loop `for( i = npath - 1; i >= 0; --i )` of `fixupCorridor`; the first
argument is `i + 1`, the state is `(furthestPath, furthestVisited)`. -/
def fixupCorridor.outer (path visited : List dtPolyRef) (nvisited : Nat) :
    Nat → Int × Int → Option (Int × Int)
  | 0, s => some s
  | i + 1, s =>
    match fixupCorridor.inner path visited i nvisited (s.1, s.2, false) with
    | none => none
    | some (fp, fv, found) =>
      if found then some (fp, fv) else fixupCorridor.outer path visited nvisited i (fp, fv)

/-- The loop `for( i = 0; i < req; ++i ) path[i] = visited[( nvisited - 1 ) - i]`, at
index `i` with `todo = req - i` iterations left. -/
def fixupCorridor.store (visited : List dtPolyRef) (nvisited : Nat) :
    Nat → Nat → List dtPolyRef → Option (List dtPolyRef)
  | _, 0, path => some path
  | i, todo + 1, path =>
    if ((nvisited : Int) - 1) - i < 0 then none
    else
      match visited[(nvisited - 1) - i]? with
      | none => none
      | some v =>
        match wr path i v with
        | none => none
        | some path1 => fixupCorridor.store visited nvisited (i + 1) todo path1

/-- The function `NaviProvider::fixupCorridor`: the buffer after the call and the returned length. -/
def fixupCorridor (path : List dtPolyRef) (npath maxPath : Nat)
    (visited : List dtPolyRef) (nvisited : Nat) : Option (List dtPolyRef × Nat) :=
  match fixupCorridor.outer path visited nvisited npath (-1, -1) with
  | none => none
  | some (furthestPath, furthestVisited) =>
    if furthestPath = -1 ∨ furthestVisited = -1 then some (path, npath)
    else
      let req : Int := (nvisited : Int) - furthestVisited
      let orig : Int := min (furthestPath + 1) (npath : Int)
      let size0 : Int := max 0 ((npath : Int) - orig)
      let size : Int := if req + size0 > (maxPath : Int) then (maxPath : Int) - req else size0
      match (if size ≠ 0 then memmove path req orig size else some path) with
      | none => none
      | some path1 =>
        match fixupCorridor.store visited nvisited 0 req.toNat path1 with
        | none => none
        | some path2 => some (path2, (req + size).toNat)

/-! ## `fixupShortcuts` -/

/-- The body of the link walk of `fixupShortcuts`: collect the non-null link references
into `neis` while `nneis < maxNeis`. -/
def fixupShortcuts.collect (maxNeis : Nat) : List dtPolyRef → List dtPolyRef → List dtPolyRef
  | [], neis => neis
  | ref :: links, neis =>
    fixupShortcuts.collect maxNeis links
      (if ref ≠ 0 then (if neis.length < maxNeis then neis ++ [ref] else neis) else neis)

/-- The inner loop `for( j = 0; j < nneis; j++ )` of the look-ahead of `fixupShortcuts`, over
the neighbours still to compare; returns the new value of `cut`. -/
def fixupShortcuts.inner (path : List dtPolyRef) (i cut : Nat) : List dtPolyRef → Option Nat
  | [] => some cut
  | n :: neis =>
    match path[i]? with
    | none => none
    | some p => if p = n then some i else fixupShortcuts.inner path i cut neis

/-- The outer loop `for( i = dtMin( maxLookAhead, npath ) - 1; i > 1 && cut == 0; i-- )`;
the first argument is `i + 1`. -/
def fixupShortcuts.outer (path neis : List dtPolyRef) : Nat → Nat → Option Nat
  | 0, cut => some cut
  | i + 1, cut =>
    if 1 < i ∧ cut = 0 then
      match fixupShortcuts.inner path i cut neis with
      | none => none
      | some cut1 => fixupShortcuts.outer path neis i cut1
    else some cut

/-- The loop `for( i = 1; i < npath; i++ ) path[ i ] = path[ i + offset ]`, at index `i`
with `todo = npath - i` iterations left. -/
def fixupShortcuts.shift (offset : Nat) : Nat → Nat → List dtPolyRef → Option (List dtPolyRef)
  | _, 0, path => some path
  | i, todo + 1, path =>
    match path[i + offset]? with
    | none => none
    | some v =>
      match wr path i v with
      | none => none
      | some path1 => fixupShortcuts.shift offset (i + 1) todo path1

/-- The function `NaviProvider::fixupShortcuts`: the buffer after the call and the returned length. -/
def fixupShortcuts (path : List dtPolyRef) (npath : Nat) (navQuery : dtNavMeshQuery) :
    Option (List dtPolyRef × Nat) :=
  if npath < 3 then some (path, npath)
  else
    match path[0]? with
    | none => none
    | some head =>
      match navQuery.getAttachedNavMesh.polyLinks head with
      | none => some (path, npath)
      | some links =>
        let neis := fixupShortcuts.collect 16 links []
        match fixupShortcuts.outer path neis (min 6 npath) 0 with
        | none => none
        | some cut =>
          if 1 < cut then
            let offset := cut - 1
            let npath1 := npath - offset
            match fixupShortcuts.shift offset 1 (npath1 - 1) path with
            | none => none
            | some path1 => some (path1, npath1)
          else some (path, npath)

/-! ## Steering -/

/-- The function `NaviProvider::inRange`. -/
def inRange (v1 v2 : Vec3) (r h : Rat) : Bool :=
  let dx := v2.x - v1.x
  let dy := v2.y - v1.y
  let dz := v2.z - v1.z
  decide (dx * dx + dz * dz < r * r) && decide (|dy| < h)

/-- The loop `while( ns < nsteerPath )` of `getSteerTarget` over the straight path points
from index `ns` on: the first point that is an off-mesh link or is not in range. -/
def getSteerTarget.scan (startPos : Vec3) (minTargetDist : Rat) : List SteerPoint → Option SteerPoint
  | [] => none
  | p :: rest =>
    if (p.flag &&& DT_STRAIGHTPATH_OFFMESH_CONNECTION ≠ 0) ∨
        ¬ inRange p.pos startPos minTargetDist 1000 = true then some p
    else getSteerTarget.scan startPos minTargetDist rest

/-- The function `NaviProvider::getSteerTarget` with null `outPoints` (the only call passes none):
`none` for `false`, otherwise `(steerPos, steerPosFlag, steerPosRef)`.  The library
fills at most `MAX_STEER_POINTS = 3` points. -/
def getSteerTarget (navQuery : dtNavMeshQuery) (startPos endPos : Vec3) (minTargetDist : Rat)
    (path : List dtPolyRef) (pathSize : Nat) : Option (Vec3 × Nat × dtPolyRef) :=
  let steerPath := (navQuery.findStraightPath startPos endPos (path.take pathSize)).take 3
  if steerPath.length = 0 then none
  else
    match getSteerTarget.scan startPos minTargetDist steerPath with
    | none => none
    | some p => some (⟨p.pos.x, startPos.y, p.pos.z⟩, p.flag, p.ref)

/-! ## `findFollowPath` -/

/-- The working state of the smoothing loop of `findFollowPath`. -/
structure SmoothState where
  polys : List dtPolyRef
  npolys : Nat
  iterPos : Vec3
  smoothPath : List Rat
  numSmoothPath : Nat
  deriving DecidableEq, Repr

/-- The copy `dtVcopy( &smoothPath[ n * 3 ], v )`. -/
def dtVcopyAt (smoothPath : List Rat) (n : Nat) (v : Vec3) : Option (List Rat) :=
  match wr smoothPath (n * 3) v.x with
  | none => none
  | some b0 =>
    match wr b0 (n * 3 + 1) v.y with
    | none => none
    | some b1 => wr b1 (n * 3 + 2) v.z

/-- The loop `while( npos < npolys && polyRef != steerPosRef )` of the off-mesh branch; the
first argument is `npolys - npos`, the state is `(prevRef, polyRef, npos)`. -/
def findFollowPath.advanceScan (polys : List dtPolyRef) (steerPosRef : dtPolyRef) :
    Nat → dtPolyRef × dtPolyRef × Nat → Option (dtPolyRef × dtPolyRef × Nat)
  | 0, s => some s
  | todo + 1, (prevRef, polyRef, npos) =>
    if polyRef ≠ steerPosRef then
      match polys[npos]? with
      | none => none
      | some p => findFollowPath.advanceScan polys steerPosRef todo (polyRef, p, npos + 1)
    else some (prevRef, polyRef, npos)

/-- The loop `for( i = npos; i < npolys; ++i ) polys[ i - npos ] = polys[ i ]`, at index `i`
with `todo = npolys - i` iterations left. -/
def findFollowPath.advanceShift (npos : Nat) : Nat → Nat → List dtPolyRef → Option (List dtPolyRef)
  | _, 0, polys => some polys
  | i, todo + 1, polys =>
    match polys[i]? with
    | none => none
    | some v =>
      match wr polys (i - npos) v with
      | none => none
      | some polys1 => findFollowPath.advanceShift npos (i + 1) todo polys1

/-- The block "Advance the path up to and over the off-mesh connection": the new buffer, the new
`npolys`, `prevRef` and `polyRef`. -/
def findFollowPath.advance (polys : List dtPolyRef) (npolys : Nat) (steerPosRef : dtPolyRef) :
    Option (List dtPolyRef × Nat × dtPolyRef × dtPolyRef) :=
  match polys[0]? with
  | none => none
  | some p0 =>
    match findFollowPath.advanceScan polys steerPosRef npolys (0, p0, 0) with
    | none => none
    | some (prevRef, polyRef, npos) =>
      match findFollowPath.advanceShift npos npos (npolys - npos) polys with
      | none => none
      | some polys1 => some (polys1, npolys - npos, prevRef, polyRef)

/-- The guarded copy
`if( numSmoothPath < MAX_SMOOTH ) { dtVcopy( &smoothPath[ numSmoothPath * 3 ], v ); numSmoothPath++; }`
of the arrival branch and of "Store results". -/
def findFollowPath.append (C : Config) (smoothPath : List Rat) (numSmoothPath : Nat) (v : Vec3) :
    Except Fault (List Rat × Nat) :=
  if numSmoothPath < C.MAX_SMOOTH then
    match dtVcopyAt smoothPath numSmoothPath v with
    | none => .error .smoothOOB
    | some smoothPath1 => .ok (smoothPath1, numSmoothPath + 1)
  else .ok (smoothPath, numSmoothPath)

/-- The guarded copy of the off-mesh branch: `startPos` is stored, and stored once more when
the count is then odd ("Hack to make the dotted path not visible during off-mesh
connection"). -/
def findFollowPath.appendConnection (C : Config) (smoothPath : List Rat) (numSmoothPath : Nat)
    (startPos : Vec3) : Except Fault (List Rat × Nat) :=
  if numSmoothPath < C.MAX_SMOOTH then
    match dtVcopyAt smoothPath numSmoothPath startPos with
    | none => .error .smoothOOB
    | some smoothPath1 =>
      if (numSmoothPath + 1) &&& 1 ≠ 0 then
        match dtVcopyAt smoothPath1 (numSmoothPath + 1) startPos with
        | none => .error .smoothOOB
        | some smoothPath2 => .ok (smoothPath2, numSmoothPath + 1 + 1)
      else .ok (smoothPath1, numSmoothPath + 1)
  else .ok (smoothPath, numSmoothPath)

/-- The block "Find movement delta": the target `moveTgt` of the surface move. -/
def findFollowPath.moveTarget (C : Config) (iterPos steerPos : Vec3)
    (endOfPath offMeshConnection : Bool) : Vec3 :=
  let delta := dtVsub steerPos iterPos
  let len := C.dtMathSqrtf (dtVdot delta delta)
  -- If the steer target is end of path or off-mesh link, do not move past the location.
  let len1 : Rat :=
    if (endOfPath || offMeshConnection) && decide (len < STEP_SIZE) then 1 else STEP_SIZE / len
  dtVmad iterPos delta len1

/-- The block "Move": the surface move, the two corridor fixups and the height re-snap; returns the
corridor buffer, `npolys` and the new `iterPos`.  The library fills at most 16 visited
polygons. -/
def findFollowPath.move (C : Config) (q : dtNavMeshQuery) (polys : List dtPolyRef) (npolys : Nat)
    (iterPos moveTgt : Vec3) : Except Fault (List dtPolyRef × Nat × Vec3) :=
  match polys[0]? with
  | none => .error .polysOOB
  | some p0 =>
    let moved := q.moveAlongSurface p0 iterPos moveTgt
    let visited := moved.2.take 16
    match fixupCorridor polys npolys C.MAX_POLYS visited visited.length with
    | none => .error .polysOOB
    | some (polys1, npolys1) =>
      match fixupShortcuts polys1 npolys1 q with
      | none => .error .polysOOB
      | some (polys2, npolys2) =>
        match polys2[0]? with
        | none => .error .polysOOB
        | some p1 =>
          .ok (polys2, npolys2, ⟨moved.1.x, (q.getPolyHeight p1 moved.1).getD 0, moved.1.z⟩)

/-- The block "Reached off-mesh connection": the corridor advance and the handling of the connection;
returns the corridor buffer, `npolys`, `iterPos`, `smoothPath` and `numSmoothPath`. -/
def findFollowPath.offMesh (C : Config) (q : dtNavMeshQuery) (mesh : dtNavMesh)
    (polys : List dtPolyRef) (npolys : Nat) (steerPosRef : dtPolyRef) (iterPos : Vec3)
    (smoothPath : List Rat) (numSmoothPath : Nat) :
    Except Fault (List dtPolyRef × Nat × Vec3 × List Rat × Nat) :=
  -- Advance the path up to and over the off-mesh connection.
  match findFollowPath.advance polys npolys steerPosRef with
  | none => .error .polysOOB
  | some (polys1, npolys1, prevRef, polyRef) =>
    -- Handle the connection.
    match mesh.getOffMeshConnectionPolyEndPoints prevRef polyRef with
    | none => .ok (polys1, npolys1, iterPos, smoothPath, numSmoothPath)
    | some (startPos, endPos) =>
      match findFollowPath.appendConnection C smoothPath numSmoothPath startPos with
      | .error e => .error e
      | .ok (smoothPath1, numSmoothPath1) =>
        -- Move position at the other side of the off-mesh link.
        match polys1[0]? with
        | none => .error .polysOOB
        | some p0 =>
          .ok (polys1, npolys1, ⟨endPos.x, (q.getPolyHeight p0 endPos).getD 0, endPos.z⟩,
            smoothPath1, numSmoothPath1)

/-- One iteration of the smoothing loop of `findFollowPath`: `true` when the iteration
leaves the loop by `break`. -/
def findFollowPath.step (C : Config) (q : dtNavMeshQuery) (mesh : dtNavMesh) (targetPos : Vec3)
    (s : SmoothState) : Except Fault (Bool × SmoothState) :=
  -- Find location to steer towards.
  match getSteerTarget q s.iterPos targetPos SLOP s.polys s.npolys with
  | none => .ok (true, s)
  | some (steerPos, steerPosFlag, steerPosRef) =>
    let endOfPath : Bool := steerPosFlag &&& DT_STRAIGHTPATH_END != 0
    let offMeshConnection : Bool := steerPosFlag &&& DT_STRAIGHTPATH_OFFMESH_CONNECTION != 0
    let moveTgt := findFollowPath.moveTarget C s.iterPos steerPos endOfPath offMeshConnection
    match findFollowPath.move C q s.polys s.npolys s.iterPos moveTgt with
    | .error e => .error e
    | .ok (polys2, npolys2, iterPos) =>
      -- Handle end of path and off-mesh links when close enough.
      if endOfPath && inRange iterPos steerPos SLOP 1 then
        -- Reached end of path.
        match findFollowPath.append C s.smoothPath s.numSmoothPath targetPos with
        | .error e => .error e
        | .ok (smoothPath1, numSmoothPath1) =>
          .ok (true, ⟨polys2, npolys2, targetPos, smoothPath1, numSmoothPath1⟩)
      else
        match (if offMeshConnection && inRange iterPos steerPos SLOP 1 then
            findFollowPath.offMesh C q mesh polys2 npolys2 steerPosRef iterPos
              s.smoothPath s.numSmoothPath
          else .ok (polys2, npolys2, iterPos, s.smoothPath, s.numSmoothPath)) with
        | .error e => .error e
        | .ok (polys3, npolys3, iterPos3, smoothPath3, numSmoothPath3) =>
          -- Store results.
          match findFollowPath.append C smoothPath3 numSmoothPath3 iterPos3 with
          | .error e => .error e
          | .ok (smoothPath4, numSmoothPath4) =>
            .ok (false, ⟨polys3, npolys3, iterPos3, smoothPath4, numSmoothPath4⟩)

/-- The loop `while( npolys && numSmoothPath < MAX_SMOOTH )`: the state at the exit of the
loop and the number of iterations that were started.  The first argument bounds the
number of iterations of the model. -/
def findFollowPath.loop (C : Config) (q : dtNavMeshQuery) (mesh : dtNavMesh) (targetPos : Vec3) :
    Nat → SmoothState → Except Fault (SmoothState × Nat)
  | 0, s =>
    if s.npolys ≠ 0 ∧ s.numSmoothPath < C.MAX_SMOOTH then .error .outOfFuel else .ok (s, 0)
  | fuel + 1, s =>
    if s.npolys ≠ 0 ∧ s.numSmoothPath < C.MAX_SMOOTH then
      match findFollowPath.step C q mesh targetPos s with
      | .error e => .error e
      | .ok (true, s1) => .ok (s1, 1)
      | .ok (false, s1) =>
        match findFollowPath.loop C q mesh targetPos fuel s1 with
        | .error e => .error e
        | .ok (s2, k) => .ok (s2, k + 1)
    else .ok (s, 0)

/-- The loop `for( i = 0; i < numSmoothPath; i += 3 )` that fills `resultCoords`, at index
`i`; the first argument bounds the number of iterations of the model. -/
def findFollowPath.collect (smoothPath : List Rat) (numSmoothPath : Nat) :
    Nat → Nat → List FFXIVARR_POSITION3 → Except Fault (List FFXIVARR_POSITION3)
  | 0, i, resultCoords => if i < numSmoothPath then .error .outOfFuel else .ok resultCoords
  | fuel + 1, i, resultCoords =>
    if i < numSmoothPath then
      match smoothPath[i]?, smoothPath[i + 1]?, smoothPath[i + 2]? with
      | some x, some y, some z =>
        findFollowPath.collect smoothPath numSmoothPath fuel (i + 3) (resultCoords ++ [⟨x, y, z⟩])
      | _, _, _ => .error .smoothOOB
    else .ok resultCoords

/-- What a call of `findFollowPath` that returns has done: the returned vector, the state
of the smoothing loop at its exit (`none` when the loop was never reached) and the number
of iterations of the smoothing loop. -/
structure Trace where
  resultCoords : List FFXIVARR_POSITION3
  final : Option SmoothState
  steps : Nat
  deriving DecidableEq, Repr

/-- The function `NaviProvider::findFollowPath`, with the record of its run.  The library fills at most
`MAX_POLYS` corridor entries; the rest of `polys` and all of `smoothPath` start out as
zeros. -/
def findFollowPath.run (C : Config) (P : NaviProvider) (startPos endPos : FFXIVARR_POSITION3) :
    Except Fault Trace :=
  match P.m_naviMesh, P.m_naviMeshQuery with
  | some mesh, some q =>
    let spos : Vec3 := ⟨startPos.x, startPos.y, startPos.z⟩
    let epos : Vec3 := ⟨endPos.x, endPos.y, endPos.z⟩
    let startRef := q.findNearestPoly spos P.m_polyFindRange
    let endRef := q.findNearestPoly epos P.m_polyFindRange
    -- Couldn't find any close polys to navigate from
    if startRef = 0 ∨ endRef = 0 then .ok ⟨[], none, 0⟩
    else
      let found := (q.findPath startRef endRef spos epos).take C.MAX_POLYS
      let numPolys := found.length
      -- Check if we got polys back for navigation
      if numPolys ≠ 0 then
        let polys := found ++ List.replicate (C.MAX_POLYS - numPolys) 0
        let npolys := numPolys
        let iterPos := q.closestPointOnPoly startRef spos
        match polys[npolys - 1]? with
        | none => .error .polysOOB
        | some last =>
          let targetPos := q.closestPointOnPoly last epos
          match dtVcopyAt (List.replicate (C.MAX_SMOOTH * 3) 0) 0 iterPos with
          | none => .error .smoothOOB
          | some smoothPath =>
            match findFollowPath.loop C q mesh targetPos C.MAX_SMOOTH
                ⟨polys, npolys, iterPos, smoothPath, 1⟩ with
            | .error e => .error e
            | .ok (s, steps) =>
              match findFollowPath.collect s.smoothPath s.numSmoothPath s.numSmoothPath 0 [] with
              | .error e => .error e
              | .ok resultCoords => .ok ⟨resultCoords, some s, steps⟩
      else .ok ⟨[], none, 0⟩
  | _, _ => .error .noNavimesh

/-- The function `NaviProvider::findFollowPath`: the returned vector, or the fault that ends the call. -/
def findFollowPath (C : Config) (P : NaviProvider) (startPos endPos : FFXIVARR_POSITION3) :
    Except Fault (List FFXIVARR_POSITION3) :=
  match findFollowPath.run C P startPos endPos with
  | .error e => .error e
  | .ok t => .ok t.resultCoords

/-! ## Reference and auxiliary definitions -/

/-- Largest index below `k` whose corridor entry occurs in `vs`. -/
def lastCommon (path vs : List dtPolyRef) : Nat → Option Nat
  | 0 => none
  | k + 1 =>
    match path[k]? with
    | some p => if p ∈ vs then some k else lastCommon path vs k
    | none => lastCommon path vs k

/-- The corridor §4.3 (d) describes: the visited polygons from index `j` on, most recent
first, then the old corridor beyond index `i`, cut to `maxPath` entries. -/
def rebuiltCorridor (corridor visited : List dtPolyRef) (i j maxPath : Nat) : List dtPolyRef :=
  ((visited.drop j).reverse ++ corridor.drop (i + 1)).take maxPath

/-- Largest index `i` with `1 < i < k` whose corridor entry is in `neis`, or `0`. -/
def lastAhead (path neis : List dtPolyRef) : Nat → Nat
  | 0 => 0
  | i + 1 =>
    if 1 < i then
      match path[i]? with
      | some p => if p ∈ neis then i else lastAhead path neis i
      | none => lastAhead path neis i
    else 0

/-- Waypoint `k` of the smoothing buffer: the three floats at offsets `3k`, `3k+1`, `3k+2`. -/
def waypoint (smoothPath : List Rat) (k : Nat) : FFXIVARR_POSITION3 :=
  ⟨smoothPath.getD (3 * k) 0, smoothPath.getD (3 * k + 1) 0, smoothPath.getD (3 * k + 2) 0⟩

/-! ## Concrete inputs -/

/-- A mesh in which polygon `1` has links to the polygons `2`, `4` and `9` (and one link
without a neighbour), and whose off-mesh connection runs from `(2,0,0)` to `(4,0,0)`. -/
def exampleMesh : dtNavMesh where
  polyLinks := fun r => if r = 1 then some [0, 2, 4, 9] else none
  getOffMeshConnectionPolyEndPoints := fun _ _ => some (⟨2, 0, 0⟩, ⟨4, 0, 0⟩)

/-- Flat ground covered by the single polygon `1`: the corridor is `[1]`, the straight
path leads directly to the end point, the surface move reaches its target. -/
def straightQuery : dtNavMeshQuery where
  getAttachedNavMesh := exampleMesh
  findNearestPoly := fun _ _ => 1
  findPath := fun _ _ _ _ => [1]
  closestPointOnPoly := fun _ v => v
  findStraightPath := fun _ e _ => [⟨e, DT_STRAIGHTPATH_END, 0⟩]
  moveAlongSurface := fun r _ t => (t, [r])
  getPolyHeight := fun _ _ => some 0

/-- Flat ground with the corridor `[1, 2, 3]`, polygon `2` being an off-mesh connection
that starts at `(2,0,0)`: the straight path leads to the start of the connection. -/
def offMeshQuery : dtNavMeshQuery where
  getAttachedNavMesh := exampleMesh
  findNearestPoly := fun _ _ => 1
  findPath := fun _ _ _ _ => [1, 2, 3]
  closestPointOnPoly := fun _ v => v
  findStraightPath := fun _ _ _ => [⟨⟨2, 0, 0⟩, DT_STRAIGHTPATH_OFFMESH_CONNECTION, 2⟩]
  moveAlongSurface := fun r _ t => (t, [r])
  getPolyHeight := fun _ _ => some 0

def straightProvider : NaviProvider := ⟨some exampleMesh, some straightQuery, ⟨10, 20, 10⟩⟩
def offMeshProvider : NaviProvider := ⟨some exampleMesh, some offMeshQuery, ⟨10, 20, 10⟩⟩

/-- Capacities 256 and 2048, square root exact on squares. -/
def exampleConfig : Config := ⟨256, 2048, Rat.sqrt⟩

/-- The same with an odd `MAX_SMOOTH`. -/
def oddConfig : Config := ⟨256, 3, Rat.sqrt⟩

/-- A query context that finds no polygon near any position. -/
def lostQuery : dtNavMeshQuery where
  getAttachedNavMesh := exampleMesh
  findNearestPoly := fun _ _ => 0
  findPath := fun _ _ _ _ => []
  closestPointOnPoly := fun _ v => v
  findStraightPath := fun _ _ _ => []
  moveAlongSurface := fun _ v _ => (v, [])
  getPolyHeight := fun _ _ => none

def lostProvider : NaviProvider := ⟨some exampleMesh, some lostQuery, ⟨10, 20, 10⟩⟩

/-! ## `loadMesh` -/

/-- The function `NaviProvider::hasNaviMesh`. -/
def hasNaviMesh (P : NaviProvider) : Bool := P.m_naviMesh.isSome

/-- The struct `NavMeshSetHeader`; `params` are the raw `dtNavMeshParams`. -/
structure NavMeshSetHeader where
  magic : Int
  version : Int
  numTiles : Int
  params : List Nat

/-- The struct `NavMeshTileHeader`; `dataSize` is the value that `dtAlloc` and `fread`
receive as a `size_t`. -/
structure NavMeshTileHeader where
  tileRef : Nat
  dataSize : Nat

/-- The declarations of `NaviProvider.h` that `loadMesh` uses (the header is not part of
the sources at hand): the two constants, the sizes of the two structs and the structs
that a block of bytes of these sizes denotes. -/
structure AssetFormat where
  NAVMESHSET_MAGIC : Int
  NAVMESHSET_VERSION : Int
  sizeofNavMeshSetHeader : Nat
  sizeofNavMeshTileHeader : Nat
  asNavMeshSetHeader : List Nat → NavMeshSetHeader
  asNavMeshTileHeader : List Nat → NavMeshTileHeader

/-- The environment of a call of `loadMesh`: the file system and the Detour library. -/
structure LoadEnv where
  /-- The bytes of the file at `path`, `none` when `fopen` returns null. -/
  fopen : Option (List Nat)
  /-- The mesh returned by `dtAllocNavMesh()`, `none` for null. -/
  dtAllocNavMesh : Option dtNavMesh
  /-- The call `init( &header.params )`: whether the status is a success, and the mesh
  after the call. -/
  init : dtNavMesh → List Nat → Bool × dtNavMesh
  /-- Whether `dtAlloc( dataSize, DT_ALLOC_PERM )` returns memory in iteration `i`. -/
  dtAlloc : Nat → Nat → Bool
  /-- The mesh after `addTile( data, dataSize, DT_TILE_FREE_DATA, tileRef, 0 )`. -/
  addTile : dtNavMesh → List Nat → Nat → dtNavMesh

/-- The `std::runtime_error`s of `loadMesh`. -/
inductive LoadError where
  /-- The message "Could open navimesh file". -/
  | couldOpen
  /-- The message "Could not read NavMeshSetHeader". -/
  | headerRead
  /-- The message "Not a NavMeshSet". -/
  | notNavMeshSet
  /-- The message "Invalid NavMeshSet version". -/
  | invalidVersion
  /-- The message "Could not allocate dtNavMesh". -/
  | allocate
  /-- The message "Could not initialize dtNavMesh". -/
  | initFailed
  /-- The message "Could not read NavMeshTileHeader". -/
  | tileHeaderRead
  /-- The message "Could not read tile data". -/
  | tileDataRead
  deriving DecidableEq, Repr

/-- What a call of `loadMesh` leaves behind: the exception it threw (`none` when it
returned), the provider after the call and the `addTile` calls it made, in order, each
with its tile reference and its data. -/
structure LoadResult where
  thrown : Option LoadError
  provider : NaviProvider
  added : List (Nat × List Nat)

/-- The call `fread( buffer, size, 1, fp )` on the rest `fp` of the stream: `none` when it
returns 0 (fewer than `size` bytes are left, or `size` is zero), otherwise the bytes read
and the rest of the stream. -/
def fread (size : Nat) (fp : List Nat) : Option (List Nat × List Nat) :=
  if size = 0 then none
  else if size ≤ fp.length then some (fp.take size, fp.drop size)
  else none

/-- The block `if( !m_naviMesh )` of `loadMesh`: the mesh to load into, or the exception
thrown together with `m_naviMesh` at that moment. -/
def loadMesh.ensureMesh (E : LoadEnv) (m_naviMesh : Option dtNavMesh) (params : List Nat) :
    Except (LoadError × Option dtNavMesh) dtNavMesh :=
  match m_naviMesh with
  | some mesh => .ok mesh
  | none =>
    match E.dtAllocNavMesh with
    | none => .error (.allocate, none)
    | some mesh =>
      let r := E.init mesh params
      if r.1 then .ok r.2 else .error (.initFailed, some r.2)

/-- The loop `for( i = 0; i < header.numTiles; ++i )` of `loadMesh` ("Read tiles"), at
index `i` with `todo = numTiles - i` iterations left: the exception thrown, if any, the
mesh and the `addTile` calls made. -/
def loadMesh.tiles (F : AssetFormat) (E : LoadEnv) :
    Nat → Nat → List Nat → dtNavMesh → List (Nat × List Nat) →
      Option LoadError × dtNavMesh × List (Nat × List Nat)
  | 0, _, _, mesh, added => (none, mesh, added)
  | todo + 1, i, fp, mesh, added =>
    match fread F.sizeofNavMeshTileHeader fp with
    | none => (some .tileHeaderRead, mesh, added)
    | some (bytes, fp1) =>
      let tileHeader := F.asNavMeshTileHeader bytes
      if tileHeader.tileRef = 0 ∨ tileHeader.dataSize = 0 then (none, mesh, added)
      else if E.dtAlloc i tileHeader.dataSize = false then (none, mesh, added)
      else
        match fread tileHeader.dataSize fp1 with
        | none => (some .tileDataRead, mesh, added)
        | some (data, fp2) =>
          loadMesh.tiles F E todo (i + 1) fp2 (E.addTile mesh data tileHeader.tileRef)
            (added ++ [(tileHeader.tileRef, data)])

/-- The function `NaviProvider::loadMesh`. -/
def loadMesh (F : AssetFormat) (E : LoadEnv) (P : NaviProvider) : LoadResult :=
  match E.fopen with
  | none => ⟨some .couldOpen, P, []⟩
  | some fp =>
    -- Read header.
    match fread F.sizeofNavMeshSetHeader fp with
    | none => ⟨some .headerRead, P, []⟩
    | some (bytes, fp1) =>
      let header := F.asNavMeshSetHeader bytes
      if header.magic ≠ F.NAVMESHSET_MAGIC then ⟨some .notNavMeshSet, P, []⟩
      else if header.version ≠ F.NAVMESHSET_VERSION then ⟨some .invalidVersion, P, []⟩
      else
        match loadMesh.ensureMesh E P.m_naviMesh header.params with
        | .error (e, m) => ⟨some e, { P with m_naviMesh := m }, []⟩
        | .ok mesh =>
          -- Read tiles.
          match loadMesh.tiles F E header.numTiles.toNat 0 fp1 mesh [] with
          | (thrown, mesh1, added) => ⟨thrown, { P with m_naviMesh := some mesh1 }, added⟩

/-- The bytes of a sequence of tile records, each a tile header followed by its payload. -/
def recordBytes : List (List Nat × List Nat) → List Nat
  | [] => []
  | r :: rs => r.1 ++ (r.2 ++ recordBytes rs)

/-- A complete tile record that is not a sentinel: a full tile header whose reference
and payload size are not zero, followed by a payload of that size. -/
def CompleteRecord (F : AssetFormat) (r : List Nat × List Nat) : Prop :=
  r.1.length = F.sizeofNavMeshTileHeader ∧ (F.asNavMeshTileHeader r.1).tileRef ≠ 0 ∧
    (F.asNavMeshTileHeader r.1).dataSize ≠ 0 ∧ r.2.length = (F.asNavMeshTileHeader r.1).dataSize

/-- A sentinel tile header: a full tile header whose reference or payload size is zero. -/
def SentinelHeader (F : AssetFormat) (h : List Nat) : Prop :=
  h.length = F.sizeofNavMeshTileHeader ∧
    ((F.asNavMeshTileHeader h).tileRef = 0 ∨ (F.asNavMeshTileHeader h).dataSize = 0)

/-- Tile records cut short: among the first `n` tile records of `bytes`
and before any sentinel record, some tile header or some tile payload is cut short by the
end of the data. -/
def tilesCutShort (F : AssetFormat) : Nat → List Nat → Bool
  | 0, _ => false
  | n + 1, bytes =>
    if bytes.length < F.sizeofNavMeshTileHeader then true
    else
      let h := F.asNavMeshTileHeader (bytes.take F.sizeofNavMeshTileHeader)
      if h.tileRef = 0 ∨ h.dataSize = 0 then false
      else if (bytes.drop F.sizeofNavMeshTileHeader).length < h.dataSize then true
      else tilesCutShort F n (bytes.drop (F.sizeofNavMeshTileHeader + h.dataSize))

/-- A malformed asset: the header is shorter than its fixed size, or
the magic or the version does not match, or a declared tile record is cut short. -/
def Malformed (F : AssetFormat) (asset : List Nat) : Prop :=
  asset.length < F.sizeofNavMeshSetHeader ∨
  (F.asNavMeshSetHeader (asset.take F.sizeofNavMeshSetHeader)).magic ≠ F.NAVMESHSET_MAGIC ∨
  (F.asNavMeshSetHeader (asset.take F.sizeofNavMeshSetHeader)).version ≠ F.NAVMESHSET_VERSION ∨
  tilesCutShort F (F.asNavMeshSetHeader (asset.take F.sizeofNavMeshSetHeader)).numTiles.toNat
    (asset.drop F.sizeofNavMeshSetHeader) = true

/-- An asset format with a header of 3 bytes (magic, version, number of tiles) and a tile
header of 2 bytes (tile reference, payload size); the magic is 77 and the version 1. -/
def exampleFormat : AssetFormat where
  NAVMESHSET_MAGIC := 77
  NAVMESHSET_VERSION := 1
  sizeofNavMeshSetHeader := 3
  sizeofNavMeshTileHeader := 2
  asNavMeshSetHeader := fun b => ⟨(b.getD 0 0 : Nat), (b.getD 1 0 : Nat), (b.getD 2 0 : Nat), []⟩
  asNavMeshTileHeader := fun b => ⟨b.getD 0 0, b.getD 1 0⟩

/-- An environment in which the file holds `asset` and every library call succeeds. -/
def goodEnv (asset : List Nat) : LoadEnv where
  fopen := some asset
  dtAllocNavMesh := some exampleMesh
  init := fun m _ => (true, m)
  dtAlloc := fun _ _ => true
  addTile := fun m _ _ => m

/-- An environment in which the file holds `asset` and the initialisation of the mesh
fails. -/
def initFailEnv (asset : List Nat) : LoadEnv where
  fopen := some asset
  dtAllocNavMesh := some exampleMesh
  init := fun m _ => (false, m)
  dtAlloc := fun _ _ => true
  addTile := fun m _ _ => m

/-- An environment in which the file holds `asset`, the mesh is allocated and
initialised, and `dtAlloc` returns memory only for requests below 4096 bytes. -/
def smallBufferEnv (asset : List Nat) : LoadEnv where
  fopen := some asset
  dtAllocNavMesh := some exampleMesh
  init := fun m _ => (true, m)
  dtAlloc := fun _ n => decide (n < 4096)
  addTile := fun m _ _ => m

/-- A provider without mesh and without query context. -/
def emptyProvider : NaviProvider := ⟨none, none, ⟨10, 20, 10⟩⟩

/-! ## Auxiliary definitions for the steering theorems -/

/-- Whether a look-ahead point ends the walk of `getSteerTarget`: it is an off-mesh link
or it is not in range of the cursor. -/
def stopsWalk (startPos : Vec3) (minTargetDist : Rat) (p : SteerPoint) : Prop :=
  (p.flag &&& DT_STRAIGHTPATH_OFFMESH_CONNECTION ≠ 0) ∨
    ¬ inRange p.pos startPos minTargetDist 1000 = true

/-- The value of `len` after `len = dtMathSqrtf( dtVdot( delta, delta ) )`. -/
def findFollowPath.deltaLen (C : Config) (iterPos steerPos : Vec3) : Rat :=
  C.dtMathSqrtf (dtVdot (dtVsub steerPos iterPos) (dtVsub steerPos iterPos))

/-- Whether the movement delta is scaled by `STEP_SIZE / len` (the `else` branch). -/
def findFollowPath.scales (C : Config) (iterPos steerPos : Vec3)
    (endOfPath offMeshConnection : Bool) : Bool :=
  !((endOfPath || offMeshConnection) &&
    decide (findFollowPath.deltaLen C iterPos steerPos < STEP_SIZE))

/-- A look-ahead whose only point is an ordinary path vertex (flag 0) of polygon `5`,
1000 units straight above the origin. -/
def aboveQuery : dtNavMeshQuery where
  getAttachedNavMesh := exampleMesh
  findNearestPoly := fun _ _ => 1
  findPath := fun _ _ _ _ => [1, 5]
  closestPointOnPoly := fun _ v => v
  findStraightPath := fun _ _ _ => [⟨⟨0, 1000, 0⟩, 0, 5⟩]
  moveAlongSurface := fun r _ t => (t, [r])
  getPolyHeight := fun _ _ => some 0

/-! ## Corridor maintenance: lemmas and theorems -/

theorem fixupCorridor.inner_eq (path visited : List dtPolyRef) (i : Nat) (p : dtPolyRef)
    (hp : path[i]? = some p) :
    ∀ (k : Nat) (s : Int × Int × Bool), k ≤ visited.length →
      fixupCorridor.inner path visited i k s =
        some (if p ∈ visited.take k then ((i : Int), (((visited.take k).indexOf p : Nat) : Int), true)
              else s) := by
  intro k
  induction k with
  | zero => intro s _; simp [fixupCorridor.inner]
  | succ k ih =>
    intro s hk
    have hk' : k < visited.length := hk
    have hv : visited[k]? = some visited[k] := List.getElem?_eq_getElem hk'
    rw [fixupCorridor.inner, hp, hv]
    simp only []
    rw [ih _ (Nat.le_of_lt hk')]
    have htake : visited.take (k + 1) = visited.take k ++ [visited[k]] := by
      rw [List.take_succ, hv]; rfl
    have hlen : (visited.take k).length = k := by simp [Nat.le_of_lt hk']
    by_cases hmem : p ∈ visited.take k
    · have h1 : p ∈ visited.take (k + 1) := by rw [htake]; exact List.mem_append_left _ hmem
      have h2 : (visited.take (k + 1)).indexOf p = (visited.take k).indexOf p := by
        rw [htake]; exact List.indexOf_append_of_mem hmem
      rw [if_pos hmem, if_pos h1, h2]
    · by_cases hpv : p = visited[k]
      · have h1 : p ∈ visited.take (k + 1) := by
          rw [htake]; exact List.mem_append_right _ (List.mem_singleton.mpr hpv)
        have h2 : (visited.take (k + 1)).indexOf p = k := by
          rw [htake, List.indexOf_append_of_not_mem hmem, hlen, hpv]; simp
        rw [if_neg hmem, if_pos hpv, if_pos h1, h2]
      · have h1 : p ∉ visited.take (k + 1) := by
          intro h
          rw [htake] at h
          rcases List.mem_append.mp h with h | h
          · exact hmem h
          · exact hpv (List.mem_singleton.mp h)
        rw [if_neg hmem, if_neg hpv, if_neg h1]

theorem fixupCorridor.outer_eq (path visited : List dtPolyRef) (nvisited : Nat)
    (hv : nvisited ≤ visited.length) :
    ∀ k : Nat, k ≤ path.length →
      fixupCorridor.outer path visited nvisited k (-1, -1) =
        some (match lastCommon path (visited.take nvisited) k with
              | some i => ((i : Int), (((visited.take nvisited).indexOf (path.getD i 0) : Nat) : Int))
              | none => (-1, -1)) := by
  intro k
  induction k with
  | zero => intro _; simp [fixupCorridor.outer, lastCommon]
  | succ k ih =>
    intro hk
    have hk' : k < path.length := hk
    have hp : path[k]? = some path[k] := List.getElem?_eq_getElem hk'
    rw [fixupCorridor.outer, fixupCorridor.inner_eq path visited k _ hp nvisited _ hv, lastCommon, hp]
    by_cases hmem : path[k] ∈ visited.take nvisited
    · simp [hmem, List.getD_eq_getElem?_getD, hp]
    · simp only [if_neg hmem]
      simpa using ih (Nat.le_of_lt hk')

theorem wr_eq {α : Type} (a : List α) (i : Nat) (v : α) (h : i < a.length) :
    wr a i v = some (a.set i v) := by
  simp [wr, h]

theorem fixupCorridor.store_eq (visited : List dtPolyRef) (nvisited : Nat)
    (hv : nvisited ≤ visited.length) :
    ∀ (todo i : Nat) (path : List dtPolyRef), i + todo ≤ path.length → i + todo ≤ nvisited →
      ∃ path1, fixupCorridor.store visited nvisited i todo path = some path1 ∧
        path1.length = path.length ∧
        ∀ idx, path1[idx]? =
          if i ≤ idx ∧ idx < i + todo then visited[nvisited - 1 - idx]? else path[idx]? := by
  intro todo
  induction todo with
  | zero =>
    intro i path _ _
    refine ⟨path, by simp [fixupCorridor.store], rfl, ?_⟩
    intro idx
    have : ¬ (i ≤ idx ∧ idx < i + 0) := by omega
    rw [if_neg this]
  | succ todo ih =>
    intro i path hp hn
    have hlt : ¬ (((nvisited : Int) - 1) - i < 0) := by omega
    have hvi : nvisited - 1 - i < visited.length := by omega
    have hi : i < path.length := by omega
    obtain ⟨path1, h1, h2, h3⟩ := ih (i + 1) (path.set i visited[nvisited - 1 - i])
      (by simp; omega) (by omega)
    refine ⟨path1, ?_, by simpa using h2, ?_⟩
    · rw [fixupCorridor.store, if_neg hlt, List.getElem?_eq_getElem hvi]
      simp only []
      rw [wr_eq _ _ _ hi]
      exact h1
    · intro idx
      rw [h3 idx]
      by_cases hc : i + 1 ≤ idx ∧ idx < i + 1 + todo
      · rw [if_pos hc, if_pos (by omega)]
      · rw [if_neg hc]
        by_cases he : idx = i
        · subst he
          rw [if_pos (by omega), List.getElem?_set_self, List.getElem?_eq_getElem hvi]
          simp [hi]
        · rw [if_neg (by omega), List.getElem?_set_ne (Ne.symm he)]

theorem memmove_eq (a : List dtPolyRef) (dst src n : Nat)
    (hd : dst + n ≤ a.length) (hs : src + n ≤ a.length) :
    ∃ a1, memmove a (dst : Int) (src : Int) (n : Int) = some a1 ∧ a1.length = a.length ∧
      ∀ idx, a1[idx]? =
        if dst ≤ idx ∧ idx < dst + n then a[src + (idx - dst)]? else a[idx]? := by
  have hc : (0 : Int) ≤ dst ∧ (0 : Int) ≤ src ∧ (0 : Int) ≤ n ∧
      (dst : Int) + n ≤ a.length ∧ (src : Int) + n ≤ a.length := by
    refine ⟨by omega, by omega, by omega, by omega, by omega⟩
  refine ⟨_, by rw [memmove, if_pos hc], ?_, ?_⟩
  · simp; omega
  · intro idx
    simp only [Int.toNat_ofNat]
    by_cases h1 : idx < dst
    · rw [if_neg (by omega), List.getElem?_append_left (by simp; omega), List.getElem?_take_of_lt h1]
    · rw [List.getElem?_append_right (by simp; omega)]
      have hl : (List.take dst a).length = dst := by simp; omega
      rw [hl]
      by_cases h2 : idx < dst + n
      · rw [if_pos (by omega), List.getElem?_append_left (by simp; omega),
          List.getElem?_take_of_lt (by omega), List.getElem?_drop]
      · rw [if_neg (by omega), List.getElem?_append_right (by simp; omega)]
        have hl2 : (List.take n (List.drop src a)).length = n := by simp; omega
        rw [hl2, List.getElem?_drop]
        congr 1
        omega

theorem lastCommon_none (path vs : List dtPolyRef) :
    ∀ k, lastCommon path vs k = none →
      ∀ i p, i < k → path[i]? = some p → p ∉ vs := by
  intro k
  induction k with
  | zero => intro _ i p hi; omega
  | succ k ih =>
    intro h i p hi hp
    rw [lastCommon] at h
    by_cases hik : i = k
    · subst hik
      rw [hp] at h
      simp only [] at h
      by_cases hm : p ∈ vs
      · rw [if_pos hm] at h; cases h
      · exact hm
    · have h' : lastCommon path vs k = none := by
        cases hpk : path[k]? with
        | none => rw [hpk] at h; exact h
        | some q =>
          rw [hpk] at h
          simp only [] at h
          by_cases hm : q ∈ vs
          · rw [if_pos hm] at h; cases h
          · rw [if_neg hm] at h; exact h
      exact ih h' i p (by omega) hp

theorem lastCommon_some (path vs : List dtPolyRef) :
    ∀ k i, lastCommon path vs k = some i →
      i < k ∧ (∃ p, path[i]? = some p ∧ p ∈ vs) ∧
        ∀ i1 p1, i < i1 → i1 < k → path[i1]? = some p1 → p1 ∉ vs := by
  intro k
  induction k with
  | zero => intro i h; simp [lastCommon] at h
  | succ k ih =>
    intro i h
    rw [lastCommon] at h
    cases hpk : path[k]? with
    | none =>
      rw [hpk] at h
      obtain ⟨h1, h2, h3⟩ := ih i h
      refine ⟨by omega, h2, ?_⟩
      intro i1 p1 hlt hlt2 hp1
      by_cases hik : i1 = k
      · subst hik; rw [hpk] at hp1; cases hp1
      · exact h3 i1 p1 hlt (by omega) hp1
    | some q =>
      rw [hpk] at h
      simp only [] at h
      by_cases hm : q ∈ vs
      · rw [if_pos hm] at h
        cases h
        exact ⟨by omega, ⟨q, hpk, hm⟩, by intro i1 p1 h1 h2; omega⟩
      · rw [if_neg hm] at h
        obtain ⟨h1, h2, h3⟩ := ih i h
        refine ⟨by omega, h2, ?_⟩
        intro i1 p1 hlt hlt2 hp1
        by_cases hik : i1 = k
        · subst hik; rw [hpk] at hp1; cases hp1; exact hm
        · exact h3 i1 p1 hlt (by omega) hp1

theorem lastCommon_of_spec (path vs : List dtPolyRef) (i : Nat) (p : dtPolyRef)
    (hp : path[i]? = some p) (hm : p ∈ vs) :
    ∀ k, i < k → (∀ i1 p1, i < i1 → i1 < k → path[i1]? = some p1 → p1 ∉ vs) →
      lastCommon path vs k = some i := by
  intro k
  induction k with
  | zero => intro h; omega
  | succ k ih =>
    intro hik hno
    rw [lastCommon]
    by_cases he : i = k
    · subst he; rw [hp]; simp only []; rw [if_pos hm]
    · have hrec := ih (by omega) (fun i1 p1 h1 h2 h3 => hno i1 p1 h1 (by omega) h3)
      cases hpk : path[k]? with
      | none => simpa using hrec
      | some q =>
        simp only []
        rw [if_neg (hno k q (by omega) (by omega) hpk)]
        exact hrec

theorem lastCommon_of_none (path vs : List dtPolyRef) :
    ∀ k, (∀ i p, i < k → path[i]? = some p → p ∉ vs) → lastCommon path vs k = none := by
  intro k
  induction k with
  | zero => intro _; rfl
  | succ k ih =>
    intro hno
    rw [lastCommon]
    have hrec := ih (fun i p h1 h2 => hno i p (by omega) h2)
    cases hpk : path[k]? with
    | none => simpa using hrec
    | some q =>
      simp only []
      rw [if_neg (hno k q (by omega) hpk)]
      exact hrec

theorem fixupCorridor_none (path : List dtPolyRef) (npath maxPath : Nat)
    (visited : List dtPolyRef) (nvisited : Nat)
    (hnp : npath ≤ path.length) (hv : nvisited ≤ visited.length)
    (h : lastCommon path (visited.take nvisited) npath = none) :
    fixupCorridor path npath maxPath visited nvisited = some (path, npath) := by
  rw [fixupCorridor, fixupCorridor.outer_eq path visited nvisited hv npath hnp, h]
  simp

theorem fixupCorridor_found (path : List dtPolyRef) (npath maxPath : Nat)
    (visited : List dtPolyRef) (nvisited : Nat) (i : Nat)
    (hcap : maxPath ≤ path.length) (hnp : npath ≤ maxPath)
    (hv : nvisited ≤ visited.length) (hvm : nvisited ≤ maxPath)
    (h : lastCommon path (visited.take nvisited) npath = some i) :
    ∃ path1, fixupCorridor path npath maxPath visited nvisited =
        some (path1, min (nvisited - (visited.take nvisited).indexOf (path.getD i 0)
                + (npath - (i + 1))) maxPath) ∧
      path1.length = path.length ∧
      (visited.take nvisited).indexOf (path.getD i 0) < nvisited ∧
      ∀ idx, path1[idx]? =
        if idx < nvisited - (visited.take nvisited).indexOf (path.getD i 0) then
          visited[nvisited - 1 - idx]?
        else if idx < min (nvisited - (visited.take nvisited).indexOf (path.getD i 0)
                + (npath - (i + 1))) maxPath then
          path[i + 1 + (idx - (nvisited - (visited.take nvisited).indexOf (path.getD i 0)))]?
        else path[idx]? := by
  obtain ⟨hik, ⟨p, hp, hm⟩, -⟩ := lastCommon_some _ _ _ _ h
  have hgd : path.getD i 0 = p := by simp [List.getD_eq_getElem?_getD, hp]
  rw [hgd]
  generalize hj : (visited.take nvisited).indexOf p = j
  have hjlt : j < nvisited := by
    have := List.indexOf_lt_length.mpr hm
    rw [hj] at this
    simp at this
    omega
  rw [fixupCorridor, fixupCorridor.outer_eq path visited nvisited hv npath (by omega), h]
  simp only [hgd, hj]
  rw [if_neg (by omega)]
  have e1 : min ((i : Int) + 1) (npath : Int) = ((i + 1 : Nat) : Int) := by omega
  have e2 : (nvisited : Int) - (j : Int) = ((nvisited - j : Nat) : Int) := by omega
  rw [e1, e2]
  have e3 : max (0 : Int) ((npath : Int) - ((i + 1 : Nat) : Int)) = ((npath - (i + 1) : Nat) : Int) := by
    omega
  rw [e3]
  by_cases hbig : nvisited - j + (npath - (i + 1)) > maxPath
  · have c1 : ((nvisited - j : Nat) : Int) + ((npath - (i + 1) : Nat) : Int) > (maxPath : Int) := by
      omega
    rw [if_pos c1]
    have e4 : (maxPath : Int) - ((nvisited - j : Nat) : Int) = ((maxPath - (nvisited - j) : Nat) : Int) := by
      omega
    rw [e4]
    obtain ⟨a1, ha1, hl1, hg1⟩ := memmove_eq path (nvisited - j) (i + 1) (maxPath - (nvisited - j))
      (by omega) (by omega)
    have hmm : (if ((maxPath - (nvisited - j) : Nat) : Int) ≠ 0 then
        memmove path ((nvisited - j : Nat) : Int) ((i + 1 : Nat) : Int) ((maxPath - (nvisited - j) : Nat) : Int)
        else some path) = some a1 := by
      by_cases hz : maxPath - (nvisited - j) = 0
      · rw [if_neg (by omega)]
        rw [hz] at ha1
        rw [← ha1, memmove, if_pos (by refine ⟨by omega, by omega, by omega, by omega, by omega⟩)]
        simp
      · rw [if_pos (by omega)]; exact ha1
    rw [hmm]
    simp only [Int.toNat_ofNat]
    obtain ⟨a2, ha2, hl2, hg2⟩ := fixupCorridor.store_eq visited nvisited hv (nvisited - j) 0 a1
      (by omega) (by omega)
    rw [ha2]
    have e5 : (((nvisited - j : Nat) : Int) + ((maxPath - (nvisited - j) : Nat) : Int)).toNat
        = min (nvisited - j + (npath - (i + 1))) maxPath := by omega
    simp only [e5]
    refine ⟨a2, rfl, by omega, hjlt, ?_⟩
    intro idx
    rw [hg2 idx, hg1 idx]
    by_cases q1 : idx < nvisited - j
    · rw [if_pos (by omega), if_pos q1]
    · rw [if_neg (by omega), if_neg q1]
      by_cases q2 : idx < min (nvisited - j + (npath - (i + 1))) maxPath
      · rw [if_pos (by omega), if_pos q2]
      · rw [if_neg (by omega), if_neg q2]
  · have c1 : ¬ (((nvisited - j : Nat) : Int) + ((npath - (i + 1) : Nat) : Int) > (maxPath : Int)) := by
      omega
    rw [if_neg c1]
    obtain ⟨a1, ha1, hl1, hg1⟩ := memmove_eq path (nvisited - j) (i + 1) (npath - (i + 1))
      (by omega) (by omega)
    have hmm : (if ((npath - (i + 1) : Nat) : Int) ≠ 0 then
        memmove path ((nvisited - j : Nat) : Int) ((i + 1 : Nat) : Int) ((npath - (i + 1) : Nat) : Int)
        else some path) = some a1 := by
      by_cases hz : npath - (i + 1) = 0
      · rw [if_neg (by omega)]
        rw [hz] at ha1
        rw [← ha1, memmove, if_pos (by refine ⟨by omega, by omega, by omega, by omega, by omega⟩)]
        simp
      · rw [if_pos (by omega)]; exact ha1
    rw [hmm]
    simp only [Int.toNat_ofNat]
    obtain ⟨a2, ha2, hl2, hg2⟩ := fixupCorridor.store_eq visited nvisited hv (nvisited - j) 0 a1
      (by omega) (by omega)
    rw [ha2]
    have e5 : (((nvisited - j : Nat) : Int) + ((npath - (i + 1) : Nat) : Int)).toNat
        = min (nvisited - j + (npath - (i + 1))) maxPath := by omega
    simp only [e5]
    refine ⟨a2, rfl, by omega, hjlt, ?_⟩
    intro idx
    rw [hg2 idx, hg1 idx]
    by_cases q1 : idx < nvisited - j
    · rw [if_pos (by omega), if_pos q1]
    · rw [if_neg (by omega), if_neg q1]
      by_cases q2 : idx < min (nvisited - j + (npath - (i + 1))) maxPath
      · rw [if_pos (by omega), if_pos q2]
      · rw [if_neg (by omega), if_neg q2]

theorem indexOf_getElem?_take (visited : List dtPolyRef) (nvisited : Nat) (p : dtPolyRef)
    (hm : p ∈ visited.take nvisited) :
    visited[(visited.take nvisited).indexOf p]? = some p ∧
      (visited.take nvisited).indexOf p < nvisited := by
  have hlt := List.indexOf_lt_length.mpr hm
  have hg := List.getElem_indexOf hlt
  have hlt2 : (visited.take nvisited).indexOf p < nvisited := by
    simp at hlt; omega
  refine ⟨?_, hlt2⟩
  rw [← List.getElem?_take_of_lt hlt2, List.getElem?_eq_getElem hlt, hg]

theorem take_eq_rebuilt (path path1 visited : List dtPolyRef) (npath maxPath nvisited i j n1 : Nat)
    (hnp : npath ≤ path.length) (hv : nvisited ≤ visited.length)
    (hi : i < npath) (hj : j < nvisited) (hl : path1.length = path.length)
    (hn1 : n1 = min (nvisited - j + (npath - (i + 1))) maxPath)
    (hg : ∀ idx, path1[idx]? =
        if idx < nvisited - j then visited[nvisited - 1 - idx]?
        else if idx < n1 then path[i + 1 + (idx - (nvisited - j))]?
        else path[idx]?) :
    path1.take n1 = rebuiltCorridor (path.take npath) (visited.take nvisited) i j maxPath := by
  apply List.ext_getElem?
  intro idx
  rw [rebuiltCorridor, List.getElem?_take, List.getElem?_take]
  have hlr : ((visited.take nvisited).drop j).reverse.length = nvisited - j := by
    simp; omega
  by_cases h1 : idx < n1
  · rw [if_pos h1, if_pos (by omega), hg idx]
    by_cases h2 : idx < nvisited - j
    · rw [if_pos h2, List.getElem?_append_left (by omega),
        List.getElem?_reverse (by simp; omega), List.getElem?_drop,
        List.getElem?_take_of_lt (by simp; omega)]
      congr 1
      simp
      omega
    · rw [if_neg h2, if_pos h1, List.getElem?_append_right (by omega), hlr,
        List.getElem?_drop, List.getElem?_take_of_lt (by omega)]
  · rw [if_neg h1]
    by_cases h3 : idx < maxPath
    · rw [if_pos h3]
      symm
      apply List.getElem?_eq_none
      simp
      omega
    · rw [if_neg h3]

/-- Claim C7. `fixupCorridor` agrees with its reference definition.  For a corridor buffer
that holds `maxPath` entries, `npath ≤ maxPath` of them in use, and a visited list without
repeated references of `nvisited ≤ maxPath` entries: if no reference occurs in both lists
the buffer and the length are returned unchanged; otherwise, with `i` the largest corridor
index whose entry occurs in the visited list and `j` the index of that reference in the
visited list, the returned length is `min (nvisited - j + npath - i - 1) maxPath` and the
corridor is `visited[nvisited-1], ..., visited[j]` followed by
`corridor[i+1], ..., corridor[npath-1]`, cut to `maxPath` entries. -/
theorem fixupCorridor_refines_reference (path : List dtPolyRef) (npath maxPath : Nat)
    (visited : List dtPolyRef) (nvisited : Nat)
    (hcap : maxPath ≤ path.length) (hnp : npath ≤ maxPath)
    (hv : nvisited ≤ visited.length) (hvm : nvisited ≤ maxPath)
    (hnd : (visited.take nvisited).Nodup) :
    ((∀ p, p ∈ path.take npath → p ∉ visited.take nvisited) →
        fixupCorridor path npath maxPath visited nvisited = some (path, npath)) ∧
    (∀ i j p, i < npath → j < nvisited → path[i]? = some p → visited[j]? = some p →
      (∀ i1 p1, i < i1 → i1 < npath → path[i1]? = some p1 → p1 ∉ visited.take nvisited) →
      ∃ path1, fixupCorridor path npath maxPath visited nvisited =
          some (path1, min (nvisited - j + npath - i - 1) maxPath) ∧
        path1.length = path.length ∧
        path1.take (min (nvisited - j + npath - i - 1) maxPath) =
          rebuiltCorridor (path.take npath) (visited.take nvisited) i j maxPath) := by
  constructor
  · intro hno
    apply fixupCorridor_none path npath maxPath visited nvisited (by omega) hv
    apply lastCommon_of_none
    intro i p hi hp
    apply hno
    rw [List.mem_iff_getElem?]
    exact ⟨i, by rw [List.getElem?_take_of_lt hi]; exact hp⟩
  · intro i j p hi hj hp hvj hno
    have hm : p ∈ visited.take nvisited := by
      rw [List.mem_iff_getElem?]
      exact ⟨j, by rw [List.getElem?_take_of_lt hj]; exact hvj⟩
    have hlc := lastCommon_of_spec path (visited.take nvisited) i p hp hm npath hi hno
    obtain ⟨path1, h1, h2, h3, h4⟩ :=
      fixupCorridor_found path npath maxPath visited nvisited i hcap hnp hv hvm hlc
    have hgd : path.getD i 0 = p := by simp [List.getD_eq_getElem?_getD, hp]
    have hjl : j < (visited.take nvisited).length := by simp; omega
    have hidx : (visited.take nvisited).indexOf p = j := by
      have hpe : (visited.take nvisited)[j] = p := by
        have := List.getElem?_take_of_lt (l := visited) hj
        rw [hvj, List.getElem?_eq_getElem hjl] at this
        exact Option.some.inj this
      rw [← hpe]
      exact List.indexOf_getElem hnd j hjl
    rw [hgd, hidx] at h1 h4
    have hn : min (nvisited - j + npath - i - 1) maxPath
        = min (nvisited - j + (npath - (i + 1))) maxPath := by omega
    rw [hn]
    refine ⟨path1, h1, h2, ?_⟩
    exact take_eq_rebuilt path path1 visited npath maxPath nvisited i j _ (by omega) hv hi hj h2 rfl h4

/-- Witness of C7: the corridor `[1,2,3,4,5]` in a buffer of 8; no common polygon with the
visited list `[6,7]`, and the common polygon `3` (corridor index 2, visited index 1) with the
visited list `[2,3,9]`. -/
theorem fixupCorridor_refines_reference_witness :
    fixupCorridor [1, 2, 3, 4, 5, 0, 0, 0] 5 8 [6, 7] 2 = some ([1, 2, 3, 4, 5, 0, 0, 0], 5) ∧
    ∃ path1, fixupCorridor [1, 2, 3, 4, 5, 0, 0, 0] 5 8 [2, 3, 9] 3 = some (path1, 4) ∧
      path1.length = 8 ∧ path1.take 4 = [9, 3, 4, 5] :=
  ⟨(fixupCorridor_refines_reference [1, 2, 3, 4, 5, 0, 0, 0] 5 8 [6, 7] 2
      (by decide) (by decide) (by decide) (by decide) (by decide)).1 (by decide),
    (fixupCorridor_refines_reference [1, 2, 3, 4, 5, 0, 0, 0] 5 8 [2, 3, 9] 3
      (by decide) (by decide) (by decide) (by decide) (by decide)).2 2 1 3
      (by decide) (by decide) rfl rfl
      (by
        intro i1 p1 h1 h2 h3
        have hi : i1 = 3 ∨ i1 = 4 := by omega
        rcases hi with rfl | rfl
        · cases h3; decide
        · cases h3; decide)⟩

/-- Claim C6. `fixupCorridor` is idempotent.  For a corridor buffer that holds `maxPath`
entries, `npath ≤ maxPath` of them in use, and a visited list of `nvisited ≤ maxPath`
entries, the first application returns a buffer and a length, and a second application
with the same visited list to that result returns the same length and the same buffer. -/
theorem fixupCorridor_idempotent (path : List dtPolyRef) (npath maxPath : Nat)
    (visited : List dtPolyRef) (nvisited : Nat)
    (hcap : maxPath ≤ path.length) (hnp : npath ≤ maxPath)
    (hv : nvisited ≤ visited.length) (hvm : nvisited ≤ maxPath) :
    ∃ path1 n1, fixupCorridor path npath maxPath visited nvisited = some (path1, n1) ∧
      fixupCorridor path1 n1 maxPath visited nvisited = some (path1, n1) := by
  cases hlc : lastCommon path (visited.take nvisited) npath with
  | none =>
    have h := fixupCorridor_none path npath maxPath visited nvisited (by omega) hv hlc
    exact ⟨path, npath, h, h⟩
  | some i =>
    obtain ⟨path1, h1, h2, h3, h4⟩ :=
      fixupCorridor_found path npath maxPath visited nvisited i hcap hnp hv hvm hlc
    obtain ⟨hik, ⟨p, hp, hm⟩, hno⟩ := lastCommon_some _ _ _ _ hlc
    have hgd : path.getD i 0 = p := by simp [List.getD_eq_getElem?_getD, hp]
    rw [hgd] at h1 h3 h4
    obtain ⟨hvp, -⟩ := indexOf_getElem?_take visited nvisited p hm
    generalize hj : (visited.take nvisited).indexOf p = j at h1 h3 h4 hvp
    generalize hn1 : min (nvisited - j + (npath - (i + 1))) maxPath = n1 at h1 h4
    refine ⟨path1, n1, h1, ?_⟩
    -- the last visited-or-corridor entry of the new corridor is the old common polygon
    have hp1 : path1[nvisited - j - 1]? = some p := by
      rw [h4, if_pos (by omega), ← hvp]
      congr 1
      omega
    have hno1 : ∀ i1 p1, nvisited - j - 1 < i1 → i1 < n1 → path1[i1]? = some p1 →
        p1 ∉ visited.take nvisited := by
      intro i1 p1 ha hb hc
      rw [h4, if_neg (by omega), if_pos hb] at hc
      exact hno _ p1 (by omega) (by omega) hc
    have hlc1 := lastCommon_of_spec path1 (visited.take nvisited) (nvisited - j - 1) p hp1 hm n1
      (by omega) hno1
    obtain ⟨path2, g1, g2, g3, g4⟩ :=
      fixupCorridor_found path1 n1 maxPath visited nvisited (nvisited - j - 1)
        (by omega) (by omega) hv hvm hlc1
    have hgd1 : path1.getD (nvisited - j - 1) 0 = p := by simp [List.getD_eq_getElem?_getD, hp1]
    rw [hgd1, hj] at g1 g4
    have hn2 : min (nvisited - j + (n1 - (nvisited - j - 1 + 1))) maxPath = n1 := by omega
    rw [hn2] at g1 g4
    have heq : path2 = path1 := by
      apply List.ext_getElem?
      intro idx
      rw [g4]
      by_cases q1 : idx < nvisited - j
      · rw [if_pos q1, h4 idx, if_pos q1]
      · rw [if_neg q1]
        by_cases q2 : idx < n1
        · rw [if_pos q2]
          congr 1
          omega
        · rw [if_neg q2]
    rw [heq] at g1
    exact g1

/-- Witness of C6: corridor `[1,2,3,4,5]` in a buffer of 8, visited list `[2,3,9]`. -/
theorem fixupCorridor_idempotent_witness :
    (8 ≤ [1, 2, 3, 4, 5, 0, 0, 0].length ∧ 5 ≤ 8 ∧ 3 ≤ [2, 3, 9].length ∧ 3 ≤ 8) ∧
    ∃ path1 n1, fixupCorridor [1, 2, 3, 4, 5, 0, 0, 0] 5 8 [2, 3, 9] 3 = some (path1, n1) ∧
      fixupCorridor path1 n1 8 [2, 3, 9] 3 = some (path1, n1) :=
  ⟨⟨by decide, by decide, by decide, by decide⟩,
    fixupCorridor_idempotent [1, 2, 3, 4, 5, 0, 0, 0] 5 8 [2, 3, 9] 3
      (by decide) (by decide) (by decide) (by decide)⟩

theorem fixupShortcuts.collect_spec (maxNeis : Nat) :
    ∀ (links neis : List dtPolyRef), neis.length ≤ maxNeis →
      (fixupShortcuts.collect maxNeis links neis).length ≤ maxNeis ∧
      ∀ p, p ∈ fixupShortcuts.collect maxNeis links neis → p ∈ neis ∨ (p ∈ links ∧ p ≠ 0) := by
  intro links
  induction links with
  | nil => intro neis h; exact ⟨h, fun p hp => Or.inl hp⟩
  | cons r links ih =>
    intro neis h
    rw [fixupShortcuts.collect]
    by_cases hr : r ≠ 0
    · rw [if_pos hr]
      by_cases hl : neis.length < maxNeis
      · rw [if_pos hl]
        obtain ⟨h1, h2⟩ := ih (neis ++ [r]) (by simp; omega)
        refine ⟨h1, ?_⟩
        intro p hp
        rcases h2 p hp with h3 | h3
        · rcases List.mem_append.mp h3 with h4 | h4
          · exact Or.inl h4
          · rw [List.mem_singleton] at h4
            subst h4
            exact Or.inr ⟨List.mem_cons_self _ _, hr⟩
        · exact Or.inr ⟨List.mem_cons_of_mem _ h3.1, h3.2⟩
      · rw [if_neg hl]
        obtain ⟨h1, h2⟩ := ih neis h
        refine ⟨h1, ?_⟩
        intro p hp
        rcases h2 p hp with h3 | h3
        · exact Or.inl h3
        · exact Or.inr ⟨List.mem_cons_of_mem _ h3.1, h3.2⟩
    · rw [if_neg hr]
      obtain ⟨h1, h2⟩ := ih neis h
      refine ⟨h1, ?_⟩
      intro p hp
      rcases h2 p hp with h3 | h3
      · exact Or.inl h3
      · exact Or.inr ⟨List.mem_cons_of_mem _ h3.1, h3.2⟩

theorem fixupShortcuts.lookInner_eq (path : List dtPolyRef) (i cut : Nat) (p : dtPolyRef)
    (hp : path[i]? = some p) :
    ∀ neis : List dtPolyRef,
      fixupShortcuts.inner path i cut neis = some (if p ∈ neis then i else cut) := by
  intro neis
  induction neis with
  | nil => simp [fixupShortcuts.inner]
  | cons n neis ih =>
    rw [fixupShortcuts.inner, hp]
    simp only []
    by_cases h : p = n
    · rw [if_pos h, if_pos (by rw [h]; exact List.mem_cons_self _ _)]
    · rw [if_neg h, ih]
      by_cases hm : p ∈ neis
      · rw [if_pos hm, if_pos (List.mem_cons_of_mem _ hm)]
      · rw [if_neg hm, if_neg (by
          intro hc
          rcases List.mem_cons.mp hc with h1 | h1
          · exact h h1
          · exact hm h1)]

theorem fixupShortcuts.outer_stop (path neis : List dtPolyRef) (k cut : Nat) (hc : cut ≠ 0) :
    fixupShortcuts.outer path neis k cut = some cut := by
  cases k with
  | zero => rfl
  | succ k => rw [fixupShortcuts.outer, if_neg (by omega)]

theorem fixupShortcuts.lookOuter_eq (path neis : List dtPolyRef) :
    ∀ k, k ≤ path.length →
      fixupShortcuts.outer path neis k 0 = some (lastAhead path neis k) := by
  intro k
  induction k with
  | zero => intro _; rfl
  | succ k ih =>
    intro hk
    have hk' : k < path.length := hk
    have hp : path[k]? = some path[k] := List.getElem?_eq_getElem hk'
    rw [fixupShortcuts.outer, lastAhead]
    by_cases h1 : 1 < k
    · rw [if_pos ⟨h1, rfl⟩, if_pos h1, fixupShortcuts.lookInner_eq path k 0 _ hp, hp]
      simp only []
      by_cases hm : path[k] ∈ neis
      · rw [if_pos hm, if_pos hm]
        exact fixupShortcuts.outer_stop path neis k k (by omega)
      · rw [if_neg hm, if_neg hm]
        exact ih (by omega)
    · rw [if_neg (by omega), if_neg h1]

theorem lastAhead_zero (path neis : List dtPolyRef) :
    ∀ k, (∀ i p, 1 < i → i < k → path[i]? = some p → p ∉ neis) → lastAhead path neis k = 0 := by
  intro k
  induction k with
  | zero => intro _; rfl
  | succ k ih =>
    intro hno
    rw [lastAhead]
    by_cases h1 : 1 < k
    · rw [if_pos h1]
      have hrec := ih (fun i p a b c => hno i p a (by omega) c)
      cases hpk : path[k]? with
      | none => simpa using hrec
      | some q =>
        simp only []
        rw [if_neg (hno k q h1 (by omega) hpk)]
        exact hrec
    · rw [if_neg h1]

theorem lastAhead_of_spec (path neis : List dtPolyRef) (c : Nat) (p : dtPolyRef)
    (hc : 1 < c) (hp : path[c]? = some p) (hm : p ∈ neis) :
    ∀ k, c < k → (∀ i q, c < i → i < k → path[i]? = some q → q ∉ neis) →
      lastAhead path neis k = c := by
  intro k
  induction k with
  | zero => intro h; omega
  | succ k ih =>
    intro hck hno
    rw [lastAhead, if_pos (by omega)]
    by_cases he : c = k
    · subst he; rw [hp]; simp only []; rw [if_pos hm]
    · have hrec := ih (by omega) (fun i q a b d => hno i q a (by omega) d)
      cases hpk : path[k]? with
      | none => simpa using hrec
      | some q =>
        simp only []
        rw [if_neg (hno k q (by omega) (by omega) hpk)]
        exact hrec

theorem lastAhead_lt (path neis : List dtPolyRef) :
    ∀ k, lastAhead path neis k = 0 ∨ (1 < lastAhead path neis k ∧ lastAhead path neis k < k) := by
  intro k
  induction k with
  | zero => left; rfl
  | succ k ih =>
    rw [lastAhead]
    by_cases h1 : 1 < k
    · rw [if_pos h1]
      cases hpk : path[k]? with
      | none =>
        simp only []
        rcases ih with h | h
        · left; exact h
        · right; omega
      | some q =>
        simp only []
        by_cases hm : q ∈ neis
        · rw [if_pos hm]; right; omega
        · rw [if_neg hm]
          rcases ih with h | h
          · left; exact h
          · right; omega
    · rw [if_neg h1]; left; rfl

theorem fixupShortcuts.shift_eq (offset : Nat) :
    ∀ (todo i : Nat) (path : List dtPolyRef), i + todo + offset ≤ path.length →
      ∃ path1, fixupShortcuts.shift offset i todo path = some path1 ∧
        path1.length = path.length ∧
        ∀ idx, path1[idx]? =
          if i ≤ idx ∧ idx < i + todo then path[idx + offset]? else path[idx]? := by
  intro todo
  induction todo with
  | zero =>
    intro i path _
    refine ⟨path, rfl, rfl, ?_⟩
    intro idx
    rw [if_neg (by omega)]
  | succ todo ih =>
    intro i path hp
    have hr : i + offset < path.length := by omega
    have hi : i < path.length := by omega
    obtain ⟨path1, h1, h2, h3⟩ := ih (i + 1) (path.set i path[i + offset]) (by simp; omega)
    refine ⟨path1, ?_, by simpa using h2, ?_⟩
    · rw [fixupShortcuts.shift, List.getElem?_eq_getElem hr]
      simp only []
      rw [wr_eq _ _ _ hi]
      exact h1
    · intro idx
      rw [h3 idx]
      by_cases hc : i + 1 ≤ idx ∧ idx < i + 1 + todo
      · rw [if_pos hc, if_pos (by omega), List.getElem?_set_ne (by omega)]
      · rw [if_neg hc]
        by_cases he : idx = i
        · subst he
          rw [if_pos (by omega), List.getElem?_set_self hi, List.getElem?_eq_getElem hr]
        · rw [if_neg (by omega), List.getElem?_set_ne (Ne.symm he)]

theorem fixupShortcuts_eq (path : List dtPolyRef) (npath : Nat) (navQuery : dtNavMeshQuery)
    (head : dtPolyRef) (links : List dtPolyRef)
    (h3 : 3 ≤ npath) (hnp : npath ≤ path.length) (hh : path[0]? = some head)
    (hl : navQuery.getAttachedNavMesh.polyLinks head = some links) :
    (lastAhead path (fixupShortcuts.collect 16 links []) (min 6 npath) = 0 →
      fixupShortcuts path npath navQuery = some (path, npath)) ∧
    (1 < lastAhead path (fixupShortcuts.collect 16 links []) (min 6 npath) →
      ∃ path1, fixupShortcuts path npath navQuery =
          some (path1, npath - (lastAhead path (fixupShortcuts.collect 16 links []) (min 6 npath) - 1)) ∧
        path1.length = path.length ∧
        ∀ idx, path1[idx]? =
          if 1 ≤ idx ∧ idx <
              npath - (lastAhead path (fixupShortcuts.collect 16 links []) (min 6 npath) - 1) then
            path[idx + (lastAhead path (fixupShortcuts.collect 16 links []) (min 6 npath) - 1)]?
          else path[idx]?) := by
  have hout := fixupShortcuts.lookOuter_eq path (fixupShortcuts.collect 16 links []) (min 6 npath)
    (by omega)
  have hlt := lastAhead_lt path (fixupShortcuts.collect 16 links []) (min 6 npath)
  generalize lastAhead path (fixupShortcuts.collect 16 links []) (min 6 npath) = c at hout hlt
  constructor
  · intro hc
    rw [fixupShortcuts, if_neg (by omega), hh]
    simp only []
    rw [hl]
    simp only []
    rw [hout]
    simp only []
    rw [if_neg (by omega)]
  · intro hc
    have hc2 : c < min 6 npath := by omega
    obtain ⟨path1, g1, g2, g3⟩ := fixupShortcuts.shift_eq (c - 1) (npath - (c - 1) - 1) 1 path
      (by omega)
    refine ⟨path1, ?_, g2, ?_⟩
    · rw [fixupShortcuts, if_neg (by omega), hh]
      simp only []
      rw [hl]
      simp only []
      rw [hout]
      simp only []
      rw [if_pos hc, g1]
    · intro idx
      rw [g3 idx]
      by_cases q : 1 ≤ idx ∧ idx < npath - (c - 1)
      · rw [if_pos q, if_pos (by omega)]
      · rw [if_neg q, if_neg (by omega)]

/-- Claim C8. `fixupShortcuts` never lengthens the corridor and is a no-op when no eligible
neighbour reappears ahead.  For every buffer with `npath` entries in use and every mesh the
call returns a length `≤ npath`; and when `npath < 3`, or the head polygon does not resolve,
or no entry at a position `2 ≤ i < min 6 npath` is one of the collected neighbours of the
head (the first 16 non-null link references, so in particular when no such entry is a link
reference of the head at all), the buffer and the length are returned unchanged. -/
theorem fixupShortcuts_never_longer (path : List dtPolyRef) (npath : Nat)
    (navQuery : dtNavMeshQuery) (hnp : npath ≤ path.length) :
    (∃ path1 n1, fixupShortcuts path npath navQuery = some (path1, n1) ∧ n1 ≤ npath) ∧
    ((npath < 3 ∨
        (∀ head, path[0]? = some head → navQuery.getAttachedNavMesh.polyLinks head = none) ∨
        (∀ head links i p, path[0]? = some head →
          navQuery.getAttachedNavMesh.polyLinks head = some links →
          2 ≤ i → i < min 6 npath → path[i]? = some p →
          p ∉ fixupShortcuts.collect 16 links [])) →
      fixupShortcuts path npath navQuery = some (path, npath)) := by
  by_cases h3 : npath < 3
  · have h : fixupShortcuts path npath navQuery = some (path, npath) := by
      rw [fixupShortcuts, if_pos h3]
    exact ⟨⟨path, npath, h, Nat.le_refl _⟩, fun _ => h⟩
  · have hh : path[0]? = some path[0] := List.getElem?_eq_getElem (by omega)
    cases hl : navQuery.getAttachedNavMesh.polyLinks path[0] with
    | none =>
      have h : fixupShortcuts path npath navQuery = some (path, npath) := by
        rw [fixupShortcuts, if_neg h3, hh]
        simp only []
        rw [hl]
      exact ⟨⟨path, npath, h, Nat.le_refl _⟩, fun _ => h⟩
    | some links =>
      obtain ⟨e0, e1⟩ := fixupShortcuts_eq path npath navQuery path[0] links (by omega) hnp hh hl
      have hlt := lastAhead_lt path (fixupShortcuts.collect 16 links []) (min 6 npath)
      constructor
      · rcases hlt with hz | hz
        · exact ⟨path, npath, e0 hz, Nat.le_refl _⟩
        · obtain ⟨path1, g1, -, -⟩ := e1 hz.1
          exact ⟨path1, _, g1, by omega⟩
      · intro hcase
        rcases hcase with hc | hc | hc
        · omega
        · have := hc _ hh
          rw [hl] at this
          cases this
        · apply e0
          apply lastAhead_zero
          intro i p hi1 hi2 hp
          exact hc _ links i p hh hl (by omega) hi2 hp

/-- Claim C9. `fixupShortcuts` excises the entries between the head and the reappearing
neighbour.  For a corridor of `npath ≥ 3` entries whose head resolves with link references
`links`, if the entry at a position `c` with `2 ≤ c < min 6 npath` is one of the collected
neighbours and no entry at a larger position below `min 6 npath` is, the returned length is
`npath - c + 1` and the corridor is `corridor[0]` followed by
`corridor[c], ..., corridor[npath-1]`. -/
theorem fixupShortcuts_excises (path : List dtPolyRef) (npath : Nat) (navQuery : dtNavMeshQuery)
    (head : dtPolyRef) (links : List dtPolyRef) (c : Nat) (p : dtPolyRef)
    (h3 : 3 ≤ npath) (hnp : npath ≤ path.length) (hh : path[0]? = some head)
    (hl : navQuery.getAttachedNavMesh.polyLinks head = some links)
    (hc2 : 2 ≤ c) (hc6 : c < min 6 npath) (hp : path[c]? = some p)
    (hm : p ∈ fixupShortcuts.collect 16 links [])
    (hlast : ∀ i q, c < i → i < min 6 npath → path[i]? = some q →
      q ∉ fixupShortcuts.collect 16 links []) :
    ∃ path1, fixupShortcuts path npath navQuery = some (path1, npath - c + 1) ∧
      path1.take (npath - c + 1) = head :: (path.take npath).drop c := by
  have hn : npath - (c - 1) = npath - c + 1 := by omega
  obtain ⟨-, e1⟩ := fixupShortcuts_eq path npath navQuery head links h3 hnp hh hl
  have hla := lastAhead_of_spec path (fixupShortcuts.collect 16 links []) c p (by omega) hp hm
    (min 6 npath) hc6 hlast
  rw [hla, hn] at e1
  obtain ⟨path1, g1, g2, g3⟩ := e1 (by omega)
  refine ⟨path1, g1, ?_⟩
  apply List.ext_getElem?
  intro idx
  rw [List.getElem?_take, g3 idx]
  cases idx with
  | zero =>
    rw [if_pos (by omega), if_neg (by omega), hh]
    simp
  | succ k =>
    rw [List.getElem?_cons_succ, List.getElem?_drop, List.getElem?_take]
    by_cases q : k + 1 < npath - c + 1
    · rw [if_pos q, if_pos ⟨by omega, q⟩, if_pos (by omega)]
      congr 1
      omega
    · rw [if_neg q, if_neg (by omega)]

theorem findFollowPath.advanceScan_bound (polys : List dtPolyRef) (steerPosRef : dtPolyRef) :
    ∀ (todo : Nat) (prevRef polyRef : dtPolyRef) (npos : Nat), npos + todo ≤ polys.length →
      ∃ prevRef1 polyRef1 npos1,
        findFollowPath.advanceScan polys steerPosRef todo (prevRef, polyRef, npos)
          = some (prevRef1, polyRef1, npos1) ∧ npos ≤ npos1 ∧ npos1 ≤ npos + todo := by
  intro todo
  induction todo with
  | zero =>
    intro prevRef polyRef npos _
    exact ⟨prevRef, polyRef, npos, rfl, Nat.le_refl _, Nat.le_refl _⟩
  | succ todo ih =>
    intro prevRef polyRef npos h
    rw [findFollowPath.advanceScan]
    by_cases hne : polyRef ≠ steerPosRef
    · rw [if_pos hne, List.getElem?_eq_getElem (show npos < polys.length by omega)]
      simp only []
      obtain ⟨a, b, c, h1, h2, h3⟩ := ih polyRef polys[npos] (npos + 1) (by omega)
      exact ⟨a, b, c, h1, by omega, by omega⟩
    · rw [if_neg hne]
      exact ⟨prevRef, polyRef, npos, rfl, Nat.le_refl _, by omega⟩

theorem findFollowPath.advanceShift_eq (npos : Nat) :
    ∀ (todo i : Nat) (polys : List dtPolyRef), npos ≤ i → i + todo ≤ polys.length →
      ∃ polys1, findFollowPath.advanceShift npos i todo polys = some polys1 ∧
        polys1.length = polys.length ∧
        ∀ idx, polys1[idx]? =
          if i - npos ≤ idx ∧ idx < i - npos + todo then polys[idx + npos]? else polys[idx]? := by
  intro todo
  induction todo with
  | zero =>
    intro i polys _ _
    refine ⟨polys, rfl, rfl, ?_⟩
    intro idx
    rw [if_neg (by omega)]
  | succ todo ih =>
    intro i polys hi hp
    have hr : i < polys.length := by omega
    have hw : i - npos < polys.length := by omega
    obtain ⟨polys1, h1, h2, h3⟩ := ih (i + 1) (polys.set (i - npos) polys[i]) (by omega)
      (by simp; omega)
    refine ⟨polys1, ?_, by simpa using h2, ?_⟩
    · rw [findFollowPath.advanceShift, List.getElem?_eq_getElem hr]
      simp only []
      rw [wr_eq _ _ _ hw]
      exact h1
    · intro idx
      rw [h3 idx]
      by_cases hc : i + 1 - npos ≤ idx ∧ idx < i + 1 - npos + todo
      · rw [if_pos hc, if_pos (by omega), List.getElem?_set_ne (by omega)]
      · rw [if_neg hc]
        by_cases he : idx = i - npos
        · subst he
          rw [if_pos (by omega), List.getElem?_set_self hw, List.getElem?_eq_getElem (by omega)]
          congr 2
          omega
        · rw [if_neg (by omega), List.getElem?_set_ne (Ne.symm he)]

theorem findFollowPath.advance_ok (polys : List dtPolyRef) (npolys : Nat) (steerPosRef : dtPolyRef)
    (hpos : 0 < polys.length) (hnp : npolys ≤ polys.length) :
    ∃ polys1 n1 prevRef polyRef,
      findFollowPath.advance polys npolys steerPosRef = some (polys1, n1, prevRef, polyRef) ∧
        n1 ≤ npolys ∧ polys1.length = polys.length := by
  obtain ⟨a, b, c, h1, -, h3⟩ :=
    findFollowPath.advanceScan_bound polys steerPosRef npolys 0 polys[0] 0 (by omega)
  obtain ⟨polys1, g1, g2, -⟩ := findFollowPath.advanceShift_eq c (npolys - c) c polys
    (Nat.le_refl _) (by omega)
  refine ⟨polys1, npolys - c, a, b, ?_, by omega, g2⟩
  rw [findFollowPath.advance, List.getElem?_eq_getElem hpos]
  simp only []
  rw [h1]
  simp only []
  rw [g1]

theorem fixupCorridor_ok (path : List dtPolyRef) (npath maxPath : Nat)
    (visited : List dtPolyRef) (nvisited : Nat)
    (hcap : maxPath ≤ path.length) (hnp : npath ≤ maxPath)
    (hv : nvisited ≤ visited.length) (hvm : nvisited ≤ maxPath) :
    ∃ path1 n1, fixupCorridor path npath maxPath visited nvisited = some (path1, n1) ∧
      n1 ≤ maxPath ∧ path1.length = path.length ∧ (0 < npath → 0 < n1) := by
  cases hlc : lastCommon path (visited.take nvisited) npath with
  | none =>
    exact ⟨path, npath, fixupCorridor_none path npath maxPath visited nvisited (by omega) hv hlc,
      hnp, rfl, fun h => h⟩
  | some i =>
    obtain ⟨path1, h1, h2, h3, -⟩ :=
      fixupCorridor_found path npath maxPath visited nvisited i hcap hnp hv hvm hlc
    exact ⟨path1, _, h1, by omega, h2, by omega⟩

theorem fixupShortcuts_ok (path : List dtPolyRef) (npath : Nat) (navQuery : dtNavMeshQuery)
    (hnp : npath ≤ path.length) :
    ∃ path1 n1, fixupShortcuts path npath navQuery = some (path1, n1) ∧
      n1 ≤ npath ∧ path1.length = path.length ∧ (0 < npath → 0 < n1) := by
  by_cases h3 : npath < 3
  · exact ⟨path, npath, by rw [fixupShortcuts, if_pos h3], Nat.le_refl _, rfl, fun h => h⟩
  · have hh : path[0]? = some path[0] := List.getElem?_eq_getElem (by omega)
    cases hl : navQuery.getAttachedNavMesh.polyLinks path[0] with
    | none =>
      refine ⟨path, npath, ?_, Nat.le_refl _, rfl, fun h => h⟩
      rw [fixupShortcuts, if_neg h3, hh]
      simp only []
      rw [hl]
    | some links =>
      obtain ⟨e0, e1⟩ := fixupShortcuts_eq path npath navQuery path[0] links (by omega) hnp hh hl
      have hlt := lastAhead_lt path (fixupShortcuts.collect 16 links []) (min 6 npath)
      rcases hlt with hz | hz
      · exact ⟨path, npath, e0 hz, Nat.le_refl _, rfl, fun h => h⟩
      · obtain ⟨path1, g1, g2, -⟩ := e1 hz.1
        exact ⟨path1, _, g1, by omega, g2, by omega⟩

/-- Claim C10. The corridor length never exceeds its capacity.  For a corridor buffer of
exactly `MAX_POLYS ≥ 1` entries with `npolys ≤ MAX_POLYS` in use and a visited list of at
most `MAX_POLYS` entries, each corridor operation of a smoothing step (`fixupCorridor` with
`maxPath = MAX_POLYS`, `fixupShortcuts`, the off-mesh advance) completes without an access
outside the buffer (its bounds-checked model returns a result), returns a length
`≤ MAX_POLYS`, and leaves a buffer of `MAX_POLYS` entries. -/
theorem corridor_within_capacity (MAX_POLYS : Nat) (polys : List dtPolyRef) (npolys : Nat)
    (visited : List dtPolyRef) (nvisited : Nat) (navQuery : dtNavMeshQuery)
    (steerPosRef : dtPolyRef)
    (hM : 0 < MAX_POLYS) (hlen : polys.length = MAX_POLYS) (hnp : npolys ≤ MAX_POLYS)
    (hv : nvisited ≤ visited.length) (hvm : nvisited ≤ MAX_POLYS) :
    (∃ polys1 n1, fixupCorridor polys npolys MAX_POLYS visited nvisited = some (polys1, n1) ∧
        n1 ≤ MAX_POLYS ∧ polys1.length = MAX_POLYS) ∧
    (∃ polys1 n1, fixupShortcuts polys npolys navQuery = some (polys1, n1) ∧
        n1 ≤ MAX_POLYS ∧ polys1.length = MAX_POLYS) ∧
    (∃ polys1 n1 prevRef polyRef,
        findFollowPath.advance polys npolys steerPosRef = some (polys1, n1, prevRef, polyRef) ∧
        n1 ≤ MAX_POLYS ∧ polys1.length = MAX_POLYS) := by
  refine ⟨?_, ?_, ?_⟩
  · obtain ⟨p1, n1, h1, h2, h3, -⟩ :=
      fixupCorridor_ok polys npolys MAX_POLYS visited nvisited (by omega) hnp hv hvm
    exact ⟨p1, n1, h1, h2, by omega⟩
  · obtain ⟨p1, n1, h1, h2, h3, -⟩ := fixupShortcuts_ok polys npolys navQuery (by omega)
    exact ⟨p1, n1, h1, by omega, by omega⟩
  · obtain ⟨p1, n1, a, b, h1, h2, h3⟩ :=
      findFollowPath.advance_ok polys npolys steerPosRef (by omega) (by omega)
    exact ⟨p1, n1, a, b, h1, by omega, by omega⟩

/-- Witness of C8: the corridor `[1,2,3,4,5,6,7,9]` in a buffer of 10, head `1` with the
neighbours `2`, `4`, `9`. -/
theorem fixupShortcuts_never_longer_witness :
    8 ≤ [1, 2, 3, 4, 5, 6, 7, 9, 0, 0].length ∧
    ∃ path1 n1, fixupShortcuts [1, 2, 3, 4, 5, 6, 7, 9, 0, 0] 8 straightQuery = some (path1, n1) ∧
      n1 ≤ 8 :=
  ⟨by decide,
    (fixupShortcuts_never_longer [1, 2, 3, 4, 5, 6, 7, 9, 0, 0] 8 straightQuery (by decide)).1⟩

/-- Witness of C9: the neighbour `4` of the head reappears at position 3. -/
theorem fixupShortcuts_excises_witness :
    ∃ path1, fixupShortcuts [1, 2, 3, 4, 5, 6, 7, 9, 0, 0] 8 straightQuery = some (path1, 6) ∧
      path1.take 6 = [1, 4, 5, 6, 7, 9] :=
  fixupShortcuts_excises [1, 2, 3, 4, 5, 6, 7, 9, 0, 0] 8 straightQuery 1 [0, 2, 4, 9] 3 4
    (by decide) (by decide) rfl rfl (by decide) (by decide) rfl (by decide)
    (by
      intro i q h1 h2 h3
      have hi : i = 4 ∨ i = 5 := by
        have : i < 6 := by
          have h6 : min 6 8 = 6 := by decide
          omega
        omega
      rcases hi with rfl | rfl
      · cases h3; decide
      · cases h3; decide)

/-- Witness of C10: capacity 8, corridor `[1,2,3,4,5]`, visited list `[2,3,9]`. -/
theorem corridor_within_capacity_witness :
    (∃ polys1 n1, fixupCorridor [1, 2, 3, 4, 5, 0, 0, 0] 5 8 [2, 3, 9] 3 = some (polys1, n1) ∧
        n1 ≤ 8 ∧ polys1.length = 8) ∧
    (∃ polys1 n1, fixupShortcuts [1, 2, 3, 4, 5, 0, 0, 0] 5 straightQuery = some (polys1, n1) ∧
        n1 ≤ 8 ∧ polys1.length = 8) ∧
    (∃ polys1 n1 prevRef polyRef,
        findFollowPath.advance [1, 2, 3, 4, 5, 0, 0, 0] 5 3 = some (polys1, n1, prevRef, polyRef) ∧
        n1 ≤ 8 ∧ polys1.length = 8) :=
  corridor_within_capacity 8 [1, 2, 3, 4, 5, 0, 0, 0] 5 [2, 3, 9] 3 straightQuery 3
    (by decide) (by decide) (by decide) (by decide) (by decide)

/-! ## `findFollowPath`: lemmas -/

theorem wr_some {α : Type} (a a1 : List α) (i : Nat) (v : α) (h : wr a i v = some a1) :
    i < a.length ∧ a1 = a.set i v := by
  unfold wr at h
  by_cases hi : i < a.length
  · rw [if_pos hi] at h
    exact ⟨hi, (Option.some.inj h).symm⟩
  · rw [if_neg hi] at h
    cases h

theorem dtVcopyAt_eq (smoothPath : List Rat) (n : Nat) (v : Vec3)
    (h : n * 3 + 2 < smoothPath.length) :
    dtVcopyAt smoothPath n v
      = some (((smoothPath.set (n * 3) v.x).set (n * 3 + 1) v.y).set (n * 3 + 2) v.z) := by
  unfold dtVcopyAt
  rw [wr_eq _ _ _ (by omega)]
  simp only []
  rw [wr_eq _ _ _ (by simp; omega)]
  simp only []
  rw [wr_eq _ _ _ (by simp; omega)]

theorem dtVcopyAt_some (smoothPath smoothPath1 : List Rat) (n : Nat) (v : Vec3)
    (h : dtVcopyAt smoothPath n v = some smoothPath1) :
    n * 3 + 2 < smoothPath.length ∧ smoothPath1.length = smoothPath.length := by
  unfold dtVcopyAt at h
  cases h0 : wr smoothPath (n * 3) v.x with
  | none => rw [h0] at h; cases h
  | some b0 =>
    rw [h0] at h
    simp only [] at h
    cases h1 : wr b0 (n * 3 + 1) v.y with
    | none => rw [h1] at h; cases h
    | some b1 =>
      rw [h1] at h
      simp only [] at h
      obtain ⟨a0, e0⟩ := wr_some _ _ _ _ h0
      obtain ⟨a1, e1⟩ := wr_some _ _ _ _ h1
      obtain ⟨a2, e2⟩ := wr_some _ _ _ _ h
      subst e0 e1 e2
      simp at a1 a2 ⊢
      omega

theorem findFollowPath.append_ok (C : Config) (sp sp1 : List Rat) (n n1 : Nat) (v : Vec3)
    (h : findFollowPath.append C sp n v = .ok (sp1, n1)) :
    sp1.length = sp.length ∧
      ((n < C.MAX_SMOOTH ∧ n1 = n + 1 ∧ n * 3 + 2 < sp.length) ∨
        (¬ n < C.MAX_SMOOTH ∧ n1 = n ∧ sp1 = sp)) := by
  unfold findFollowPath.append at h
  by_cases hn : n < C.MAX_SMOOTH
  · rw [if_pos hn] at h
    cases hc : dtVcopyAt sp n v with
    | none => rw [hc] at h; cases h
    | some b =>
      rw [hc] at h
      simp only [Except.ok.injEq, Prod.mk.injEq] at h
      obtain ⟨h1, h2⟩ := h
      subst h1 h2
      obtain ⟨a, b1⟩ := dtVcopyAt_some _ _ _ _ hc
      exact ⟨b1, Or.inl ⟨hn, rfl, a⟩⟩
  · rw [if_neg hn] at h
    simp only [Except.ok.injEq, Prod.mk.injEq] at h
    obtain ⟨h1, h2⟩ := h
    subst h1 h2
    exact ⟨rfl, Or.inr ⟨hn, rfl, rfl⟩⟩

theorem findFollowPath.append_error (C : Config) (sp : List Rat) (n : Nat) (v : Vec3) (e : Fault)
    (h : findFollowPath.append C sp n v = .error e) :
    e = .smoothOOB ∧ n < C.MAX_SMOOTH ∧ ¬ n * 3 + 2 < sp.length := by
  unfold findFollowPath.append at h
  by_cases hn : n < C.MAX_SMOOTH
  · rw [if_pos hn] at h
    by_cases hl : n * 3 + 2 < sp.length
    · rw [dtVcopyAt_eq _ _ _ hl] at h; cases h
    · cases hc : dtVcopyAt sp n v with
      | none =>
        rw [hc] at h
        simp only [Except.error.injEq] at h
        exact ⟨h.symm, hn, hl⟩
      | some b => rw [hc] at h; cases h
  · rw [if_neg hn] at h; cases h

theorem findFollowPath.appendConnection_ok (C : Config) (sp sp1 : List Rat) (n n1 : Nat) (v : Vec3)
    (h : findFollowPath.appendConnection C sp n v = .ok (sp1, n1)) :
    sp1.length = sp.length ∧
      ((n < C.MAX_SMOOTH ∧ (n + 1) % 2 = 1 ∧ n1 = n + 2 ∧ (n + 1) * 3 + 2 < sp.length) ∨
        (n < C.MAX_SMOOTH ∧ (n + 1) % 2 = 0 ∧ n1 = n + 1 ∧ n * 3 + 2 < sp.length) ∨
        (¬ n < C.MAX_SMOOTH ∧ n1 = n ∧ sp1 = sp)) := by
  unfold findFollowPath.appendConnection at h
  by_cases hn : n < C.MAX_SMOOTH
  · rw [if_pos hn] at h
    cases hc : dtVcopyAt sp n v with
    | none => rw [hc] at h; cases h
    | some b =>
      rw [hc] at h
      simp only [] at h
      obtain ⟨a, b1⟩ := dtVcopyAt_some _ _ _ _ hc
      have hand : (n + 1) &&& 1 = (n + 1) % 2 := Nat.and_one_is_mod _
      by_cases hodd : (n + 1) &&& 1 ≠ 0
      · rw [if_pos hodd] at h
        cases hc2 : dtVcopyAt b (n + 1) v with
        | none => rw [hc2] at h; cases h
        | some b2 =>
          rw [hc2] at h
          simp only [Except.ok.injEq, Prod.mk.injEq] at h
          obtain ⟨h1, h2⟩ := h
          subst h1 h2
          obtain ⟨a2, b3⟩ := dtVcopyAt_some _ _ _ _ hc2
          refine ⟨by omega, Or.inl ⟨hn, by omega, rfl, by omega⟩⟩
      · rw [if_neg hodd] at h
        simp only [Except.ok.injEq, Prod.mk.injEq] at h
        obtain ⟨h1, h2⟩ := h
        subst h1 h2
        exact ⟨b1, Or.inr (Or.inl ⟨hn, by omega, rfl, a⟩)⟩
  · rw [if_neg hn] at h
    simp only [Except.ok.injEq, Prod.mk.injEq] at h
    obtain ⟨h1, h2⟩ := h
    subst h1 h2
    exact ⟨rfl, Or.inr (Or.inr ⟨hn, rfl, rfl⟩)⟩

theorem findFollowPath.appendConnection_error (C : Config) (sp : List Rat) (n : Nat) (v : Vec3)
    (e : Fault) (h : findFollowPath.appendConnection C sp n v = .error e) :
    e = .smoothOOB ∧ n < C.MAX_SMOOTH ∧
      (¬ n * 3 + 2 < sp.length ∨ ((n + 1) % 2 = 1 ∧ ¬ (n + 1) * 3 + 2 < sp.length)) := by
  unfold findFollowPath.appendConnection at h
  by_cases hn : n < C.MAX_SMOOTH
  · rw [if_pos hn] at h
    by_cases hl : n * 3 + 2 < sp.length
    · rw [dtVcopyAt_eq _ _ _ hl] at h
      simp only [] at h
      have hand : (n + 1) &&& 1 = (n + 1) % 2 := Nat.and_one_is_mod _
      by_cases hodd : (n + 1) &&& 1 ≠ 0
      · rw [if_pos hodd] at h
        by_cases hl2 : (n + 1) * 3 + 2 < sp.length
        · rw [dtVcopyAt_eq _ _ _ (by simp; omega)] at h; cases h
        · cases hc : dtVcopyAt (((sp.set (n * 3) v.x).set (n * 3 + 1) v.y).set (n * 3 + 2) v.z)
            (n + 1) v with
          | none =>
            rw [hc] at h
            simp only [Except.error.injEq] at h
            exact ⟨h.symm, hn, Or.inr ⟨by omega, hl2⟩⟩
          | some b => rw [hc] at h; cases h
      · rw [if_neg hodd] at h; cases h
    · cases hc : dtVcopyAt sp n v with
      | none =>
        rw [hc] at h
        simp only [Except.error.injEq] at h
        exact ⟨h.symm, hn, Or.inl hl⟩
      | some b =>
        have := (dtVcopyAt_some _ _ _ _ hc).1
        omega
  · rw [if_neg hn] at h; cases h

theorem findFollowPath.move_error (C : Config) (q : dtNavMeshQuery) (polys : List dtPolyRef)
    (npolys : Nat) (iterPos moveTgt : Vec3) (e : Fault)
    (h : findFollowPath.move C q polys npolys iterPos moveTgt = .error e) : e = .polysOOB := by
  unfold findFollowPath.move at h
  split at h
  · simp only [Except.error.injEq] at h; exact h.symm
  · simp only [] at h
    split at h
    · simp only [Except.error.injEq] at h; exact h.symm
    · split at h
      · simp only [Except.error.injEq] at h; exact h.symm
      · split at h
        · simp only [Except.error.injEq] at h; exact h.symm
        · cases h

theorem findFollowPath.move_ok (C : Config) (q : dtNavMeshQuery) (polys : List dtPolyRef)
    (npolys : Nat) (iterPos moveTgt : Vec3)
    (h16 : 16 ≤ C.MAX_POLYS) (hlen : polys.length = C.MAX_POLYS)
    (hnp : npolys ≤ C.MAX_POLYS) :
    ∃ polys2 npolys2 pos, findFollowPath.move C q polys npolys iterPos moveTgt
        = .ok (polys2, npolys2, pos) ∧
      polys2.length = C.MAX_POLYS ∧ npolys2 ≤ C.MAX_POLYS ∧ (0 < npolys → 0 < npolys2) := by
  have h0 : polys[0]? = some polys[0] := List.getElem?_eq_getElem (by omega)
  obtain ⟨p1, n1, e1, b1, l1, z1⟩ := fixupCorridor_ok polys npolys C.MAX_POLYS
    ((q.moveAlongSurface polys[0] iterPos moveTgt).2.take 16)
    ((q.moveAlongSurface polys[0] iterPos moveTgt).2.take 16).length
    (by omega) hnp (Nat.le_refl _) (by simp; omega)
  obtain ⟨p2, n2, e2, b2, l2, z2⟩ := fixupShortcuts_ok p1 n1 q (by omega)
  have h1 : p2[0]? = some p2[0] := List.getElem?_eq_getElem (by omega)
  refine ⟨p2, n2, ⟨(q.moveAlongSurface polys[0] iterPos moveTgt).1.x,
      (q.getPolyHeight p2[0] (q.moveAlongSurface polys[0] iterPos moveTgt).1).getD 0,
      (q.moveAlongSurface polys[0] iterPos moveTgt).1.z⟩, ?_, by omega, by omega,
    fun h => z2 (z1 h)⟩
  unfold findFollowPath.move
  rw [h0]
  simp only []
  rw [e1]
  simp only []
  rw [e2]
  simp only []
  rw [h1]

theorem findFollowPath.offMesh_error (C : Config) (q : dtNavMeshQuery) (mesh : dtNavMesh)
    (polys : List dtPolyRef) (npolys : Nat) (steerPosRef : dtPolyRef) (iterPos : Vec3)
    (sp : List Rat) (n : Nat) (e : Fault)
    (h : findFollowPath.offMesh C q mesh polys npolys steerPosRef iterPos sp n = .error e) :
    e = .polysOOB ∨ (e = .smoothOOB ∧ n < C.MAX_SMOOTH ∧
      (¬ n * 3 + 2 < sp.length ∨ ((n + 1) % 2 = 1 ∧ ¬ (n + 1) * 3 + 2 < sp.length))) := by
  unfold findFollowPath.offMesh at h
  split at h
  · simp only [Except.error.injEq] at h; exact Or.inl h.symm
  · split at h
    · cases h
    · split at h
      · rename_i e1 he1
        simp only [Except.error.injEq] at h
        subst h
        exact Or.inr (findFollowPath.appendConnection_error _ _ _ _ _ he1)
      · split at h
        · simp only [Except.error.injEq] at h; exact Or.inl h.symm
        · cases h

theorem findFollowPath.offMesh_ok (C : Config) (q : dtNavMeshQuery) (mesh : dtNavMesh)
    (polys : List dtPolyRef) (npolys : Nat) (steerPosRef : dtPolyRef) (iterPos : Vec3)
    (sp : List Rat) (n : Nat) (polys1 : List dtPolyRef) (npolys1 : Nat) (pos : Vec3)
    (sp1 : List Rat) (n1 : Nat)
    (h : findFollowPath.offMesh C q mesh polys npolys steerPosRef iterPos sp n
      = .ok (polys1, npolys1, pos, sp1, n1)) :
    sp1.length = sp.length ∧
      ((n < C.MAX_SMOOTH ∧ (n + 1) % 2 = 1 ∧ n1 = n + 2 ∧ (n + 1) * 3 + 2 < sp.length) ∨
        (n < C.MAX_SMOOTH ∧ (n + 1) % 2 = 0 ∧ n1 = n + 1 ∧ n * 3 + 2 < sp.length) ∨
        (n1 = n ∧ sp1 = sp)) ∧
      (0 < polys.length → npolys ≤ polys.length →
        polys1.length = polys.length ∧ npolys1 ≤ npolys) := by
  unfold findFollowPath.offMesh at h
  split at h
  · cases h
  · rename_i pa na prevRef polyRef hadv
    have hpol : 0 < polys.length → npolys ≤ polys.length →
        pa.length = polys.length ∧ na ≤ npolys := by
      intro g1 g2
      obtain ⟨x1, x2, x3, x4, x5, x6, x7⟩ :=
        findFollowPath.advance_ok polys npolys steerPosRef g1 g2
      rw [hadv] at x5
      simp only [Option.some.injEq, Prod.mk.injEq] at x5
      obtain ⟨y1, y2, -, -⟩ := x5
      subst y1 y2
      exact ⟨x7, x6⟩
    split at h
    · simp only [Except.ok.injEq, Prod.mk.injEq] at h
      obtain ⟨h1, h2, -, h4, h5⟩ := h
      subst h1 h2 h4 h5
      exact ⟨rfl, Or.inr (Or.inr ⟨rfl, rfl⟩), hpol⟩
    · split at h
      · cases h
      · rename_i spa na1 hac
        split at h
        · cases h
        · simp only [Except.ok.injEq, Prod.mk.injEq] at h
          obtain ⟨h1, h2, -, h4, h5⟩ := h
          subst h1 h2 h4 h5
          obtain ⟨c1, c2⟩ := findFollowPath.appendConnection_ok _ _ _ _ _ _ hac
          refine ⟨c1, ?_, hpol⟩
          rcases c2 with c | c | c
          · exact Or.inl c
          · exact Or.inr (Or.inl c)
          · exact Or.inr (Or.inr ⟨c.2.1, c.2.2⟩)

theorem findFollowPath.offMesh_polys (C : Config) (q : dtNavMeshQuery) (mesh : dtNavMesh)
    (polys : List dtPolyRef) (npolys : Nat) (steerPosRef : dtPolyRef) (iterPos : Vec3)
    (sp : List Rat) (n : Nat) (hpos : 0 < polys.length) (hnp : npolys ≤ polys.length) :
    findFollowPath.offMesh C q mesh polys npolys steerPosRef iterPos sp n ≠ .error .polysOOB := by
  intro h
  obtain ⟨x1, x2, x3, x4, x5, x6, x7⟩ := findFollowPath.advance_ok polys npolys steerPosRef hpos hnp
  unfold findFollowPath.offMesh at h
  rw [x5] at h
  simp only [] at h
  split at h
  · cases h
  · split at h
    · rename_i e1 he1
      have := (findFollowPath.appendConnection_error _ _ _ _ _ he1).1
      simp only [Except.error.injEq] at h
      rw [h] at this
      cases this
    · rw [List.getElem?_eq_getElem (show 0 < x1.length by omega)] at h
      cases h

/-- What one iteration does to the smoothing buffer when it returns: the buffer keeps its
size, the count does not decrease, it grows when the loop goes on, and it stays within
the buffer. -/
theorem findFollowPath.step_ok (C : Config) (q : dtNavMeshQuery) (mesh : dtNavMesh)
    (targetPos : Vec3) (s s1 : SmoothState) (b : Bool)
    (h : findFollowPath.step C q mesh targetPos s = .ok (b, s1)) :
    s1.smoothPath.length = s.smoothPath.length ∧
      s.numSmoothPath ≤ s1.numSmoothPath ∧
      (s.numSmoothPath < C.MAX_SMOOTH → b = false → s.numSmoothPath < s1.numSmoothPath) ∧
      (s.numSmoothPath ≤ C.MAX_SMOOTH → C.MAX_SMOOTH * 3 ≤ s.smoothPath.length →
        s.smoothPath.length ≤ C.MAX_SMOOTH * 3 → s1.numSmoothPath ≤ C.MAX_SMOOTH) := by
  unfold findFollowPath.step at h
  split at h
  · simp only [Except.ok.injEq, Prod.mk.injEq] at h
    obtain ⟨h1, h2⟩ := h
    subst h1 h2
    exact ⟨rfl, Nat.le_refl _, fun _ hb => (by cases hb), fun h _ _ => h⟩
  · simp only [] at h
    split at h
    · cases h
    · split at h
      · split at h
        · cases h
        · rename_i sp1 n1 hap
          simp only [Except.ok.injEq, Prod.mk.injEq] at h
          obtain ⟨h1, h2⟩ := h
          subst h1 h2
          obtain ⟨c1, c2⟩ := findFollowPath.append_ok _ _ _ _ _ _ hap
          refine ⟨c1, ?_, fun _ hb => (by cases hb), ?_⟩
          · rcases c2 with c | c <;> simp only [] <;> omega
          · intro g1 g2 g3
            rcases c2 with c | c <;> simp only [] <;> omega
      · split at h
        · cases h
        · rename_i polys3 npolys3 iterPos3 sp3 n3 hoff
          have hmid : sp3.length = s.smoothPath.length ∧
              ((s.numSmoothPath < C.MAX_SMOOTH ∧ (s.numSmoothPath + 1) % 2 = 1 ∧
                  n3 = s.numSmoothPath + 2 ∧ (s.numSmoothPath + 1) * 3 + 2 < s.smoothPath.length) ∨
                (s.numSmoothPath < C.MAX_SMOOTH ∧ (s.numSmoothPath + 1) % 2 = 0 ∧
                  n3 = s.numSmoothPath + 1 ∧ s.numSmoothPath * 3 + 2 < s.smoothPath.length) ∨
                (n3 = s.numSmoothPath ∧ sp3 = s.smoothPath)) := by
            split at hoff
            · obtain ⟨d1, d2, -⟩ := findFollowPath.offMesh_ok _ _ _ _ _ _ _ _ _ _ _ _ _ _ hoff
              exact ⟨d1, d2⟩
            · simp only [Except.ok.injEq, Prod.mk.injEq] at hoff
              obtain ⟨-, -, -, e4, e5⟩ := hoff
              subst e4 e5
              exact ⟨rfl, Or.inr (Or.inr ⟨rfl, rfl⟩)⟩
          split at h
          · cases h
          · rename_i sp4 n4 hap
            simp only [Except.ok.injEq, Prod.mk.injEq] at h
            obtain ⟨h1, h2⟩ := h
            subst h1 h2
            obtain ⟨c1, c2⟩ := findFollowPath.append_ok _ _ _ _ _ _ hap
            obtain ⟨m1, m2⟩ := hmid
            refine ⟨by simp only []; omega, ?_, ?_, ?_⟩
            · rcases c2 with c | c <;> rcases m2 with m | m | m <;> simp only [] <;> omega
            · intro g1 _
              rcases c2 with c | c <;> rcases m2 with m | m | m <;> simp only [] <;> omega
            · intro g1 g2 g3
              rcases c2 with c | c <;> rcases m2 with m | m | m <;> simp only [] <;> omega

/-- An iteration that ends in a fault ends in a memory fault, and a fault of `smoothPath`
needs a count below `MAX_SMOOTH` whose next odd value is outside the buffer. -/
theorem findFollowPath.step_error (C : Config) (q : dtNavMeshQuery) (mesh : dtNavMesh)
    (targetPos : Vec3) (s : SmoothState) (e : Fault)
    (h : findFollowPath.step C q mesh targetPos s = .error e) :
    e = .polysOOB ∨ (e = .smoothOOB ∧ s.numSmoothPath < C.MAX_SMOOTH ∧
      (¬ s.numSmoothPath * 3 + 2 < s.smoothPath.length ∨
        ((s.numSmoothPath + 1) % 2 = 1 ∧ ¬ (s.numSmoothPath + 1) * 3 + 2 < s.smoothPath.length) ∨
        (s.numSmoothPath + 1 < C.MAX_SMOOTH ∧
          ¬ (s.numSmoothPath + 1) * 3 + 2 < s.smoothPath.length) ∨
        (s.numSmoothPath + 2 < C.MAX_SMOOTH ∧
          ¬ (s.numSmoothPath + 2) * 3 + 2 < s.smoothPath.length))) := by
  unfold findFollowPath.step at h
  split at h
  · cases h
  · simp only [] at h
    split at h
    · rename_i e1 hm
      simp only [Except.error.injEq] at h
      subst h
      exact Or.inl (findFollowPath.move_error _ _ _ _ _ _ _ hm)
    · split at h
      · split at h
        · rename_i e1 hap
          simp only [Except.error.injEq] at h
          subst h
          obtain ⟨c1, c2, c3⟩ := findFollowPath.append_error _ _ _ _ _ hap
          exact Or.inr ⟨c1, c2, Or.inl c3⟩
        · cases h
      · split at h
        · rename_i e1 hoff
          simp only [Except.error.injEq] at h
          subst h
          split at hoff
          · rcases findFollowPath.offMesh_error _ _ _ _ _ _ _ _ _ _ hoff with c | ⟨c1, c2, c3⟩
            · exact Or.inl c
            · refine Or.inr ⟨c1, c2, ?_⟩
              rcases c3 with c | c
              · exact Or.inl c
              · exact Or.inr (Or.inl c)
          · cases hoff
        · rename_i polys3 npolys3 iterPos3 sp3 n3 hoff
          have hmid : sp3.length = s.smoothPath.length ∧
              ((s.numSmoothPath < C.MAX_SMOOTH ∧ (s.numSmoothPath + 1) % 2 = 1 ∧
                  n3 = s.numSmoothPath + 2 ∧ (s.numSmoothPath + 1) * 3 + 2 < s.smoothPath.length) ∨
                (s.numSmoothPath < C.MAX_SMOOTH ∧ (s.numSmoothPath + 1) % 2 = 0 ∧
                  n3 = s.numSmoothPath + 1 ∧ s.numSmoothPath * 3 + 2 < s.smoothPath.length) ∨
                (n3 = s.numSmoothPath ∧ sp3 = s.smoothPath)) := by
            split at hoff
            · obtain ⟨d1, d2, -⟩ := findFollowPath.offMesh_ok _ _ _ _ _ _ _ _ _ _ _ _ _ _ hoff
              exact ⟨d1, d2⟩
            · simp only [Except.ok.injEq, Prod.mk.injEq] at hoff
              obtain ⟨-, -, -, e4, e5⟩ := hoff
              subst e4 e5
              exact ⟨rfl, Or.inr (Or.inr ⟨rfl, rfl⟩)⟩
          split at h
          · rename_i e1 hap
            simp only [Except.error.injEq] at h
            subst h
            obtain ⟨c1, c2, c3⟩ := findFollowPath.append_error _ _ _ _ _ hap
            obtain ⟨m1, m2⟩ := hmid
            refine Or.inr ⟨c1, ?_, ?_⟩
            · rcases m2 with m | m | m <;> omega
            · rcases m2 with m | m | m
              · right; right; right
                refine ⟨by omega, ?_⟩
                rw [m.2.2.1] at c3
                omega
              · right; right; left
                refine ⟨by omega, ?_⟩
                rw [m.2.2.1] at c3
                omega
              · left
                rw [m.1] at c3
                omega
          · cases h

theorem findFollowPath.step_polys (C : Config) (q : dtNavMeshQuery) (mesh : dtNavMesh)
    (targetPos : Vec3) (s : SmoothState)
    (h16 : 16 ≤ C.MAX_POLYS) (hlen : s.polys.length = C.MAX_POLYS)
    (hnp : s.npolys ≤ C.MAX_POLYS) :
    findFollowPath.step C q mesh targetPos s ≠ .error .polysOOB ∧
      ∀ b s1, findFollowPath.step C q mesh targetPos s = .ok (b, s1) →
        s1.polys.length = C.MAX_POLYS ∧ s1.npolys ≤ C.MAX_POLYS := by
  unfold findFollowPath.step
  split
  · refine ⟨(by intro h; cases h), ?_⟩
    intro b s1 h
    simp only [Except.ok.injEq, Prod.mk.injEq] at h
    obtain ⟨-, h2⟩ := h
    subst h2
    exact ⟨hlen, hnp⟩
  · rename_i steerPos steerPosFlag steerPosRef hsteer
    simp only []
    obtain ⟨p2, n2, pos, hmove, hl2, hn2, -⟩ := findFollowPath.move_ok C q s.polys s.npolys s.iterPos
      (findFollowPath.moveTarget C s.iterPos steerPos (steerPosFlag &&& DT_STRAIGHTPATH_END != 0)
        (steerPosFlag &&& DT_STRAIGHTPATH_OFFMESH_CONNECTION != 0)) h16 hlen hnp
    rw [hmove]
    simp only []
    split
    · split
      · rename_i e1 hap
        have := (findFollowPath.append_error _ _ _ _ _ hap).1
        subst this
        exact ⟨(by intro h; cases h), by intro b s1 h; cases h⟩
      · refine ⟨(by intro h; cases h), ?_⟩
        intro b s1 h
        simp only [Except.ok.injEq, Prod.mk.injEq] at h
        obtain ⟨-, h2⟩ := h
        subst h2
        exact ⟨hl2, hn2⟩
    · split
      · rename_i e1 hoff
        refine ⟨?_, by intro b s1 h; cases h⟩
        intro h
        simp only [Except.error.injEq] at h
        subst h
        split at hoff
        · exact findFollowPath.offMesh_polys _ _ _ _ _ _ _ _ _ (by omega) (by omega) hoff
        · cases hoff
      · rename_i polys3 npolys3 iterPos3 sp3 n3 hoff
        have hmid : polys3.length = C.MAX_POLYS ∧ npolys3 ≤ C.MAX_POLYS := by
          split at hoff
          · obtain ⟨-, -, d3⟩ := findFollowPath.offMesh_ok _ _ _ _ _ _ _ _ _ _ _ _ _ _ hoff
            have := d3 (by omega) (by omega)
            omega
          · simp only [Except.ok.injEq, Prod.mk.injEq] at hoff
            obtain ⟨e1, e2, -⟩ := hoff
            subst e1 e2
            exact ⟨hl2, hn2⟩
        split
        · rename_i e1 hap
          have := (findFollowPath.append_error _ _ _ _ _ hap).1
          subst this
          exact ⟨(by intro h; cases h), by intro b s1 h; cases h⟩
        · refine ⟨(by intro h; cases h), ?_⟩
          intro b s1 h
          simp only [Except.ok.injEq, Prod.mk.injEq] at h
          obtain ⟨-, h2⟩ := h
          subst h2
          exact hmid

/-- The loop returns with a count that did not decrease and stays within the buffer. -/
theorem findFollowPath.loop_ok (C : Config) (q : dtNavMeshQuery) (mesh : dtNavMesh)
    (targetPos : Vec3) :
    ∀ (fuel : Nat) (s s1 : SmoothState) (k : Nat),
      findFollowPath.loop C q mesh targetPos fuel s = .ok (s1, k) →
      s1.smoothPath.length = s.smoothPath.length ∧ s.numSmoothPath ≤ s1.numSmoothPath ∧
        (s.numSmoothPath ≤ C.MAX_SMOOTH → s.smoothPath.length = C.MAX_SMOOTH * 3 →
          s1.numSmoothPath ≤ C.MAX_SMOOTH) := by
  intro fuel
  induction fuel with
  | zero =>
    intro s s1 k h
    unfold findFollowPath.loop at h
    split at h
    · cases h
    · simp only [Except.ok.injEq, Prod.mk.injEq] at h
      obtain ⟨h1, -⟩ := h
      subst h1
      exact ⟨rfl, Nat.le_refl _, fun h _ => h⟩
  | succ fuel ih =>
    intro s s1 k h
    unfold findFollowPath.loop at h
    split at h
    · split at h
      · cases h
      · rename_i s2 hst
        simp only [Except.ok.injEq, Prod.mk.injEq] at h
        obtain ⟨h1, -⟩ := h
        subst h1
        obtain ⟨a1, a2, -, a4⟩ := findFollowPath.step_ok _ _ _ _ _ _ _ hst
        exact ⟨a1, a2, fun g1 g2 => a4 g1 (by omega) (by omega)⟩
      · rename_i s2 hst
        obtain ⟨a1, a2, -, a4⟩ := findFollowPath.step_ok _ _ _ _ _ _ _ hst
        split at h
        · cases h
        · rename_i s3 k3 hl
          simp only [Except.ok.injEq, Prod.mk.injEq] at h
          obtain ⟨h1, -⟩ := h
          subst h1
          obtain ⟨b1, b2, b3⟩ := ih _ _ _ hl
          exact ⟨by omega, by omega,
            fun g1 g2 => b3 (a4 g1 (by omega) (by omega)) (by omega)⟩
    · simp only [Except.ok.injEq, Prod.mk.injEq] at h
      obtain ⟨h1, -⟩ := h
      subst h1
      exact ⟨rfl, Nat.le_refl _, fun h _ => h⟩

/-- The loop never raises the exception of the entry guard, and it runs out of fuel only
when the fuel is smaller than the room left in the buffer. -/
theorem findFollowPath.loop_error (C : Config) (q : dtNavMeshQuery) (mesh : dtNavMesh)
    (targetPos : Vec3) :
    ∀ (fuel : Nat) (s : SmoothState) (e : Fault),
      findFollowPath.loop C q mesh targetPos fuel s = .error e →
      e = .polysOOB ∨ e = .smoothOOB ∨ (e = .outOfFuel ∧ fuel + s.numSmoothPath < C.MAX_SMOOTH) := by
  intro fuel
  induction fuel with
  | zero =>
    intro s e h
    unfold findFollowPath.loop at h
    split at h
    · rename_i hg
      simp only [Except.error.injEq] at h
      exact Or.inr (Or.inr ⟨h.symm, by omega⟩)
    · cases h
  | succ fuel ih =>
    intro s e h
    unfold findFollowPath.loop at h
    split at h
    · rename_i hg
      split at h
      · rename_i e1 hst
        simp only [Except.error.injEq] at h
        subst h
        rcases findFollowPath.step_error _ _ _ _ _ _ hst with c | c
        · exact Or.inl c
        · exact Or.inr (Or.inl c.1)
      · cases h
      · rename_i s2 hst
        obtain ⟨-, -, a3, -⟩ := findFollowPath.step_ok _ _ _ _ _ _ _ hst
        have hprog := a3 hg.2 rfl
        split at h
        · rename_i e1 hl
          simp only [Except.error.injEq] at h
          subst h
          rcases ih _ _ hl with c | c | c
          · exact Or.inl c
          · exact Or.inr (Or.inl c)
          · exact Or.inr (Or.inr ⟨c.1, by omega⟩)
        · cases h
    · cases h

theorem findFollowPath.loop_no_smooth_fault (C : Config) (q : dtNavMeshQuery) (mesh : dtNavMesh)
    (targetPos : Vec3) (heven : C.MAX_SMOOTH % 2 = 0) :
    ∀ (fuel : Nat) (s : SmoothState), s.smoothPath.length = C.MAX_SMOOTH * 3 →
      findFollowPath.loop C q mesh targetPos fuel s ≠ .error .smoothOOB := by
  intro fuel
  induction fuel with
  | zero =>
    intro s _ h
    unfold findFollowPath.loop at h
    split at h
    · cases h
    · cases h
  | succ fuel ih =>
    intro s hlen h
    unfold findFollowPath.loop at h
    split at h
    · rename_i hg
      split at h
      · rename_i e1 hst
        simp only [Except.error.injEq] at h
        subst h
        rcases findFollowPath.step_error _ _ _ _ _ _ hst with c | ⟨-, c2, c3⟩
        · cases c
        · rcases c3 with c | c | c | c <;> omega
      · cases h
      · rename_i s2 hst
        obtain ⟨a1, -, -, -⟩ := findFollowPath.step_ok _ _ _ _ _ _ _ hst
        split at h
        · rename_i e1 hl
          simp only [Except.error.injEq] at h
          subst h
          exact ih s2 (by omega) hl
        · cases h
    · cases h

theorem findFollowPath.loop_no_polys_fault (C : Config) (q : dtNavMeshQuery) (mesh : dtNavMesh)
    (targetPos : Vec3) (h16 : 16 ≤ C.MAX_POLYS) :
    ∀ (fuel : Nat) (s : SmoothState), s.polys.length = C.MAX_POLYS → s.npolys ≤ C.MAX_POLYS →
      findFollowPath.loop C q mesh targetPos fuel s ≠ .error .polysOOB := by
  intro fuel
  induction fuel with
  | zero =>
    intro s _ _ h
    unfold findFollowPath.loop at h
    split at h
    · cases h
    · cases h
  | succ fuel ih =>
    intro s hlen hnp h
    obtain ⟨p1, p2⟩ := findFollowPath.step_polys C q mesh targetPos s h16 hlen hnp
    unfold findFollowPath.loop at h
    split at h
    · split at h
      · rename_i e1 hst
        simp only [Except.error.injEq] at h
        subst h
        exact p1 hst
      · cases h
      · rename_i s2 hst
        obtain ⟨a1, a2⟩ := p2 _ _ hst
        split at h
        · rename_i e1 hl
          simp only [Except.error.injEq] at h
          subst h
          exact ih s2 a1 a2 hl
        · cases h
    · cases h

/-- The read-out loop returns every third waypoint index below `numSmoothPath`: waypoints
`0 .. (numSmoothPath + 2) / 3 - 1`. -/
theorem findFollowPath.collect_eq (smoothPath : List Rat) (numSmoothPath : Nat)
    (hlen : numSmoothPath + 2 ≤ smoothPath.length) :
    ∀ (fuel j : Nat) (acc : List FFXIVARR_POSITION3), numSmoothPath ≤ fuel + 3 * j →
      findFollowPath.collect smoothPath numSmoothPath fuel (3 * j) acc =
        .ok (acc ++ (List.range' j ((numSmoothPath + 2) / 3 - j)).map (waypoint smoothPath)) := by
  intro fuel
  induction fuel with
  | zero =>
    intro j acc h
    unfold findFollowPath.collect
    rw [if_neg (by omega)]
    have : (numSmoothPath + 2) / 3 - j = 0 := by omega
    rw [this]
    simp
  | succ fuel ih =>
    intro j acc h
    unfold findFollowPath.collect
    by_cases hlt : 3 * j < numSmoothPath
    · rw [if_pos hlt]
      have h0 : 3 * j < smoothPath.length := by omega
      have h1 : 3 * j + 1 < smoothPath.length := by omega
      have h2 : 3 * j + 2 < smoothPath.length := by omega
      rw [List.getElem?_eq_getElem h0, List.getElem?_eq_getElem h1, List.getElem?_eq_getElem h2]
      simp only []
      have e3 : 3 * j + 3 = 3 * (j + 1) := by omega
      rw [e3, ih (j + 1) _ (by omega)]
      have hc : (numSmoothPath + 2) / 3 - j = ((numSmoothPath + 2) / 3 - (j + 1)) + 1 := by omega
      rw [hc, List.range'_succ, List.map_cons, List.append_assoc]
      congr 2
      simp [waypoint, List.getD_eq_getElem?_getD, List.getElem?_eq_getElem h0,
        List.getElem?_eq_getElem h1, List.getElem?_eq_getElem h2]
    · rw [if_neg hlt]
      have : (numSmoothPath + 2) / 3 - j = 0 := by omega
      rw [this]
      simp

theorem findFollowPath.collect_error (smoothPath : List Rat) (numSmoothPath : Nat) :
    ∀ (fuel i : Nat) (acc : List FFXIVARR_POSITION3) (e : Fault),
      findFollowPath.collect smoothPath numSmoothPath fuel i acc = .error e →
      e = .smoothOOB ∨ (e = .outOfFuel ∧ fuel + i < numSmoothPath) := by
  intro fuel
  induction fuel with
  | zero =>
    intro i acc e h
    unfold findFollowPath.collect at h
    split at h
    · simp only [Except.error.injEq] at h; exact Or.inr ⟨h.symm, by omega⟩
    · cases h
  | succ fuel ih =>
    intro i acc e h
    unfold findFollowPath.collect at h
    split at h
    · split at h
      · rcases ih _ _ _ h with c | c
        · exact Or.inl c
        · exact Or.inr ⟨c.1, by omega⟩
      · simp only [Except.error.injEq] at h; exact Or.inl h.symm
    · cases h

theorem findFollowPath.run_error (C : Config) (P : NaviProvider)
    (startPos endPos : FFXIVARR_POSITION3) (mesh : dtNavMesh) (q : dtNavMeshQuery)
    (hm : P.m_naviMesh = some mesh) (hq : P.m_naviMeshQuery = some q) (e : Fault)
    (h : findFollowPath.run C P startPos endPos = .error e) :
    e = .polysOOB ∨ e = .smoothOOB := by
  unfold findFollowPath.run at h
  rw [hm, hq] at h
  simp only [] at h
  split at h
  · cases h
  · split at h
    · split at h
      · simp only [Except.error.injEq] at h; exact Or.inl h.symm
      · split at h
        · simp only [Except.error.injEq] at h; exact Or.inr h.symm
        · split at h
          · rename_i e1 hl
            simp only [Except.error.injEq] at h
            subst h
            rcases findFollowPath.loop_error _ _ _ _ _ _ _ hl with c | c | c
            · exact Or.inl c
            · exact Or.inr c
            · have := c.2
              simp only [] at this
              omega
          · split at h
            · rename_i e1 hl
              simp only [Except.error.injEq] at h
              subst h
              rcases findFollowPath.collect_error _ _ _ _ _ _ hl with c | c
              · exact Or.inr c
              · have := c.2
                omega
            · cases h
    · cases h

/-- What a run with a mesh and a query context does once a corridor was found, under an
even positive `MAX_SMOOTH`: no fault of `smoothPath`, and, with `16 ≤ MAX_POLYS`, no fault
at all. -/
theorem findFollowPath.run_spec (C : Config) (P : NaviProvider)
    (startPos endPos : FFXIVARR_POSITION3) (mesh : dtNavMesh) (q : dtNavMeshQuery)
    (hm : P.m_naviMesh = some mesh) (hq : P.m_naviMeshQuery = some q)
    (heven : C.MAX_SMOOTH % 2 = 0) (hpos : 0 < C.MAX_SMOOTH) :
    findFollowPath.run C P startPos endPos ≠ .error .smoothOOB ∧
    findFollowPath.run C P startPos endPos ≠ .error .outOfFuel ∧
    (16 ≤ C.MAX_POLYS → findFollowPath.run C P startPos endPos ≠ .error .polysOOB) ∧
    ∀ t, findFollowPath.run C P startPos endPos = .ok t →
      t.resultCoords.length ≤ C.MAX_SMOOTH ∧
      ∀ s, t.final = some s →
        s.numSmoothPath ≤ C.MAX_SMOOTH ∧ s.smoothPath.length = C.MAX_SMOOTH * 3 ∧
        1 ≤ s.numSmoothPath ∧
        t.resultCoords = (List.range ((s.numSmoothPath + 2) / 3)).map (waypoint s.smoothPath) := by
  unfold findFollowPath.run
  rw [hm, hq]
  simp only []
  split
  · refine ⟨(by intro h; cases h), (by intro h; cases h), (fun _ => by intro h; cases h), ?_⟩
    intro t ht
    simp only [Except.ok.injEq] at ht
    subst ht
    exact ⟨Nat.zero_le _, by intro s hs; cases hs⟩
  · split
    · rename_i hnum
      have hfl : ((q.findPath (q.findNearestPoly ⟨startPos.x, startPos.y, startPos.z⟩ P.m_polyFindRange)
          (q.findNearestPoly ⟨endPos.x, endPos.y, endPos.z⟩ P.m_polyFindRange)
          ⟨startPos.x, startPos.y, startPos.z⟩ ⟨endPos.x, endPos.y, endPos.z⟩).take C.MAX_POLYS).length
          ≤ C.MAX_POLYS := by
        rw [List.length_take]; omega
      generalize ((q.findPath (q.findNearestPoly ⟨startPos.x, startPos.y, startPos.z⟩ P.m_polyFindRange)
          (q.findNearestPoly ⟨endPos.x, endPos.y, endPos.z⟩ P.m_polyFindRange)
          ⟨startPos.x, startPos.y, startPos.z⟩ ⟨endPos.x, endPos.y, endPos.z⟩).take C.MAX_POLYS)
          = found at hnum hfl ⊢
      have hpl : (found ++ List.replicate (C.MAX_POLYS - found.length) 0).length = C.MAX_POLYS := by
        simp; omega
      have hb : found.length - 1 < (found ++ List.replicate (C.MAX_POLYS - found.length) 0).length := by
        rw [hpl]; omega
      have hlast : (found ++ List.replicate (C.MAX_POLYS - found.length) 0)[found.length - 1]?
          = some (found ++ List.replicate (C.MAX_POLYS - found.length) 0)[found.length - 1] :=
        List.getElem?_eq_getElem hb
      rw [hlast]
      simp only []
      have hcopy := dtVcopyAt_eq (List.replicate (C.MAX_SMOOTH * 3) 0) 0
        (q.closestPointOnPoly (q.findNearestPoly ⟨startPos.x, startPos.y, startPos.z⟩ P.m_polyFindRange)
          ⟨startPos.x, startPos.y, startPos.z⟩) (by simp; omega)
      rw [hcopy]
      simp only []
      split
      · rename_i e1 hl
        refine ⟨?_, ?_, ?_, by intro t ht; cases ht⟩
        · intro h
          simp only [Except.error.injEq] at h
          subst h
          exact findFollowPath.loop_no_smooth_fault C q mesh _ heven _ _ (by simp) hl
        · intro h
          simp only [Except.error.injEq] at h
          subst h
          rcases findFollowPath.loop_error _ _ _ _ _ _ _ hl with c | c | c
          · cases c
          · cases c
          · have := c.2
            simp only [] at this
            omega
        · intro h16 h
          simp only [Except.error.injEq] at h
          subst h
          exact findFollowPath.loop_no_polys_fault C q mesh _ h16 _ _ hpl hfl hl
      · rename_i s steps hl
        obtain ⟨a1, a2, a3⟩ := findFollowPath.loop_ok _ _ _ _ _ _ _ _ hl
        simp only [List.length_set, List.length_replicate] at a1 a2 a3
        have hn := a3 (by omega) trivial
        have hce := findFollowPath.collect_eq s.smoothPath s.numSmoothPath (by omega)
          s.numSmoothPath 0 [] (by omega)
        simp only [Nat.mul_zero, List.nil_append, Nat.sub_zero] at hce
        rw [hce]
        simp only []
        refine ⟨(by intro h; cases h), (by intro h; cases h), (fun _ => by intro h; cases h), ?_⟩
        intro t ht
        simp only [Except.ok.injEq] at ht
        subst ht
        simp only [List.length_map, List.length_range']
        refine ⟨by omega, ?_⟩
        intro s1 hs1
        simp only [Option.some.injEq] at hs1
        subst hs1
        exact ⟨hn, a1, a2, by rw [List.range_eq_range']⟩
    · refine ⟨(by intro h; cases h), (by intro h; cases h), (fun _ => by intro h; cases h), ?_⟩
      intro t ht
      simp only [Except.ok.injEq] at ht
      subst ht
      exact ⟨Nat.zero_le _, by intro s hs; cases hs⟩

/-! ## `findFollowPath`: theorems -/

/-- Claim C1, which the code does not meet.  On flat ground, from `(0,0,0)` to `(1,0,0)`,
the smoothing loop collects the two waypoints `(0,0,0)` and `(1,0,0)` in `smoothPath`, and
`findFollowPath` returns only `[(0,0,0)]`: the read-out loop runs `i` over `0, 3, 6, ...`
below the waypoint count, so that a buffer of `n` waypoints yields `(n + 2) / 3` elements
(see `findFollowPath.collect_eq`). -/
theorem findFollowPath_returns_fewer_than_collected :
    (findFollowPath.run exampleConfig straightProvider ⟨0, 0, 0⟩ ⟨1, 0, 0⟩).toOption.map
        (fun t => (t.final.map (fun s => (s.numSmoothPath, s.smoothPath.take 6)), t.resultCoords))
      = some (some (2, [0, 0, 0, 1, 0, 0]), [⟨0, 0, 0⟩]) := by
  decide!

/-- Claim C2, which the code does not meet.  On flat ground, from `(0,0,0)` to `(2,0,0)`,
the smoothing loop stops by arrival in its second iteration with the three waypoints
`(0,0,0)`, `(6/5,0,0)` and the target `(2,0,0)` in `smoothPath`, and `findFollowPath`
returns `[(0,0,0)]`, whose last element is not the target. -/
theorem findFollowPath_arrival_loses_target :
    (findFollowPath.run exampleConfig straightProvider ⟨0, 0, 0⟩ ⟨2, 0, 0⟩).toOption.map
        (fun t => (t.steps, t.final.map (fun s => (s.numSmoothPath, s.smoothPath.take 9)),
          t.resultCoords))
      = some (2, some (3, [0, 0, 0, 6 / 5, 0, 0, 2, 0, 0]), [⟨0, 0, 0⟩]) ∧
    (findFollowPath.run exampleConfig straightProvider ⟨0, 0, 0⟩ ⟨2, 0, 0⟩).toOption.map
        (fun t => t.final.map (fun s => s.iterPos)) = some (some ⟨2, 0, 0⟩) ∧
    (findFollowPath exampleConfig straightProvider ⟨0, 0, 0⟩ ⟨2, 0, 0⟩).toOption.map List.getLast?
      = some (some ⟨0, 0, 0⟩) := by
  decide!

/-- Counterexample to C3 as stated: with `MAX_SMOOTH = 3` the off-mesh connection is
reached with two waypoints stored; the start of the connection is written at waypoint
index 2 and, the count 3 being odd, once more at waypoint index 3, outside `smoothPath`. -/
theorem findFollowPath_odd_capacity_overflows :
    findFollowPath oddConfig offMeshProvider ⟨0, 0, 0⟩ ⟨10, 0, 0⟩ = .error .smoothOOB ∧
    findFollowPath.appendConnection oddConfig (List.replicate (3 * 3) 0) 2 ⟨2, 0, 0⟩
      = .error .smoothOOB := by
  decide!

/-- Claim C3, amended.  For every even positive `MAX_SMOOTH` and every behaviour of the mesh
queries: an iteration of the smoothing loop that starts with fewer than `MAX_SMOOTH`
waypoints never accesses `smoothPath` outside its `MAX_SMOOTH * 3` floats and ends with at
most `MAX_SMOOTH` waypoints; and no call of `findFollowPath` accesses `smoothPath` outside
its bounds, the final count is at most `MAX_SMOOTH` and so is the length of the returned
sequence. -/
theorem findFollowPath_within_even_capacity (C : Config)
    (heven : C.MAX_SMOOTH % 2 = 0) (hpos : 0 < C.MAX_SMOOTH) :
    (∀ (q : dtNavMeshQuery) (mesh : dtNavMesh) (targetPos : Vec3) (s : SmoothState),
      s.smoothPath.length = C.MAX_SMOOTH * 3 → s.numSmoothPath < C.MAX_SMOOTH →
        findFollowPath.step C q mesh targetPos s ≠ .error .smoothOOB ∧
        ∀ b s1, findFollowPath.step C q mesh targetPos s = .ok (b, s1) →
          s1.smoothPath.length = C.MAX_SMOOTH * 3 ∧ s1.numSmoothPath ≤ C.MAX_SMOOTH) ∧
    (∀ (P : NaviProvider) (startPos endPos : FFXIVARR_POSITION3),
      findFollowPath.run C P startPos endPos ≠ .error .smoothOOB ∧
      ∀ t, findFollowPath.run C P startPos endPos = .ok t →
        t.resultCoords.length ≤ C.MAX_SMOOTH ∧
        ∀ s, t.final = some s →
          s.numSmoothPath ≤ C.MAX_SMOOTH ∧ s.smoothPath.length = C.MAX_SMOOTH * 3) := by
  constructor
  · intro q mesh targetPos s hlen hn
    constructor
    · intro h
      rcases findFollowPath.step_error _ _ _ _ _ _ h with c | ⟨-, -, c3⟩
      · cases c
      · rcases c3 with c | c | c | c <;> omega
    · intro b s1 h
      obtain ⟨a1, -, -, a4⟩ := findFollowPath.step_ok _ _ _ _ _ _ _ h
      exact ⟨by omega, a4 (by omega) (by omega) (by omega)⟩
  · intro P startPos endPos
    cases hm : P.m_naviMesh with
    | none =>
      have : findFollowPath.run C P startPos endPos = .error .noNavimesh := by
        unfold findFollowPath.run
        rw [hm]
      rw [this]
      exact ⟨(by intro h; cases h), (by intro t h; cases h)⟩
    | some mesh =>
      cases hq : P.m_naviMeshQuery with
      | none =>
        have : findFollowPath.run C P startPos endPos = .error .noNavimesh := by
          unfold findFollowPath.run
          rw [hm, hq]
        rw [this]
        exact ⟨(by intro h; cases h), (by intro t h; cases h)⟩
      | some q =>
        obtain ⟨r1, -, -, r4⟩ :=
          findFollowPath.run_spec C P startPos endPos mesh q hm hq heven hpos
        refine ⟨r1, ?_⟩
        intro t ht
        obtain ⟨b1, b2⟩ := r4 t ht
        refine ⟨b1, ?_⟩
        intro s hs
        obtain ⟨c1, c2, -, -⟩ := b2 s hs
        exact ⟨c1, c2⟩

/-- Witness of C3 (amended) at `MAX_SMOOTH = 2048`. -/
theorem findFollowPath_within_even_capacity_witness :
    (exampleConfig.MAX_SMOOTH % 2 = 0 ∧ 0 < exampleConfig.MAX_SMOOTH) ∧
    findFollowPath.run exampleConfig offMeshProvider ⟨0, 0, 0⟩ ⟨10, 0, 0⟩ ≠ .error .smoothOOB :=
  ⟨⟨by decide, by decide⟩,
    ((findFollowPath_within_even_capacity exampleConfig (by decide) (by decide)).2
      offMeshProvider ⟨0, 0, 0⟩ ⟨10, 0, 0⟩).1⟩

/-- Claim C4. `findFollowPath` raises `"No navimesh loaded"` if and only if the provider has
no mesh or no query context.  With both present every call ends without raising: the
iteration budget of the model is never exhausted, so the call either returns a sequence or
leaves one of its buffers; and for capacities that keep the buffers in bounds
(`MAX_SMOOTH` even and positive, `MAX_POLYS ≥ 16`) it returns a sequence for every pair
of positions. -/
theorem findFollowPath_raises_iff_unloaded (C : Config) (P : NaviProvider)
    (startPos endPos : FFXIVARR_POSITION3) :
    (findFollowPath C P startPos endPos = .error .noNavimesh ↔
      (P.m_naviMesh = none ∨ P.m_naviMeshQuery = none)) ∧
    findFollowPath C P startPos endPos ≠ .error .outOfFuel ∧
    (P.m_naviMesh ≠ none → P.m_naviMeshQuery ≠ none →
      C.MAX_SMOOTH % 2 = 0 → 0 < C.MAX_SMOOTH → 16 ≤ C.MAX_POLYS →
      ∃ resultCoords, findFollowPath C P startPos endPos = .ok resultCoords) := by
  have hff : ∀ e, findFollowPath C P startPos endPos = .error e ↔
      findFollowPath.run C P startPos endPos = .error e := by
    intro e
    unfold findFollowPath
    split
    · rename_i e1 h1
      rw [h1]
      simp only [Except.error.injEq]
    · rename_i t h1
      rw [h1]
      constructor <;> intro h <;> cases h
  cases hm : P.m_naviMesh with
  | none =>
    have : findFollowPath.run C P startPos endPos = .error .noNavimesh := by
      unfold findFollowPath.run
      rw [hm]
    refine ⟨⟨fun _ => Or.inl rfl, fun _ => (hff _).mpr this⟩, ?_, fun h => absurd rfl h⟩
    intro h
    rw [(hff _).mp h] at this
    cases this
  | some mesh =>
    cases hq : P.m_naviMeshQuery with
    | none =>
      have : findFollowPath.run C P startPos endPos = .error .noNavimesh := by
        unfold findFollowPath.run
        rw [hm, hq]
      refine ⟨⟨fun _ => Or.inr rfl, fun _ => (hff _).mpr this⟩, ?_, fun _ h => absurd rfl h⟩
      intro h
      rw [(hff _).mp h] at this
      cases this
    | some q =>
      refine ⟨⟨?_, ?_⟩, ?_, ?_⟩
      · intro h
        rcases findFollowPath.run_error C P startPos endPos mesh q hm hq _ ((hff _).mp h)
          with c | c <;> cases c
      · intro h
        rcases h with h | h <;> cases h
      · intro h
        rcases findFollowPath.run_error C P startPos endPos mesh q hm hq _ ((hff _).mp h)
          with c | c <;> cases c
      · intro _ _ heven hpos h16
        obtain ⟨r1, -, r3, -⟩ :=
          findFollowPath.run_spec C P startPos endPos mesh q hm hq heven hpos
        cases hr : findFollowPath.run C P startPos endPos with
        | ok t =>
          refine ⟨t.resultCoords, ?_⟩
          unfold findFollowPath
          rw [hr]
        | error e =>
          rw [hr] at r1 r3
          rcases findFollowPath.run_error C P startPos endPos mesh q hm hq e hr with c | c
          · subst c; exact absurd rfl (r3 h16)
          · subst c; exact absurd rfl r1

/-- Witness of C4: the flat-ground provider with the capacities 256 and 2048. -/
theorem findFollowPath_raises_iff_unloaded_witness :
    (straightProvider.m_naviMesh ≠ none ∧ straightProvider.m_naviMeshQuery ≠ none ∧
      exampleConfig.MAX_SMOOTH % 2 = 0 ∧ 0 < exampleConfig.MAX_SMOOTH ∧
      16 ≤ exampleConfig.MAX_POLYS) ∧
    ∃ resultCoords,
      findFollowPath exampleConfig straightProvider ⟨0, 0, 0⟩ ⟨2, 0, 0⟩ = .ok resultCoords :=
  ⟨⟨by simp [straightProvider], by simp [straightProvider], by decide, by decide, by decide⟩,
    (findFollowPath_raises_iff_unloaded exampleConfig straightProvider ⟨0, 0, 0⟩ ⟨2, 0, 0⟩).2.2
      (by simp [straightProvider]) (by simp [straightProvider]) (by decide) (by decide)
      (by decide)⟩

/-- Claim C5. With a mesh and a query context present, `findFollowPath` returns the empty
sequence, without entering the smoothing loop (no final loop state, zero iterations), when
the nearest-polygon lookup of the start or of the end position yields the reference `0`,
and when the graph search returns an empty corridor. -/
theorem findFollowPath_empty_without_corridor (C : Config) (P : NaviProvider)
    (mesh : dtNavMesh) (q : dtNavMeshQuery) (startPos endPos : FFXIVARR_POSITION3)
    (hm : P.m_naviMesh = some mesh) (hq : P.m_naviMeshQuery = some q)
    (h : q.findNearestPoly ⟨startPos.x, startPos.y, startPos.z⟩ P.m_polyFindRange = 0 ∨
      q.findNearestPoly ⟨endPos.x, endPos.y, endPos.z⟩ P.m_polyFindRange = 0 ∨
      q.findPath (q.findNearestPoly ⟨startPos.x, startPos.y, startPos.z⟩ P.m_polyFindRange)
        (q.findNearestPoly ⟨endPos.x, endPos.y, endPos.z⟩ P.m_polyFindRange)
        ⟨startPos.x, startPos.y, startPos.z⟩ ⟨endPos.x, endPos.y, endPos.z⟩ = []) :
    findFollowPath.run C P startPos endPos = .ok ⟨[], none, 0⟩ ∧
      findFollowPath C P startPos endPos = .ok [] := by
  have hrun : findFollowPath.run C P startPos endPos = .ok ⟨[], none, 0⟩ := by
    unfold findFollowPath.run
    rw [hm, hq]
    simp only []
    by_cases h0 : q.findNearestPoly ⟨startPos.x, startPos.y, startPos.z⟩ P.m_polyFindRange = 0 ∨
        q.findNearestPoly ⟨endPos.x, endPos.y, endPos.z⟩ P.m_polyFindRange = 0
    · rw [if_pos h0]
    · rw [if_neg h0]
      have h3 : q.findPath (q.findNearestPoly ⟨startPos.x, startPos.y, startPos.z⟩ P.m_polyFindRange)
          (q.findNearestPoly ⟨endPos.x, endPos.y, endPos.z⟩ P.m_polyFindRange)
          ⟨startPos.x, startPos.y, startPos.z⟩ ⟨endPos.x, endPos.y, endPos.z⟩ = [] := by
        rcases h with h | h | h
        · exact absurd (Or.inl h) h0
        · exact absurd (Or.inr h) h0
        · exact h
      rw [h3]
      simp
  refine ⟨hrun, ?_⟩
  unfold findFollowPath
  rw [hrun]

/-- Witness of C5: a provider whose query context finds no polygon. -/
theorem findFollowPath_empty_without_corridor_witness :
    findFollowPath.run exampleConfig lostProvider ⟨0, 0, 0⟩ ⟨1, 0, 0⟩ = .ok ⟨[], none, 0⟩ ∧
      findFollowPath exampleConfig lostProvider ⟨0, 0, 0⟩ ⟨1, 0, 0⟩ = .ok [] :=
  findFollowPath_empty_without_corridor exampleConfig lostProvider exampleMesh lostQuery
    ⟨0, 0, 0⟩ ⟨1, 0, 0⟩ rfl rfl (Or.inl rfl)

/-! ## `loadMesh`: lemmas and theorems -/

theorem fread_eq (size : Nat) (fp : List Nat) (h0 : 0 < size) (hl : size ≤ fp.length) :
    fread size fp = some (fp.take size, fp.drop size) := by
  rw [fread, if_neg (by omega), if_pos hl]

theorem fread_none_iff (size : Nat) (fp : List Nat) :
    fread size fp = none ↔ size = 0 ∨ fp.length < size := by
  unfold fread
  by_cases h0 : size = 0
  · rw [if_pos h0]; exact ⟨fun _ => Or.inl h0, fun _ => rfl⟩
  · rw [if_neg h0]
    by_cases hl : size ≤ fp.length
    · rw [if_pos hl]
      constructor
      · intro h; cases h
      · intro h; omega
    · rw [if_neg hl]
      exact ⟨fun _ => Or.inr (by omega), fun _ => rfl⟩

theorem fread_append (a b : List Nat) (h0 : 0 < a.length) :
    fread a.length (a ++ b) = some (a, b) := by
  rw [fread_eq _ _ h0 (by simp)]
  simp

/-- The tile loop throws nothing or one of its two exceptions, and only adds to the list
of `addTile` calls. -/
theorem loadMesh.tiles_kind (F : AssetFormat) (E : LoadEnv) :
    ∀ (todo i : Nat) (fp : List Nat) (mesh : dtNavMesh) (added : List (Nat × List Nat)),
      (loadMesh.tiles F E todo i fp mesh added).1 = none ∨
      (loadMesh.tiles F E todo i fp mesh added).1 = some .tileHeaderRead ∨
      (loadMesh.tiles F E todo i fp mesh added).1 = some .tileDataRead := by
  intro todo
  induction todo with
  | zero => intro i fp mesh added; exact Or.inl rfl
  | succ todo ih =>
    intro i fp mesh added
    unfold loadMesh.tiles
    split
    · exact Or.inr (Or.inl rfl)
    · simp only []
      split
      · exact Or.inl rfl
      · split
        · exact Or.inl rfl
        · split
          · exact Or.inr (Or.inr rfl)
          · exact ih _ _ _ _

/-- A load reaches the allocation of the mesh exactly when it throws nothing or one of
the exceptions that follow the allocation. -/
theorem loadMesh_cases (F : AssetFormat) (E : LoadEnv) (P : NaviProvider)
    (hP : P.m_naviMesh = none) :
    ((loadMesh F E P).provider.m_naviMesh = none ∧ (loadMesh F E P).added = [] ∧
      ((loadMesh F E P).thrown = some .couldOpen ∨ (loadMesh F E P).thrown = some .headerRead ∨
        (loadMesh F E P).thrown = some .notNavMeshSet ∨
        (loadMesh F E P).thrown = some .invalidVersion ∨
        (loadMesh F E P).thrown = some .allocate)) ∨
    ((loadMesh F E P).provider.m_naviMesh ≠ none ∧
      ((loadMesh F E P).thrown = none ∨ (loadMesh F E P).thrown = some .initFailed ∨
        (loadMesh F E P).thrown = some .tileHeaderRead ∨
        (loadMesh F E P).thrown = some .tileDataRead)) := by
  unfold loadMesh
  split
  · exact Or.inl ⟨hP, rfl, Or.inl rfl⟩
  · split
    · exact Or.inl ⟨hP, rfl, Or.inr (Or.inl rfl)⟩
    · simp only []
      split
      · exact Or.inl ⟨hP, rfl, Or.inr (Or.inr (Or.inl rfl))⟩
      · split
        · exact Or.inl ⟨hP, rfl, Or.inr (Or.inr (Or.inr (Or.inl rfl)))⟩
        · split
          · rename_i e m hen
            unfold loadMesh.ensureMesh at hen
            rw [hP] at hen
            simp only [] at hen
            split at hen
            · simp only [Except.error.injEq, Prod.mk.injEq] at hen
              obtain ⟨h1, h2⟩ := hen
              subst h1 h2
              exact Or.inl ⟨rfl, rfl, Or.inr (Or.inr (Or.inr (Or.inr rfl)))⟩
            · split at hen
              · cases hen
              · simp only [Except.error.injEq, Prod.mk.injEq] at hen
                obtain ⟨h1, h2⟩ := hen
                subst h1 h2
                exact Or.inr ⟨by simp, Or.inr (Or.inl rfl)⟩
          · rename_i mesh hen
            rename_i dat fp2 _ _ _ _
            have hk := loadMesh.tiles_kind F E (F.asNavMeshSetHeader dat).numTiles.toNat 0 fp2
              mesh []
            refine Or.inr ⟨by simp, ?_⟩
            rcases hk with h | h | h
            · exact Or.inl h
            · exact Or.inr (Or.inr (Or.inl h))
            · exact Or.inr (Or.inr (Or.inr h))

/-- Claim C11. For every asset that holds a full header whose magic differs from
`NAVMESHSET_MAGIC` or whose version differs from `NAVMESHSET_VERSION`, `loadMesh` on a
provider without mesh throws ("Not a NavMeshSet" or "Invalid NavMeshSet version"), makes
no `addTile` call and leaves the provider without mesh: `hasNaviMesh()` is false
afterwards. -/
theorem loadMesh_rejects_magic_and_version (F : AssetFormat) (E : LoadEnv) (P : NaviProvider)
    (asset : List Nat)
    (hP : P.m_naviMesh = none) (hopen : E.fopen = some asset)
    (h0 : 0 < F.sizeofNavMeshSetHeader) (hl : F.sizeofNavMeshSetHeader ≤ asset.length)
    (hbad : (F.asNavMeshSetHeader (asset.take F.sizeofNavMeshSetHeader)).magic
        ≠ F.NAVMESHSET_MAGIC ∨
      (F.asNavMeshSetHeader (asset.take F.sizeofNavMeshSetHeader)).version
        ≠ F.NAVMESHSET_VERSION) :
    ((loadMesh F E P).thrown = some .notNavMeshSet ∨
        (loadMesh F E P).thrown = some .invalidVersion) ∧
      (loadMesh F E P).added = [] ∧
      (loadMesh F E P).provider.m_naviMesh = none ∧
      hasNaviMesh (loadMesh F E P).provider = false := by
  have hr := fread_eq _ _ h0 hl
  unfold hasNaviMesh
  unfold loadMesh
  rw [hopen]
  simp only []
  rw [hr]
  simp only []
  by_cases hmag : (F.asNavMeshSetHeader (asset.take F.sizeofNavMeshSetHeader)).magic
      ≠ F.NAVMESHSET_MAGIC
  · rw [if_pos hmag]
    simp [hP]
  · rw [if_neg hmag]
    have hver : (F.asNavMeshSetHeader (asset.take F.sizeofNavMeshSetHeader)).version
        ≠ F.NAVMESHSET_VERSION := by
      rcases hbad with h | h
      · exact absurd h hmag
      · exact h
    rw [if_pos hver]
    simp [hP]

/-- Witness of C11: the header `[78, 1, 0]` has the magic 78 instead of 77. -/
theorem loadMesh_rejects_magic_and_version_witness :
    ((loadMesh exampleFormat (goodEnv [78, 1, 0]) emptyProvider).thrown = some .notNavMeshSet ∨
        (loadMesh exampleFormat (goodEnv [78, 1, 0]) emptyProvider).thrown
          = some .invalidVersion) ∧
      (loadMesh exampleFormat (goodEnv [78, 1, 0]) emptyProvider).added = [] ∧
      (loadMesh exampleFormat (goodEnv [78, 1, 0]) emptyProvider).provider.m_naviMesh = none ∧
      hasNaviMesh (loadMesh exampleFormat (goodEnv [78, 1, 0]) emptyProvider).provider = false :=
  loadMesh_rejects_magic_and_version exampleFormat (goodEnv [78, 1, 0]) emptyProvider [78, 1, 0]
    rfl rfl (by decide) (by decide) (Or.inl (by decide))

/-- Counterexample to C12 as stated: an asset whose only tile record is cut short
(`[77, 1, 1]` then the tile header `[5, 3]` and one byte of the three of the payload), and
an asset loaded while the initialisation of the mesh fails: `loadMesh` throws, and
`hasNaviMesh()` is true afterwards. -/
theorem loadMesh_failure_leaves_mesh :
    (loadMesh exampleFormat (goodEnv [77, 1, 1, 5, 3, 10]) emptyProvider).thrown
      = some .tileDataRead ∧
    hasNaviMesh (loadMesh exampleFormat (goodEnv [77, 1, 1, 5, 3, 10]) emptyProvider).provider
      = true ∧
    (loadMesh exampleFormat (initFailEnv [77, 1, 0]) emptyProvider).thrown = some .initFailed ∧
    hasNaviMesh (loadMesh exampleFormat (initFailEnv [77, 1, 0]) emptyProvider).provider
      = true := by
  decide

/-- Claim C12, amended. Starting from a provider without mesh, `hasNaviMesh()` is true
after `loadMesh` exactly when the mesh object was allocated, that is when `loadMesh`
completed without failure or failed at the initialisation of the mesh, at a tile header
or at a tile payload; it is false after a load that failed at opening the file, at the
header (too short, wrong magic, wrong version) or at the allocation of the mesh.  In
particular it is true after every load that completed without failure. -/
theorem hasNaviMesh_iff_allocated (F : AssetFormat) (E : LoadEnv) (P : NaviProvider)
    (hP : P.m_naviMesh = none) :
    (hasNaviMesh (loadMesh F E P).provider = true ↔
      ((loadMesh F E P).thrown = none ∨ (loadMesh F E P).thrown = some .initFailed ∨
        (loadMesh F E P).thrown = some .tileHeaderRead ∨
        (loadMesh F E P).thrown = some .tileDataRead)) ∧
    (hasNaviMesh (loadMesh F E P).provider = false ↔
      ((loadMesh F E P).thrown = some .couldOpen ∨ (loadMesh F E P).thrown = some .headerRead ∨
        (loadMesh F E P).thrown = some .notNavMeshSet ∨
        (loadMesh F E P).thrown = some .invalidVersion ∨
        (loadMesh F E P).thrown = some .allocate)) ∧
    ((loadMesh F E P).thrown = none → hasNaviMesh (loadMesh F E P).provider = true) := by
  have hc := loadMesh_cases F E P hP
  unfold hasNaviMesh
  generalize loadMesh F E P = r at hc
  rcases hc with ⟨h1, -, h3⟩ | ⟨h1, h3⟩
  · rw [h1]
    refine ⟨⟨fun h => (by cases h), ?_⟩, ⟨fun _ => h3, fun _ => rfl⟩, ?_⟩
    · intro h
      exfalso
      rcases h3 with c | c | c | c | c <;> rcases h with d | d | d | d <;>
        (rw [c] at d; cases d)
    · intro h
      exfalso
      rcases h3 with c | c | c | c | c <;> (rw [c] at h; cases h)
  · have hs : r.provider.m_naviMesh.isSome = true := by
      cases hm : r.provider.m_naviMesh with
      | none => exact absurd hm h1
      | some m => rfl
    rw [hs]
    refine ⟨⟨fun _ => h3, fun _ => rfl⟩, ⟨fun h => (by cases h), ?_⟩, fun _ => rfl⟩
    intro h
    exfalso
    rcases h3 with c | c | c | c <;> rcases h with d | d | d | d | d <;>
      (rw [c] at d; cases d)

/-- Witness of C12 (amended): the asset `[77, 1, 1, 5, 3, 10]` with a truncated payload. -/
theorem hasNaviMesh_iff_allocated_witness :
    emptyProvider.m_naviMesh = none ∧
    (hasNaviMesh (loadMesh exampleFormat (goodEnv [77, 1, 1, 5, 3, 10]) emptyProvider).provider
        = true ↔
      ((loadMesh exampleFormat (goodEnv [77, 1, 1, 5, 3, 10]) emptyProvider).thrown = none ∨
        (loadMesh exampleFormat (goodEnv [77, 1, 1, 5, 3, 10]) emptyProvider).thrown
          = some .initFailed ∨
        (loadMesh exampleFormat (goodEnv [77, 1, 1, 5, 3, 10]) emptyProvider).thrown
          = some .tileHeaderRead ∨
        (loadMesh exampleFormat (goodEnv [77, 1, 1, 5, 3, 10]) emptyProvider).thrown
          = some .tileDataRead)) :=
  ⟨rfl, (hasNaviMesh_iff_allocated exampleFormat (goodEnv [77, 1, 1, 5, 3, 10]) emptyProvider
    rfl).1⟩

theorem loadMesh.tiles_sentinel (F : AssetFormat) (E : LoadEnv) (todo i : Nat)
    (h tail : List Nat) (mesh : dtNavMesh) (added : List (Nat × List Nat))
    (h0 : 0 < F.sizeofNavMeshTileHeader) (hs : SentinelHeader F h) :
    loadMesh.tiles F E (todo + 1) i (h ++ tail) mesh added = (none, mesh, added) := by
  obtain ⟨hl, hz⟩ := hs
  have hr : fread F.sizeofNavMeshTileHeader (h ++ tail) = some (h, tail) := by
    rw [← hl]; exact fread_append h tail (by omega)
  rw [loadMesh.tiles, hr]
  simp only []
  rw [if_pos hz]

theorem loadMesh.tiles_record (F : AssetFormat) (E : LoadEnv) (todo i : Nat)
    (r : List Nat × List Nat) (tail : List Nat) (mesh : dtNavMesh)
    (added : List (Nat × List Nat))
    (halloc : ∀ i n, E.dtAlloc i n = true) (h0 : 0 < F.sizeofNavMeshTileHeader)
    (hr : CompleteRecord F r) :
    loadMesh.tiles F E (todo + 1) i (r.1 ++ (r.2 ++ tail)) mesh added =
      loadMesh.tiles F E todo (i + 1) tail
        (E.addTile mesh r.2 (F.asNavMeshTileHeader r.1).tileRef)
        (added ++ [((F.asNavMeshTileHeader r.1).tileRef, r.2)]) := by
  obtain ⟨hl, href, hsz, hpl⟩ := hr
  have hr1 : fread F.sizeofNavMeshTileHeader (r.1 ++ (r.2 ++ tail)) = some (r.1, r.2 ++ tail) := by
    rw [← hl]; exact fread_append r.1 _ (by omega)
  have hr2 : fread (F.asNavMeshTileHeader r.1).dataSize (r.2 ++ tail) = some (r.2, tail) := by
    rw [← hpl]; exact fread_append r.2 _ (by omega)
  rw [loadMesh.tiles, hr1]
  simp only []
  rw [if_neg (by rintro (h | h); exact href h; exact hsz h), halloc]
  simp only [Bool.true_eq_false, if_false]
  rw [hr2]

/-- The tile loop over complete records: each record is handed to `addTile` with its own
reference and payload, in file order. -/
theorem loadMesh.tiles_records (F : AssetFormat) (E : LoadEnv)
    (halloc : ∀ i n, E.dtAlloc i n = true) (h0 : 0 < F.sizeofNavMeshTileHeader) :
    ∀ (recs : List (List Nat × List Nat)) (todo i : Nat) (tail : List Nat) (mesh : dtNavMesh)
      (added : List (Nat × List Nat)),
      (∀ r ∈ recs, CompleteRecord F r) →
      loadMesh.tiles F E (recs.length + todo) i (recordBytes recs ++ tail) mesh added =
        loadMesh.tiles F E todo (i + recs.length) tail
          (recs.foldl (fun m r => E.addTile m r.2 (F.asNavMeshTileHeader r.1).tileRef) mesh)
          (added ++ recs.map (fun r => ((F.asNavMeshTileHeader r.1).tileRef, r.2))) := by
  intro recs
  induction recs with
  | nil => intro todo i tail mesh added _; simp [recordBytes]
  | cons r rs ih =>
    intro todo i tail mesh added hall
    have hr := hall r (List.mem_cons_self _ _)
    have hrs : ∀ x ∈ rs, CompleteRecord F x := fun x hx => hall x (List.mem_cons_of_mem _ hx)
    have e1 : (r :: rs).length + todo = (rs.length + todo) + 1 := by simp; omega
    have e2 : recordBytes (r :: rs) ++ tail = r.1 ++ (r.2 ++ (recordBytes rs ++ tail)) := by
      simp [recordBytes]
    rw [e1, e2, loadMesh.tiles_record F E _ _ r _ _ _ halloc h0 hr, ih _ _ _ _ _ hrs]
    have e3 : i + 1 + rs.length = i + (r :: rs).length := by simp; omega
    rw [e3]
    simp

/-- Claim C13. Sentinel tile records end ingestion without failing the load.  The asset
is a header with the right magic and version that declares `N` tiles, then the complete
records `recs`, then either a sentinel tile header (reference or payload size zero) while
fewer than `N` records were read, followed by any bytes `tail`, or, when `recs` are all
`N` records, any bytes.  With the mesh available and every tile buffer allocated,
`loadMesh` throws nothing and its `addTile` calls are exactly the records `recs` in file
order, each with its own reference and payload. -/
theorem loadMesh_sentinel_ends_ingestion (F : AssetFormat) (E : LoadEnv) (P : NaviProvider)
    (hdr rest : List Nat) (recs : List (List Nat × List Nat)) (mesh : dtNavMesh)
    (hopen : E.fopen = some (hdr ++ (recordBytes recs ++ rest)))
    (hH : 0 < F.sizeofNavMeshSetHeader) (hT : 0 < F.sizeofNavMeshTileHeader)
    (hlen : hdr.length = F.sizeofNavMeshSetHeader)
    (hmagic : (F.asNavMeshSetHeader hdr).magic = F.NAVMESHSET_MAGIC)
    (hversion : (F.asNavMeshSetHeader hdr).version = F.NAVMESHSET_VERSION)
    (hmesh : loadMesh.ensureMesh E P.m_naviMesh (F.asNavMeshSetHeader hdr).params = .ok mesh)
    (halloc : ∀ i n, E.dtAlloc i n = true)
    (hrecs : ∀ r ∈ recs, CompleteRecord F r)
    (hend : (recs.length < (F.asNavMeshSetHeader hdr).numTiles.toNat ∧
        ∃ h tail, rest = h ++ tail ∧ SentinelHeader F h) ∨
      recs.length = (F.asNavMeshSetHeader hdr).numTiles.toNat) :
    (loadMesh F E P).thrown = none ∧
      (loadMesh F E P).added
        = recs.map (fun r => ((F.asNavMeshTileHeader r.1).tileRef, r.2)) ∧
      (loadMesh F E P).added.length = recs.length ∧
      hasNaviMesh (loadMesh F E P).provider = true := by
  have hr : fread F.sizeofNavMeshSetHeader (hdr ++ (recordBytes recs ++ rest))
      = some (hdr, recordBytes recs ++ rest) := by
    rw [← hlen]; exact fread_append hdr _ (by omega)
  have key : ∃ m, loadMesh.tiles F E (F.asNavMeshSetHeader hdr).numTiles.toNat 0
      (recordBytes recs ++ rest) mesh []
        = (none, m, recs.map (fun r => ((F.asNavMeshTileHeader r.1).tileRef, r.2))) := by
    rcases hend with ⟨hlt, h, tail, hrest, hs⟩ | heq
    · obtain ⟨d, hd⟩ : ∃ d, (F.asNavMeshSetHeader hdr).numTiles.toNat = recs.length + (d + 1) :=
        ⟨(F.asNavMeshSetHeader hdr).numTiles.toNat - recs.length - 1, by omega⟩
      rw [hd, loadMesh.tiles_records F E halloc hT recs _ _ _ _ _ hrecs, hrest,
        loadMesh.tiles_sentinel F E _ _ _ _ _ _ hT hs, List.nil_append]
      exact ⟨_, rfl⟩
    · have hd : (F.asNavMeshSetHeader hdr).numTiles.toNat = recs.length + 0 := by omega
      rw [hd, loadMesh.tiles_records F E halloc hT recs _ _ _ _ _ hrecs, loadMesh.tiles,
        List.nil_append]
      exact ⟨_, rfl⟩
  obtain ⟨m, hm⟩ := key
  have hl : loadMesh F E P = ⟨none, { P with m_naviMesh := some m },
      recs.map (fun r => ((F.asNavMeshTileHeader r.1).tileRef, r.2))⟩ := by
    unfold loadMesh
    rw [hopen]
    simp only []
    rw [hr]
    simp only []
    rw [if_neg (by simp [hmagic]), if_neg (by simp [hversion]), hmesh]
    simp only []
    rw [hm]
  rw [hl]
  simp [hasNaviMesh]

/-- Witness of C13: three tiles declared, one complete record `(5, [10, 11, 12])`, then
the sentinel header `[0, 0]` and two more bytes. -/
theorem loadMesh_sentinel_ends_ingestion_witness :
    (loadMesh exampleFormat (goodEnv [77, 1, 3, 5, 3, 10, 11, 12, 0, 0, 99, 99])
        emptyProvider).thrown = none ∧
      (loadMesh exampleFormat (goodEnv [77, 1, 3, 5, 3, 10, 11, 12, 0, 0, 99, 99])
        emptyProvider).added
        = [([5, 3], [10, 11, 12])].map
            (fun r => ((exampleFormat.asNavMeshTileHeader r.1).tileRef, r.2)) ∧
      (loadMesh exampleFormat (goodEnv [77, 1, 3, 5, 3, 10, 11, 12, 0, 0, 99, 99])
        emptyProvider).added.length = [([5, 3], [10, 11, 12])].length ∧
      hasNaviMesh (loadMesh exampleFormat (goodEnv [77, 1, 3, 5, 3, 10, 11, 12, 0, 0, 99, 99])
        emptyProvider).provider = true :=
  loadMesh_sentinel_ends_ingestion exampleFormat
    (goodEnv [77, 1, 3, 5, 3, 10, 11, 12, 0, 0, 99, 99]) emptyProvider [77, 1, 3] [0, 0, 99, 99]
    [([5, 3], [10, 11, 12])] exampleMesh rfl (by decide) (by decide) rfl rfl rfl rfl
    (fun _ _ => rfl)
    (by intro r hr; rw [List.mem_singleton] at hr; subst hr; unfold CompleteRecord; decide)
    (Or.inl ⟨by decide, [0, 0], [99, 99], rfl, by unfold SentinelHeader; decide⟩)

/-- The tile loop throws only when a tile record is cut short, and, when every tile buffer
is allocated, whenever one is. -/
theorem loadMesh.tiles_thrown (F : AssetFormat) (E : LoadEnv)
    (h0 : 0 < F.sizeofNavMeshTileHeader) :
    ∀ (n i : Nat) (fp : List Nat) (mesh : dtNavMesh) (added : List (Nat × List Nat)),
      ((loadMesh.tiles F E n i fp mesh added).1 ≠ none → tilesCutShort F n fp = true) ∧
      ((∀ i n, E.dtAlloc i n = true) → tilesCutShort F n fp = true →
        (loadMesh.tiles F E n i fp mesh added).1 ≠ none) := by
  intro n
  induction n with
  | zero =>
    intro i fp mesh added
    rw [loadMesh.tiles, tilesCutShort]
    simp
  | succ n ih =>
    intro i fp mesh added
    rw [loadMesh.tiles, tilesCutShort]
    by_cases hlen : fp.length < F.sizeofNavMeshTileHeader
    · rw [(fread_none_iff _ _).2 (Or.inr hlen), if_pos hlen]
      simp
    · rw [fread_eq _ _ h0 (by omega), if_neg hlen]
      simp only []
      by_cases hz : (F.asNavMeshTileHeader (fp.take F.sizeofNavMeshTileHeader)).tileRef = 0 ∨
          (F.asNavMeshTileHeader (fp.take F.sizeofNavMeshTileHeader)).dataSize = 0
      · rw [if_pos hz, if_pos hz]
        simp
      · rw [if_neg hz, if_neg hz]
        have hsz : 0 < (F.asNavMeshTileHeader (fp.take F.sizeofNavMeshTileHeader)).dataSize := by
          rcases Nat.eq_zero_or_pos
            (F.asNavMeshTileHeader (fp.take F.sizeofNavMeshTileHeader)).dataSize with h | h
          · exact absurd (Or.inr h) hz
          · exact h
        by_cases hpl : (fp.drop F.sizeofNavMeshTileHeader).length <
            (F.asNavMeshTileHeader (fp.take F.sizeofNavMeshTileHeader)).dataSize
        · rw [if_pos hpl, (fread_none_iff _ _).2 (Or.inr hpl)]
          constructor
          · intro _; rfl
          · intro halloc _
            rw [if_neg (by simp [halloc])]
            simp
        · rw [if_neg hpl, fread_eq _ _ hsz (by omega)]
          simp only []
          rw [List.drop_drop]
          constructor
          · intro h
            by_cases ha : E.dtAlloc i
                (F.asNavMeshTileHeader (fp.take F.sizeofNavMeshTileHeader)).dataSize = false
            · rw [if_pos ha] at h
              exact absurd rfl h
            · rw [if_neg ha] at h
              exact (ih _ _ _ _).1 h
          · intro halloc h
            rw [if_neg (by simp [halloc])]
            exact (ih _ _ _ _).2 halloc h

/-- Counterexample to C14 as stated: the file opens, the mesh is allocated and
initialised, and the only tile header declares a payload of 5000 bytes of which the asset
holds one, so a declared tile payload is cut short by the end of the data; `dtAlloc`
returns null for that size, the tile loop is left by `break`, and `loadMesh` returns
without throwing and without an `addTile` call. -/
theorem loadMesh_returns_on_cut_short_payload :
    (smallBufferEnv [77, 1, 1, 5, 5000, 10]).fopen = some [77, 1, 1, 5, 5000, 10] ∧
    loadMesh.ensureMesh (smallBufferEnv [77, 1, 1, 5, 5000, 10]) emptyProvider.m_naviMesh
      (exampleFormat.asNavMeshSetHeader [77, 1, 1]).params = .ok exampleMesh ∧
    Malformed exampleFormat [77, 1, 1, 5, 5000, 10] ∧
    (loadMesh exampleFormat (smallBufferEnv [77, 1, 1, 5, 5000, 10]) emptyProvider).thrown
      = none ∧
    (loadMesh exampleFormat (smallBufferEnv [77, 1, 1, 5, 5000, 10]) emptyProvider).added
      = [] ∧
    ¬ ((loadMesh exampleFormat (smallBufferEnv [77, 1, 1, 5, 5000, 10]) emptyProvider).thrown
        ≠ none ↔ Malformed exampleFormat [77, 1, 1, 5, 5000, 10]) :=
  ⟨rfl, rfl, (by unfold Malformed; decide), (by decide), (by decide),
    (by unfold Malformed; decide)⟩

/-- Claim C14, amended. `loadMesh` fails only on malformed assets, and exactly on them
when every tile buffer is allocated.  For every byte string `asset` of an openable file,
with the mesh available (it exists already, or its allocation and initialisation
succeed): a load that throws has a malformed asset (header shorter than its fixed size,
magic or version mismatch, or, among the declared tile records and before any sentinel
record, a tile header or a tile payload cut short by the end of the data); and, when in
addition `dtAlloc` returns memory for every tile buffer, the load throws if and only if
the asset is malformed. -/
theorem loadMesh_fails_iff_malformed (F : AssetFormat) (E : LoadEnv) (P : NaviProvider)
    (asset : List Nat) (mesh : dtNavMesh)
    (hopen : E.fopen = some asset)
    (hH : 0 < F.sizeofNavMeshSetHeader) (hT : 0 < F.sizeofNavMeshTileHeader)
    (hmesh : loadMesh.ensureMesh E P.m_naviMesh
      (F.asNavMeshSetHeader (asset.take F.sizeofNavMeshSetHeader)).params = .ok mesh) :
    ((loadMesh F E P).thrown ≠ none → Malformed F asset) ∧
      ((∀ i n, E.dtAlloc i n = true) →
        ((loadMesh F E P).thrown ≠ none ↔ Malformed F asset)) := by
  have main : ((loadMesh F E P).thrown ≠ none → Malformed F asset) ∧
      ((∀ i n, E.dtAlloc i n = true) → Malformed F asset → (loadMesh F E P).thrown ≠ none) := by
    unfold loadMesh Malformed
    rw [hopen]
    simp only []
    by_cases hlen : asset.length < F.sizeofNavMeshSetHeader
    · rw [(fread_none_iff _ _).2 (Or.inr hlen)]
      exact ⟨fun _ => Or.inl hlen, fun _ _ => by simp⟩
    · rw [fread_eq _ _ hH (by omega)]
      simp only []
      by_cases hmag : (F.asNavMeshSetHeader (asset.take F.sizeofNavMeshSetHeader)).magic
          ≠ F.NAVMESHSET_MAGIC
      · rw [if_pos hmag]
        exact ⟨fun _ => Or.inr (Or.inl hmag), fun _ _ => by simp⟩
      · rw [if_neg hmag]
        by_cases hver : (F.asNavMeshSetHeader (asset.take F.sizeofNavMeshSetHeader)).version
            ≠ F.NAVMESHSET_VERSION
        · rw [if_pos hver]
          exact ⟨fun _ => Or.inr (Or.inr (Or.inl hver)), fun _ _ => by simp⟩
        · rw [if_neg hver, hmesh]
          simp only []
          have ht := loadMesh.tiles_thrown F E hT
            (F.asNavMeshSetHeader (asset.take F.sizeofNavMeshSetHeader)).numTiles.toNat 0
            (asset.drop F.sizeofNavMeshSetHeader) mesh []
          constructor
          · intro h
            exact Or.inr (Or.inr (Or.inr (ht.1 h)))
          · intro halloc h
            rcases h with h | h | h | h
            · exact absurd h hlen
            · exact absurd h hmag
            · exact absurd h hver
            · exact ht.2 halloc h
  exact ⟨main.1, fun halloc => ⟨main.1, main.2 halloc⟩⟩

/-- Witness of C14 (amended): the asset `[77, 1, 1, 5, 3, 10]` declares one tile of three payload
bytes and holds one; it is malformed and the load throws. -/
theorem loadMesh_fails_iff_malformed_witness :
    (loadMesh exampleFormat (goodEnv [77, 1, 1, 5, 3, 10]) emptyProvider).thrown
        = some .tileDataRead ∧
      Malformed exampleFormat [77, 1, 1, 5, 3, 10] ∧
      (loadMesh exampleFormat (goodEnv [77, 1, 3, 5, 3, 10, 11, 12, 0, 0, 99, 99])
        emptyProvider).thrown = none ∧
      ¬ Malformed exampleFormat [77, 1, 3, 5, 3, 10, 11, 12, 0, 0, 99, 99] :=
  ⟨by decide,
    (loadMesh_fails_iff_malformed exampleFormat (goodEnv [77, 1, 1, 5, 3, 10]) emptyProvider
      [77, 1, 1, 5, 3, 10] exampleMesh rfl (by decide) (by decide) rfl).1
      (by decide),
    by decide,
    fun h => ((loadMesh_fails_iff_malformed exampleFormat
      (goodEnv [77, 1, 3, 5, 3, 10, 11, 12, 0, 0, 99, 99]) emptyProvider
      [77, 1, 3, 5, 3, 10, 11, 12, 0, 0, 99, 99] exampleMesh rfl (by decide) (by decide)
      rfl).2 (fun _ _ => rfl)).2 h (by decide)⟩

/-! ## Loop bound, steering, off-mesh links and corridor end: lemmas and theorems -/

/-- The number of iterations of the loop is at most the room left below `MAX_SMOOTH`. -/
theorem findFollowPath.loop_steps (C : Config) (q : dtNavMeshQuery) (mesh : dtNavMesh)
    (targetPos : Vec3) :
    ∀ (fuel : Nat) (s s1 : SmoothState) (k : Nat),
      findFollowPath.loop C q mesh targetPos fuel s = .ok (s1, k) →
      k ≤ C.MAX_SMOOTH - s.numSmoothPath := by
  intro fuel
  induction fuel with
  | zero =>
    intro s s1 k h
    unfold findFollowPath.loop at h
    split at h
    · cases h
    · simp only [Except.ok.injEq, Prod.mk.injEq] at h
      omega
  | succ fuel ih =>
    intro s s1 k h
    unfold findFollowPath.loop at h
    split at h
    · rename_i hg
      split at h
      · cases h
      · simp only [Except.ok.injEq, Prod.mk.injEq] at h
        omega
      · rename_i s2 hst
        obtain ⟨-, -, a3, -⟩ := findFollowPath.step_ok _ _ _ _ _ _ _ hst
        have hprog := a3 hg.2 rfl
        split at h
        · cases h
        · rename_i s3 k3 hl
          simp only [Except.ok.injEq, Prod.mk.injEq] at h
          have := ih _ _ _ hl
          omega
    · simp only [Except.ok.injEq, Prod.mk.injEq] at h
      omega

theorem findFollowPath.run_steps (C : Config) (P : NaviProvider)
    (startPos endPos : FFXIVARR_POSITION3) (t : Trace)
    (h : findFollowPath.run C P startPos endPos = .ok t) : t.steps ≤ C.MAX_SMOOTH - 1 := by
  unfold findFollowPath.run at h
  split at h
  · simp only [] at h
    split at h
    · simp only [Except.ok.injEq] at h; subst h; exact Nat.zero_le _
    · split at h
      · split at h
        · cases h
        · split at h
          · cases h
          · split at h
            · cases h
            · rename_i s steps hl
              split at h
              · cases h
              · simp only [Except.ok.injEq] at h
                subst h
                exact findFollowPath.loop_steps _ _ _ _ _ _ _ _ hl
      · simp only [Except.ok.injEq] at h; subst h; exact Nat.zero_le _
  · cases h

theorem findFollowPath.run_fuel (C : Config) (P : NaviProvider)
    (startPos endPos : FFXIVARR_POSITION3) :
    findFollowPath.run C P startPos endPos ≠ .error .outOfFuel := by
  intro h
  cases hm : P.m_naviMesh with
  | none =>
    unfold findFollowPath.run at h
    rw [hm] at h
    cases h
  | some mesh =>
    cases hq : P.m_naviMeshQuery with
    | none =>
      unfold findFollowPath.run at h
      rw [hm, hq] at h
      cases h
    | some q =>
      rcases findFollowPath.run_error C P startPos endPos mesh q hm hq _ h with c | c <;> cases c

/-- Claim C15. The smoothing loop is bounded, for every behaviour of the mesh queries: an
iteration that starts below `MAX_SMOOTH` waypoints and completes either leaves the loop
(`break`) or ends with strictly more waypoints; every call of `findFollowPath` ends within
the iteration budget of the model; and a call that returns has performed at most
`MAX_SMOOTH - 1` iterations of the loop. -/
theorem findFollowPath_loop_bounded (C : Config) :
    (∀ (q : dtNavMeshQuery) (mesh : dtNavMesh) (targetPos : Vec3) (s s1 : SmoothState) (b : Bool),
      s.numSmoothPath < C.MAX_SMOOTH →
      findFollowPath.step C q mesh targetPos s = .ok (b, s1) →
        b = true ∨ s.numSmoothPath < s1.numSmoothPath) ∧
    (∀ (P : NaviProvider) (startPos endPos : FFXIVARR_POSITION3),
      findFollowPath.run C P startPos endPos ≠ .error .outOfFuel ∧
      ∀ t, findFollowPath.run C P startPos endPos = .ok t → t.steps ≤ C.MAX_SMOOTH - 1) := by
  constructor
  · intro q mesh targetPos s s1 b hn h
    obtain ⟨-, -, a3, -⟩ := findFollowPath.step_ok _ _ _ _ _ _ _ h
    cases b with
    | true => exact Or.inl rfl
    | false => exact Or.inr (a3 hn rfl)
  · intro P startPos endPos
    exact ⟨findFollowPath.run_fuel C P startPos endPos,
      fun t ht => findFollowPath.run_steps C P startPos endPos t ht⟩

/-- Witness of C15: the run from `(0,0,0)` to `(2,0,0)` on flat ground takes 2 iterations. -/
theorem findFollowPath_loop_bounded_witness :
    findFollowPath.run exampleConfig straightProvider ⟨0, 0, 0⟩ ⟨2, 0, 0⟩ ≠ .error .outOfFuel ∧
    (findFollowPath.run exampleConfig straightProvider ⟨0, 0, 0⟩ ⟨2, 0, 0⟩).toOption.map
      (fun t => t.steps) = some 2 ∧
    ∀ t, findFollowPath.run exampleConfig straightProvider ⟨0, 0, 0⟩ ⟨2, 0, 0⟩ = .ok t →
      t.steps ≤ exampleConfig.MAX_SMOOTH - 1 :=
  ⟨((findFollowPath_loop_bounded exampleConfig).2 straightProvider ⟨0, 0, 0⟩ ⟨2, 0, 0⟩).1,
    by decide!,
    ((findFollowPath_loop_bounded exampleConfig).2 straightProvider ⟨0, 0, 0⟩ ⟨2, 0, 0⟩).2⟩

theorem inRange_iff (v1 v2 : Vec3) (r h : Rat) :
    inRange v1 v2 r h = true ↔
      (v2.x - v1.x) * (v2.x - v1.x) + (v2.z - v1.z) * (v2.z - v1.z) < r * r ∧
        |v2.y - v1.y| < h := by
  simp [inRange]

theorem getSteerTarget.scan_some (startPos : Vec3) (minTargetDist : Rat) :
    ∀ (l : List SteerPoint) (p : SteerPoint),
      getSteerTarget.scan startPos minTargetDist l = some p ↔
        ∃ pre post, l = pre ++ p :: post ∧
          (∀ x ∈ pre, ¬ stopsWalk startPos minTargetDist x) ∧
          stopsWalk startPos minTargetDist p := by
  intro l
  induction l with
  | nil =>
    intro p
    constructor
    · intro h; cases h
    · rintro ⟨pre, post, h, -⟩
      cases pre <;> cases h
  | cons a l ih =>
    intro p
    rw [getSteerTarget.scan]
    by_cases ha : stopsWalk startPos minTargetDist a
    · rw [if_pos (show (a.flag &&& DT_STRAIGHTPATH_OFFMESH_CONNECTION ≠ 0 ∨
          ¬ inRange a.pos startPos minTargetDist 1000 = true) from ha)]
      constructor
      · intro h
        cases h
        exact ⟨[], l, rfl, (by intro x hx; cases hx), ha⟩
      · rintro ⟨pre, post, h, hpre, -⟩
        cases pre with
        | nil =>
          simp only [List.nil_append, List.cons.injEq] at h
          rw [h.1]
        | cons b pre =>
          simp only [List.cons_append, List.cons.injEq] at h
          exact absurd (h.1 ▸ ha) (hpre b (List.mem_cons_self _ _))
    · rw [if_neg (show ¬ (a.flag &&& DT_STRAIGHTPATH_OFFMESH_CONNECTION ≠ 0 ∨
          ¬ inRange a.pos startPos minTargetDist 1000 = true) from ha), ih p]
      constructor
      · rintro ⟨pre, post, h, hpre, hp⟩
        refine ⟨a :: pre, post, by rw [h]; rfl, ?_, hp⟩
        intro x hx
        rcases List.mem_cons.mp hx with hx | hx
        · rw [hx]; exact ha
        · exact hpre x hx
      · rintro ⟨pre, post, h, hpre, hp⟩
        cases pre with
        | nil =>
          simp only [List.nil_append, List.cons.injEq] at h
          exact absurd (h.1 ▸ hp) ha
        | cons b pre =>
          simp only [List.cons_append, List.cons.injEq] at h
          exact ⟨pre, post, h.2, fun x hx => hpre x (List.mem_cons_of_mem _ hx), hp⟩

theorem getSteerTarget.scan_none (startPos : Vec3) (minTargetDist : Rat) :
    ∀ (l : List SteerPoint),
      getSteerTarget.scan startPos minTargetDist l = none ↔
        ∀ x ∈ l, ¬ stopsWalk startPos minTargetDist x := by
  intro l
  induction l with
  | nil => simp [getSteerTarget.scan]
  | cons a l ih =>
    rw [getSteerTarget.scan]
    by_cases ha : stopsWalk startPos minTargetDist a
    · rw [if_pos (show (a.flag &&& DT_STRAIGHTPATH_OFFMESH_CONNECTION ≠ 0 ∨
          ¬ inRange a.pos startPos minTargetDist 1000 = true) from ha)]
      constructor
      · intro h; cases h
      · intro h; exact absurd ha (h a (List.mem_cons_self _ _))
    · rw [if_neg (show ¬ (a.flag &&& DT_STRAIGHTPATH_OFFMESH_CONNECTION ≠ 0 ∨
          ¬ inRange a.pos startPos minTargetDist 1000 = true) from ha), ih]
      constructor
      · intro h x hx
        rcases List.mem_cons.mp hx with hx | hx
        · rw [hx]; exact ha
        · exact h x hx
      · intro h x hx
        exact h x (List.mem_cons_of_mem _ hx)

theorem getSteerTarget_eq (navQuery : dtNavMeshQuery) (startPos endPos : Vec3)
    (minTargetDist : Rat) (path : List dtPolyRef) (pathSize : Nat) :
    getSteerTarget navQuery startPos endPos minTargetDist path pathSize =
      (getSteerTarget.scan startPos minTargetDist
        ((navQuery.findStraightPath startPos endPos (path.take pathSize)).take 3)).map
        (fun p => (⟨p.pos.x, startPos.y, p.pos.z⟩, p.flag, p.ref)) := by
  unfold getSteerTarget
  simp only []
  split
  · rename_i h
    rw [List.length_eq_zero] at h
    rw [h]
    rfl
  · split
    · rename_i h; rw [h]; rfl
    · rename_i p h; rw [h]; rfl

/-- Claim C16. `getSteerTarget` selects the first look-ahead point that stops the walk.
With `steerPath` the (at most 3) straight-path points: the call succeeds if and only if
some point is flagged as an off-mesh connection or is not in range of the cursor
(`stopsWalk`; in range means horizontal distance below `minTargetDist` and vertical
distance below 1000); it returns `(steerPos, steerPosFlag, steerPosRef)` exactly when
these are the flag and the reference of the first such point and `steerPos` is that point
with its vertical coordinate replaced by the cursor's; and it fails exactly when no point
stops the walk, in particular when there is no point. -/
theorem getSteerTarget_selects_first_stop (navQuery : dtNavMeshQuery) (startPos endPos : Vec3)
    (minTargetDist : Rat) (path : List dtPolyRef) (pathSize : Nat) :
    ((navQuery.findStraightPath startPos endPos (path.take pathSize)).take 3).length ≤ 3 ∧
    ((getSteerTarget navQuery startPos endPos minTargetDist path pathSize).isSome = true ↔
      ∃ p ∈ (navQuery.findStraightPath startPos endPos (path.take pathSize)).take 3,
        (p.flag &&& DT_STRAIGHTPATH_OFFMESH_CONNECTION ≠ 0) ∨
          ¬ ((p.pos.x - startPos.x) * (p.pos.x - startPos.x)
                + (p.pos.z - startPos.z) * (p.pos.z - startPos.z)
              < minTargetDist * minTargetDist ∧ |p.pos.y - startPos.y| < 1000)) ∧
    (∀ steerPos steerPosFlag steerPosRef,
      getSteerTarget navQuery startPos endPos minTargetDist path pathSize
          = some (steerPos, steerPosFlag, steerPosRef) ↔
        ∃ pre p post,
          (navQuery.findStraightPath startPos endPos (path.take pathSize)).take 3
            = pre ++ p :: post ∧
          (∀ x ∈ pre, ¬ stopsWalk startPos minTargetDist x) ∧
          stopsWalk startPos minTargetDist p ∧
          steerPos = ⟨p.pos.x, startPos.y, p.pos.z⟩ ∧ steerPosFlag = p.flag ∧
          steerPosRef = p.ref) ∧
    (getSteerTarget navQuery startPos endPos minTargetDist path pathSize = none ↔
      ∀ x ∈ (navQuery.findStraightPath startPos endPos (path.take pathSize)).take 3,
        ¬ stopsWalk startPos minTargetDist x) ∧
    ((navQuery.findStraightPath startPos endPos (path.take pathSize)).take 3 = [] →
      getSteerTarget navQuery startPos endPos minTargetDist path pathSize = none) := by
  have hstop : ∀ p : SteerPoint, stopsWalk startPos minTargetDist p ↔
      ((p.flag &&& DT_STRAIGHTPATH_OFFMESH_CONNECTION ≠ 0) ∨
          ¬ ((p.pos.x - startPos.x) * (p.pos.x - startPos.x)
                + (p.pos.z - startPos.z) * (p.pos.z - startPos.z)
              < minTargetDist * minTargetDist ∧ |p.pos.y - startPos.y| < 1000)) := by
    intro p
    unfold stopsWalk
    rw [inRange_iff]
    have e : |startPos.y - p.pos.y| = |p.pos.y - startPos.y| := abs_sub_comm _ _
    have e1 : (startPos.x - p.pos.x) * (startPos.x - p.pos.x)
        = (p.pos.x - startPos.x) * (p.pos.x - startPos.x) := by ring
    have e2 : (startPos.z - p.pos.z) * (startPos.z - p.pos.z)
        = (p.pos.z - startPos.z) * (p.pos.z - startPos.z) := by ring
    rw [e, e1, e2]
  have hlen : ((navQuery.findStraightPath startPos endPos (path.take pathSize)).take 3).length ≤ 3 := by
    rw [List.length_take]; omega
  rw [getSteerTarget_eq]
  generalize (navQuery.findStraightPath startPos endPos (path.take pathSize)).take 3 = sp at *
  have hnone : (getSteerTarget.scan startPos minTargetDist sp).map
        (fun p => ((⟨p.pos.x, startPos.y, p.pos.z⟩ : Vec3), p.flag, p.ref)) = none ↔
      ∀ x ∈ sp, ¬ stopsWalk startPos minTargetDist x := by
    rw [Option.map_eq_none', getSteerTarget.scan_none]
  refine ⟨hlen, ?_, ?_, hnone, ?_⟩
  · rw [Option.isSome_map']
    cases hs : getSteerTarget.scan startPos minTargetDist sp with
    | none =>
      have := (getSteerTarget.scan_none startPos minTargetDist sp).mp hs
      constructor
      · intro h; cases h
      · rintro ⟨p, hp, hst⟩
        exact absurd ((hstop p).mpr hst) (this p hp)
    | some p =>
      obtain ⟨pre, post, h1, -, h3⟩ := (getSteerTarget.scan_some startPos minTargetDist sp p).mp hs
      constructor
      · intro _
        exact ⟨p, by rw [h1]; simp, (hstop p).mp h3⟩
      · intro _; rfl
  · intro steerPos steerPosFlag steerPosRef
    constructor
    · intro h
      cases hs : getSteerTarget.scan startPos minTargetDist sp with
      | none => rw [hs] at h; cases h
      | some p =>
        rw [hs] at h
        simp only [Option.map_some', Option.some.injEq, Prod.mk.injEq] at h
        obtain ⟨pre, post, h1, h2, h3⟩ :=
          (getSteerTarget.scan_some startPos minTargetDist sp p).mp hs
        exact ⟨pre, p, post, h1, h2, h3, h.1.symm, h.2.1.symm, h.2.2.symm⟩
    · rintro ⟨pre, p, post, h1, h2, h3, e1, e2, e3⟩
      rw [(getSteerTarget.scan_some startPos minTargetDist sp p).mpr ⟨pre, post, h1, h2, h3⟩,
        e1, e2, e3]
      rfl
  · intro h
    rw [h]
    rfl

/-- Witness of C16: the only look-ahead point of `offMeshQuery` is the start `(2,0,0)` of
an off-mesh connection and is selected; `lostQuery` has no look-ahead point. -/
theorem getSteerTarget_selects_first_stop_witness :
    getSteerTarget offMeshQuery ⟨0, 1, 0⟩ ⟨5, 0, 0⟩ SLOP [1, 2, 3] 3
        = some (⟨2, 1, 0⟩, DT_STRAIGHTPATH_OFFMESH_CONNECTION, 2) ∧
      getSteerTarget lostQuery ⟨0, 1, 0⟩ ⟨5, 0, 0⟩ SLOP [1, 2, 3] 3 = none :=
  ⟨((getSteerTarget_selects_first_stop offMeshQuery ⟨0, 1, 0⟩ ⟨5, 0, 0⟩ SLOP [1, 2, 3]
      3).2.2.1 ⟨2, 1, 0⟩ DT_STRAIGHTPATH_OFFMESH_CONNECTION 2).2
      ⟨[], ⟨⟨2, 0, 0⟩, DT_STRAIGHTPATH_OFFMESH_CONNECTION, 2⟩, [], rfl,
        (fun x hx => by cases hx), Or.inl (by decide), rfl, rfl, rfl⟩,
    (getSteerTarget_selects_first_stop lostQuery ⟨0, 1, 0⟩ ⟨5, 0, 0⟩ SLOP [1, 2, 3]
      3).2.2.2.2 rfl⟩

theorem waypoint_dtVcopyAt (sp sp1 : List Rat) (n : Nat) (v : Vec3)
    (h : dtVcopyAt sp n v = some sp1) :
    waypoint sp1 n = ⟨v.x, v.y, v.z⟩ ∧ ∀ k, k ≠ n → waypoint sp1 k = waypoint sp k := by
  obtain ⟨hl, -⟩ := dtVcopyAt_some _ _ _ _ h
  rw [dtVcopyAt_eq _ _ _ hl] at h
  simp only [Option.some.injEq] at h
  subst h
  constructor
  · simp only [waypoint, List.getD_eq_getElem?_getD]
    have e0 : 3 * n = n * 3 := by omega
    rw [e0]
    rw [List.getElem?_set_ne (by omega), List.getElem?_set_ne (by omega),
      List.getElem?_set_self (by omega),
      List.getElem?_set_ne (by omega), List.getElem?_set_self (by simp; omega),
      List.getElem?_set_self (by simp; omega)]
    rfl
  · intro k hk
    simp only [waypoint, List.getD_eq_getElem?_getD]
    rw [List.getElem?_set_ne (by omega), List.getElem?_set_ne (by omega),
      List.getElem?_set_ne (by omega),
      List.getElem?_set_ne (by omega), List.getElem?_set_ne (by omega),
      List.getElem?_set_ne (by omega),
      List.getElem?_set_ne (by omega), List.getElem?_set_ne (by omega),
      List.getElem?_set_ne (by omega)]

/-- Counterexample to C17 as stated: with 2 waypoints stored (an even count) the start of
the connection `(2,0,0)` is stored twice, as waypoints 2 and 3, and the count becomes 4;
with 1 waypoint stored (an odd count) it is stored once, as waypoint 1, and the count
becomes 2. -/
theorem appendConnection_twice_on_even :
    (findFollowPath.appendConnection exampleConfig (List.replicate (2048 * 3) 0) 2 ⟨2, 0, 0⟩).toOption.map
        (fun r => (r.2, waypoint r.1 2, waypoint r.1 3))
      = some (4, ⟨2, 0, 0⟩, ⟨2, 0, 0⟩) ∧
    (findFollowPath.appendConnection exampleConfig (List.replicate (2048 * 3) 0) 1 ⟨2, 0, 0⟩).toOption.map
        (fun r => (r.2, waypoint r.1 1, waypoint r.1 2))
      = some (2, ⟨2, 0, 0⟩, ⟨0, 0, 0⟩) ∧
    (findFollowPath.offMesh exampleConfig offMeshQuery exampleMesh [1, 2, 3, 0] 3 2 ⟨2, 0, 0⟩
        (List.replicate (2048 * 3) 0) 2).toOption.map
        (fun r => (r.2.2.2.2, waypoint r.2.2.2.1 2, waypoint r.2.2.2.1 3))
      = some (4, ⟨2, 0, 0⟩, ⟨2, 0, 0⟩) := by
  decide!

/-- Claim C17, amended. Off-mesh parity rule: when the corridor advance has been made, the
endpoints of the connection resolve, and `smoothPath` holds `n` waypoints with room for
two more (`n + 2 ≤ MAX_SMOOTH`), the start coordinate of the connection is stored twice
(waypoints `n` and `n + 1`, new count `n + 2`) if `n` is even and exactly once (waypoint
`n`, new count `n + 1`) if `n` is odd; the waypoints stored before are unchanged. -/
theorem offMesh_parity_rule (C : Config) (q : dtNavMeshQuery) (mesh : dtNavMesh)
    (polys : List dtPolyRef) (npolys : Nat) (steerPosRef : dtPolyRef) (iterPos : Vec3)
    (smoothPath : List Rat) (n : Nat)
    (polys1 : List dtPolyRef) (npolys1 : Nat) (prevRef polyRef : dtPolyRef)
    (startPos endPos : Vec3)
    (hadv : findFollowPath.advance polys npolys steerPosRef
      = some (polys1, npolys1, prevRef, polyRef))
    (hend : mesh.getOffMeshConnectionPolyEndPoints prevRef polyRef = some (startPos, endPos))
    (hp : 0 < polys1.length)
    (hroom : n + 2 ≤ C.MAX_SMOOTH) (hlen : smoothPath.length = C.MAX_SMOOTH * 3) :
    ∃ smoothPath1 n1 pos,
      findFollowPath.offMesh C q mesh polys npolys steerPosRef iterPos smoothPath n
        = .ok (polys1, npolys1, pos, smoothPath1, n1) ∧
      (n % 2 = 0 → n1 = n + 2 ∧ waypoint smoothPath1 n = ⟨startPos.x, startPos.y, startPos.z⟩ ∧
        waypoint smoothPath1 (n + 1) = ⟨startPos.x, startPos.y, startPos.z⟩) ∧
      (n % 2 = 1 → n1 = n + 1 ∧ waypoint smoothPath1 n = ⟨startPos.x, startPos.y, startPos.z⟩) ∧
      ∀ k, k < n → waypoint smoothPath1 k = waypoint smoothPath k := by
  have h0 : polys1[0]? = some polys1[0] := List.getElem?_eq_getElem hp
  have hc1 := dtVcopyAt_eq smoothPath n startPos (by omega)
  have hlA : (((smoothPath.set (n * 3) startPos.x).set (n * 3 + 1) startPos.y).set (n * 3 + 2)
      startPos.z).length = smoothPath.length := by simp
  generalize ((smoothPath.set (n * 3) startPos.x).set (n * 3 + 1) startPos.y).set (n * 3 + 2)
      startPos.z = spA at hc1 hlA
  obtain ⟨w1, w2⟩ := waypoint_dtVcopyAt _ _ _ _ hc1
  have hand : (n + 1) &&& 1 = (n + 1) % 2 := Nat.and_one_is_mod _
  by_cases hpar : n % 2 = 0
  · have hc2 := dtVcopyAt_eq spA (n + 1) startPos (by omega)
    generalize ((spA.set ((n + 1) * 3) startPos.x).set ((n + 1) * 3 + 1) startPos.y).set
      ((n + 1) * 3 + 2) startPos.z = spB at hc2
    obtain ⟨x1, x2⟩ := waypoint_dtVcopyAt _ _ _ _ hc2
    refine ⟨spB, n + 1 + 1, ⟨endPos.x, (q.getPolyHeight polys1[0] endPos).getD 0, endPos.z⟩, ?_,
      ?_, ?_, ?_⟩
    · unfold findFollowPath.offMesh
      rw [hadv]
      simp only []
      rw [hend]
      simp only []
      unfold findFollowPath.appendConnection
      rw [if_pos (by omega), hc1]
      simp only []
      rw [if_pos (by omega), hc2]
      simp only []
      rw [h0]
    · intro _
      refine ⟨rfl, ?_, x1⟩
      rw [x2 n (by omega)]
      exact w1
    · intro h; omega
    · intro k hk
      rw [x2 k (by omega), w2 k (by omega)]
  · refine ⟨spA, n + 1, ⟨endPos.x, (q.getPolyHeight polys1[0] endPos).getD 0, endPos.z⟩, ?_,
      ?_, ?_, ?_⟩
    · unfold findFollowPath.offMesh
      rw [hadv]
      simp only []
      rw [hend]
      simp only []
      unfold findFollowPath.appendConnection
      rw [if_pos (by omega), hc1]
      simp only []
      rw [if_neg (by omega)]
      simp only []
      rw [h0]
    · intro h; omega
    · intro _
      exact ⟨rfl, w1⟩
    · intro k hk
      rw [w2 k (by omega)]

/-- Witness of C17 (amended): the corridor `[1,2,3]` with the connection polygon `2`, two
waypoints stored, capacities 256 and 2048. -/
theorem offMesh_parity_rule_witness :
    ∃ smoothPath1 n1 pos,
      findFollowPath.offMesh exampleConfig offMeshQuery exampleMesh [1, 2, 3, 0] 3 2 ⟨2, 0, 0⟩
        (List.replicate (2048 * 3) 0) 2 = .ok ([3, 2, 3, 0], 1, pos, smoothPath1, n1) ∧
      (2 % 2 = 0 → n1 = 2 + 2 ∧ waypoint smoothPath1 2 = ⟨2, 0, 0⟩ ∧
        waypoint smoothPath1 (2 + 1) = ⟨2, 0, 0⟩) ∧
      (2 % 2 = 1 → n1 = 2 + 1 ∧ waypoint smoothPath1 2 = ⟨2, 0, 0⟩) ∧
      ∀ k, k < 2 → waypoint smoothPath1 k = waypoint (List.replicate (2048 * 3) 0) k :=
  offMesh_parity_rule exampleConfig offMeshQuery exampleMesh [1, 2, 3, 0] 3 2 ⟨2, 0, 0⟩
    (List.replicate (2048 * 3) 0) 2 [3, 2, 3, 0] 1 1 2 ⟨2, 0, 0⟩ ⟨4, 0, 0⟩
    (by decide) rfl (by decide) (by decide) (List.length_replicate _ _)

theorem findFollowPath.advanceScan_stop (polys : List dtPolyRef) (steerPosRef : dtPolyRef)
    (todo : Nat) (prevRef npos : Nat) :
    findFollowPath.advanceScan polys steerPosRef todo (prevRef, steerPosRef, npos)
      = some (prevRef, steerPosRef, npos) := by
  cases todo with
  | zero => rfl
  | succ todo => rw [findFollowPath.advanceScan, if_neg (by simp)]

theorem findFollowPath.advanceScan_exact (polys : List dtPolyRef) (steerPosRef : dtPolyRef)
    (npolys k : Nat) (pk1 : dtPolyRef)
    (hkn : k < npolys) (hnp : npolys ≤ polys.length)
    (hk : polys[k]? = some steerPosRef)
    (hfirst : ∀ i p, i < k → polys[i]? = some p → p ≠ steerPosRef)
    (hprev : polys[k - 1]? = some pk1) :
    ∀ (d t todo : Nat) (prevRef cur : dtPolyRef), t + d = k → 1 ≤ t → t + todo = npolys →
      polys[t - 1]? = some cur →
      findFollowPath.advanceScan polys steerPosRef todo (prevRef, cur, t)
        = some (pk1, steerPosRef, k + 1) := by
  intro d
  induction d with
  | zero =>
    intro t todo prevRef cur htk ht htodo hcur
    have hte : t = k := by omega
    subst hte
    have hcp : cur = pk1 := by
      rw [hcur] at hprev
      exact Option.some.inj hprev
    subst hcp
    have hne : cur ≠ steerPosRef := hfirst (t - 1) cur (by omega) hcur
    obtain ⟨todo1, rfl⟩ : ∃ todo1, todo = todo1 + 1 := ⟨todo - 1, by omega⟩
    rw [findFollowPath.advanceScan, if_pos hne, hk]
    simp only []
    exact findFollowPath.advanceScan_stop polys steerPosRef todo1 cur (t + 1)
  | succ d ih =>
    intro t todo prevRef cur htk ht htodo hcur
    have hne : cur ≠ steerPosRef := hfirst (t - 1) cur (by omega) hcur
    obtain ⟨todo1, rfl⟩ : ∃ todo1, todo = todo1 + 1 := ⟨todo - 1, by omega⟩
    have htl : t < polys.length := by omega
    rw [findFollowPath.advanceScan, if_pos hne, List.getElem?_eq_getElem htl]
    simp only []
    exact ih (t + 1) todo1 cur polys[t] (by omega) (by omega) (by omega)
      (by simp only [Nat.add_sub_cancel]; exact List.getElem?_eq_getElem htl)

/-- Counterexample to C18 as stated (`k = 0`): when the steer reference `7` is the head of
the corridor `[7,8,9]`, the loop of the advance does not run: no entry is removed (the
length stays 3), and the previous polygon passed to the endpoint lookup is `0`. -/
theorem advance_keeps_corridor_at_head :
    findFollowPath.advance [7, 8, 9, 0] 3 7 = some ([7, 8, 9, 0], 3, 0, 7) := by
  decide

/-- Claim C18, amended. Off-mesh corridor advance: for every corridor of `npolys` entries
in which the steer reference first occurs at an index `k` with `1 ≤ k < npolys`, the
advance leaves exactly the entries `corridor[k+1], ..., corridor[npolys-1]` (length
`npolys - k - 1`), and it passes `corridor[k]` as the connection polygon and
`corridor[k-1]` as the previous polygon to the endpoint lookup. -/
theorem advance_past_connection (polys : List dtPolyRef) (steerPosRef : dtPolyRef)
    (npolys k : Nat) (pk1 : dtPolyRef)
    (hk1 : 1 ≤ k) (hkn : k < npolys) (hnp : npolys ≤ polys.length)
    (hk : polys[k]? = some steerPosRef)
    (hfirst : ∀ i p, i < k → polys[i]? = some p → p ≠ steerPosRef)
    (hprev : polys[k - 1]? = some pk1) :
    ∃ polys1, findFollowPath.advance polys npolys steerPosRef
        = some (polys1, npolys - k - 1, pk1, steerPosRef) ∧
      polys1.length = polys.length ∧
      polys1.take (npolys - k - 1) = (polys.take npolys).drop (k + 1) := by
  have h0l : 0 < polys.length := by omega
  have h0 : polys[0]? = some polys[0] := List.getElem?_eq_getElem h0l
  have hne0 : polys[0] ≠ steerPosRef := hfirst 0 polys[0] (by omega) h0
  obtain ⟨todo1, htodo⟩ : ∃ todo1, npolys = todo1 + 1 := ⟨npolys - 1, by omega⟩
  have hscan : findFollowPath.advanceScan polys steerPosRef npolys (0, polys[0], 0)
      = some (pk1, steerPosRef, k + 1) := by
    rw [htodo, findFollowPath.advanceScan, if_pos hne0, h0]
    simp only []
    exact findFollowPath.advanceScan_exact polys steerPosRef npolys k pk1 hkn hnp hk hfirst hprev
      (k - 1) 1 todo1 polys[0] polys[0] (by omega) (by omega) (by omega) h0
  obtain ⟨polys1, g1, g2, g3⟩ := findFollowPath.advanceShift_eq (k + 1) (npolys - (k + 1)) (k + 1)
    polys (Nat.le_refl _) (by omega)
  have hn : npolys - (k + 1) = npolys - k - 1 := by omega
  rw [hn] at g1 g3
  refine ⟨polys1, ?_, g2, ?_⟩
  · unfold findFollowPath.advance
    rw [h0]
    simp only []
    rw [hscan]
    simp only []
    rw [hn, g1]
  · apply List.ext_getElem?
    intro idx
    rw [List.getElem?_take, List.getElem?_drop, List.getElem?_take, g3 idx]
    by_cases q : idx < npolys - k - 1
    · rw [if_pos q, if_pos (by omega), if_pos (by omega)]
      congr 1
      omega
    · rw [if_neg q, if_neg (by omega)]

/-- Witness of C18 (amended): the corridor `[1,2,3]` with the connection polygon `2` at
index 1. -/
theorem advance_past_connection_witness :
    ∃ polys1, findFollowPath.advance [1, 2, 3, 0] 3 2 = some (polys1, 3 - 1 - 1, 1, 2) ∧
      polys1.length = [1, 2, 3, 0].length ∧
      polys1.take (3 - 1 - 1) = ([1, 2, 3, 0].take 3).drop (1 + 1) :=
  advance_past_connection [1, 2, 3, 0] 2 3 1 1 (by decide) (by decide) (by decide) rfl
    (by
      intro i p hi hp
      have : i = 0 := by omega
      subst this
      cases hp
      decide)
    rfl

theorem indexOf_eq_of_first (p : dtPolyRef) :
    ∀ (vs : List dtPolyRef) (j : Nat), vs[j]? = some p → (∀ j1, j1 < j → vs[j1]? ≠ some p) →
      vs.indexOf p = j := by
  intro vs
  induction vs with
  | nil => intro j h; cases h
  | cons a vs ih =>
    intro j h hfirst
    cases j with
    | zero =>
      simp only [List.getElem?_cons_zero, Option.some.injEq] at h
      rw [h]
      exact List.indexOf_cons_self _ _
    | succ j =>
      have hne : a ≠ p := by
        intro hc
        exact hfirst 0 (by omega) (by rw [hc]; simp)
      rw [List.indexOf_cons_ne _ hne]
      congr 1
      apply ih j
      · simpa using h
      · intro j1 hj1 hc
        exact hfirst (j1 + 1) (by omega) (by simpa using hc)

theorem fixupShortcuts_last (path : List dtPolyRef) (npath : Nat) (navQuery : dtNavMeshQuery)
    (hpos : 0 < npath) (hnp : npath ≤ path.length) :
    ∃ path1 n1, fixupShortcuts path npath navQuery = some (path1, n1) ∧ 0 < n1 ∧ n1 ≤ npath ∧
      path1.length = path.length ∧ path1[n1 - 1]? = path[npath - 1]? ∧ path1[0]? = path[0]? := by
  by_cases h3 : npath < 3
  · exact ⟨path, npath, by rw [fixupShortcuts, if_pos h3], hpos, Nat.le_refl _, rfl, rfl, rfl⟩
  · have hh : path[0]? = some path[0] := List.getElem?_eq_getElem (by omega)
    cases hl : navQuery.getAttachedNavMesh.polyLinks path[0] with
    | none =>
      refine ⟨path, npath, ?_, hpos, Nat.le_refl _, rfl, rfl, rfl⟩
      rw [fixupShortcuts, if_neg h3, hh]
      simp only []
      rw [hl]
    | some links =>
      obtain ⟨e0, e1⟩ := fixupShortcuts_eq path npath navQuery path[0] links (by omega) hnp hh hl
      have hlt := lastAhead_lt path (fixupShortcuts.collect 16 links []) (min 6 npath)
      generalize lastAhead path (fixupShortcuts.collect 16 links []) (min 6 npath) = c at e0 e1 hlt
      rcases hlt with hz | hz
      · exact ⟨path, npath, e0 hz, hpos, Nat.le_refl _, rfl, rfl, rfl⟩
      · have hc : c < npath := by omega
        have hc1 : 1 < c := hz.1
        obtain ⟨path1, g1, g2, g3⟩ := e1 hz.1
        refine ⟨path1, _, g1, by omega, by omega, g2, ?_, ?_⟩
        · rw [g3, if_pos (by omega)]
          congr 1
          omega
        · rw [g3, if_neg (by omega)]

/-- Claim C19. The corridor keeps ending at the target polygon.  For a non-empty corridor
(`0 < npath ≤ maxPath`) and every visited list: if no polygon is common, `fixupCorridor`
followed by `fixupShortcuts` leaves a non-empty corridor with the same last entry; if `i`
is the largest corridor index whose entry occurs in the visited list and `j` the first
index of that reference there, the head after `fixupCorridor` is `visited[nvisited-1]`,
and if `fixupCorridor` does not truncate (`nvisited - j + npath - i - 1 ≤ maxPath`) the
corridor after `fixupShortcuts` is non-empty and its last entry is the last entry of the
corridor before the step. -/
theorem corridor_keeps_last_entry (path : List dtPolyRef) (npath maxPath : Nat)
    (visited : List dtPolyRef) (nvisited : Nat) (navQuery : dtNavMeshQuery)
    (hcap : maxPath ≤ path.length) (hpos : 0 < npath) (hnp : npath ≤ maxPath)
    (hv : nvisited ≤ visited.length) (hvm : nvisited ≤ maxPath) :
    ((∀ p, p ∈ path.take npath → p ∉ visited.take nvisited) →
      ∃ path1 n1 path2 n2,
        fixupCorridor path npath maxPath visited nvisited = some (path1, n1) ∧
        fixupShortcuts path1 n1 navQuery = some (path2, n2) ∧
        0 < n2 ∧ path2[n2 - 1]? = path[npath - 1]?) ∧
    (∀ i j p, i < npath → j < nvisited → path[i]? = some p → visited[j]? = some p →
      (∀ i1 p1, i < i1 → i1 < npath → path[i1]? = some p1 → p1 ∉ visited.take nvisited) →
      (∀ j1, j1 < j → visited[j1]? ≠ some p) →
      ∃ path1 n1,
        fixupCorridor path npath maxPath visited nvisited = some (path1, n1) ∧
        path1[0]? = visited[nvisited - 1]? ∧
        (nvisited - j + npath - i - 1 ≤ maxPath →
          ∃ path2 n2, fixupShortcuts path1 n1 navQuery = some (path2, n2) ∧
            0 < n2 ∧ path2[n2 - 1]? = path[npath - 1]?)) := by
  constructor
  · intro hno
    have h1 : fixupCorridor path npath maxPath visited nvisited = some (path, npath) := by
      apply fixupCorridor_none path npath maxPath visited nvisited (by omega) hv
      apply lastCommon_of_none
      intro i p hi hp
      apply hno
      rw [List.mem_iff_getElem?]
      exact ⟨i, by rw [List.getElem?_take_of_lt hi]; exact hp⟩
    obtain ⟨p2, n2, g1, g2, -, -, g5, -⟩ := fixupShortcuts_last path npath navQuery hpos (by omega)
    exact ⟨path, npath, p2, n2, h1, g1, g2, g5⟩
  · intro i j p hi hj hp hvj hno hfirst
    have hm : p ∈ visited.take nvisited := by
      rw [List.mem_iff_getElem?]
      exact ⟨j, by rw [List.getElem?_take_of_lt hj]; exact hvj⟩
    have hlc := lastCommon_of_spec path (visited.take nvisited) i p hp hm npath hi hno
    have hgd : path.getD i 0 = p := by simp [List.getD_eq_getElem?_getD, hp]
    have hidx : (visited.take nvisited).indexOf p = j := by
      apply indexOf_eq_of_first
      · rw [List.getElem?_take_of_lt hj]; exact hvj
      · intro j1 hj1
        rw [List.getElem?_take_of_lt (by omega)]
        exact hfirst j1 hj1
    have hn : nvisited - j + npath - i - 1 = nvisited - j + (npath - (i + 1)) := by omega
    obtain ⟨path1, h1, h2, h3, h4⟩ :=
      fixupCorridor_found path npath maxPath visited nvisited i hcap hnp hv hvm hlc
    rw [hgd, hidx] at h1 h4
    refine ⟨path1, _, h1, ?_, ?_⟩
    · rw [h4, if_pos (by omega)]
      rfl
    · intro hnt
      have hmin : min (nvisited - j + (npath - (i + 1))) maxPath
          = nvisited - j + (npath - (i + 1)) := by omega
      rw [hmin] at h4 ⊢
      obtain ⟨p2, n2, g1, g2, -, -, g5, -⟩ := fixupShortcuts_last path1
        (nvisited - j + (npath - (i + 1))) navQuery (by omega) (by omega)
      refine ⟨p2, n2, g1, g2, ?_⟩
      rw [g5, h4]
      by_cases hlast : i + 1 = npath
      · rw [if_pos (by omega)]
        have e1 : nvisited - 1 - (nvisited - j + (npath - (i + 1)) - 1) = j := by omega
        have e2 : npath - 1 = i := by omega
        rw [e1, e2, hvj, hp]
      · rw [if_neg (by omega), if_pos (by omega)]
        congr 1
        omega

/-- Witness of C19: capacity 8, corridor `[1,2,3,4,5]`, visited list `[2,3,9]`; the
largest common corridor index is 2 (polygon `3`), first visited at index 1. -/
theorem corridor_keeps_last_entry_witness :
    ∃ path1 n1,
      fixupCorridor [1, 2, 3, 4, 5, 0, 0, 0] 5 8 [2, 3, 9] 3 = some (path1, n1) ∧
      path1[0]? = [2, 3, 9][3 - 1]? ∧
      (3 - 1 + 5 - 2 - 1 ≤ 8 →
        ∃ path2 n2, fixupShortcuts path1 n1 straightQuery = some (path2, n2) ∧
          0 < n2 ∧ path2[n2 - 1]? = [1, 2, 3, 4, 5, 0, 0, 0][5 - 1]?) :=
  (corridor_keeps_last_entry [1, 2, 3, 4, 5, 0, 0, 0] 5 8 [2, 3, 9] 3 straightQuery
    (by decide) (by decide) (by decide) (by decide) (by decide)).2 2 1 3
    (by decide) (by decide) rfl rfl
    (by
      intro i1 p1 h1 h2 h3
      interval_cases i1
      · cases h3; decide
      · cases h3; decide)
    (by
      intro j1 h
      interval_cases j1
      decide)

theorem rat_sqrt_pos (x : Rat) (h : 0 < x) : 0 < Rat.sqrt x := by
  unfold Rat.sqrt
  have hnum : 0 < x.num := Rat.num_pos.mpr h
  have h1 : 0 < Int.sqrt x.num := by
    unfold Int.sqrt
    have : 0 < Nat.sqrt x.num.toNat := Nat.sqrt_pos.mpr (by omega)
    exact_mod_cast this
  have h2 : 0 < Nat.sqrt x.den := Nat.sqrt_pos.mpr x.den_pos
  rw [Rat.mkRat_eq_div]
  apply div_pos
  · exact_mod_cast h1
  · exact_mod_cast h2

/-- The target of the surface move in terms of `len` and of the branch taken. -/
theorem findFollowPath.moveTarget_eq (C : Config) (iterPos steerPos : Vec3)
    (endOfPath offMeshConnection : Bool) :
    findFollowPath.moveTarget C iterPos steerPos endOfPath offMeshConnection =
      dtVmad iterPos (dtVsub steerPos iterPos)
        (if findFollowPath.scales C iterPos steerPos endOfPath offMeshConnection = true then
          STEP_SIZE / findFollowPath.deltaLen C iterPos steerPos
        else 1) := by
  unfold findFollowPath.moveTarget findFollowPath.scales findFollowPath.deltaLen
  simp only []
  by_cases h : ((endOfPath || offMeshConnection) &&
      decide (C.dtMathSqrtf (dtVdot (dtVsub steerPos iterPos) (dtVsub steerPos iterPos))
        < STEP_SIZE)) = true
  · rw [if_pos h, h]
    rfl
  · rw [if_neg h]
    rw [Bool.not_eq_true] at h
    rw [h]
    rfl

/-- Counterexample to C20 as stated: the cursor is at the origin and the look-ahead
consists of an ordinary path vertex 1000 units straight above it.  The vertex is not in
range (its vertical distance is not below 1000), so `getSteerTarget` succeeds; the steer
position gets the height of the cursor and is the cursor itself; the steer target is
neither end-of-path nor off-mesh, so the delta is scaled by `STEP_SIZE / len`, and `len`
is 0. -/
theorem scaling_divides_by_zero_above :
    getSteerTarget aboveQuery ⟨0, 0, 0⟩ ⟨0, 1000, 0⟩ SLOP [1, 5] 2 = some (⟨0, 0, 0⟩, 0, 5) ∧
    findFollowPath.scales exampleConfig ⟨0, 0, 0⟩ ⟨0, 0, 0⟩
      (0 &&& DT_STRAIGHTPATH_END != 0) (0 &&& DT_STRAIGHTPATH_OFFMESH_CONNECTION != 0) = true ∧
    findFollowPath.deltaLen exampleConfig ⟨0, 0, 0⟩ ⟨0, 0, 0⟩ = 0 := by
  decide!

/-- Claim C20, amended. The step scaling never divides by zero unless a look-ahead point
lies straight above or below the cursor, 1000 or more away.  For every cursor and every
look-ahead result none of whose points has the `x` and `z` of the cursor at a vertical
distance of 1000 or more, and for which `getSteerTarget` (radius `SLOP = 0.15`, vertical
range 1000) succeeds: whenever the delta is scaled by `STEP_SIZE / len` (`scales`), the
movement target is `iterPos + delta * (STEP_SIZE / len)` and `len` is strictly positive
(for a square root that is positive on positive numbers). -/
theorem scaling_len_positive (C : Config) (q : dtNavMeshQuery) (iterPos targetPos : Vec3)
    (polys : List dtPolyRef) (npolys : Nat) (steerPos : Vec3) (steerPosFlag : Nat)
    (steerPosRef : dtPolyRef)
    (hsqrt : ∀ x : Rat, 0 < x → 0 < C.dtMathSqrtf x)
    (hsteer : getSteerTarget q iterPos targetPos SLOP polys npolys
      = some (steerPos, steerPosFlag, steerPosRef))
    (hvert : ∀ p ∈ (q.findStraightPath iterPos targetPos (polys.take npolys)).take 3,
      1000 ≤ |p.pos.y - iterPos.y| → p.pos.x ≠ iterPos.x ∨ p.pos.z ≠ iterPos.z)
    (hscale : findFollowPath.scales C iterPos steerPos (steerPosFlag &&& DT_STRAIGHTPATH_END != 0)
      (steerPosFlag &&& DT_STRAIGHTPATH_OFFMESH_CONNECTION != 0) = true) :
    findFollowPath.moveTarget C iterPos steerPos (steerPosFlag &&& DT_STRAIGHTPATH_END != 0)
        (steerPosFlag &&& DT_STRAIGHTPATH_OFFMESH_CONNECTION != 0)
      = dtVmad iterPos (dtVsub steerPos iterPos)
          (STEP_SIZE / findFollowPath.deltaLen C iterPos steerPos) ∧
    0 < findFollowPath.deltaLen C iterPos steerPos := by
  constructor
  · rw [findFollowPath.moveTarget_eq, if_pos hscale]
  · rw [getSteerTarget_eq] at hsteer
    cases hs : getSteerTarget.scan iterPos SLOP
        ((q.findStraightPath iterPos targetPos (polys.take npolys)).take 3) with
    | none => rw [hs] at hsteer; cases hsteer
    | some p =>
      rw [hs] at hsteer
      simp only [Option.map_some', Option.some.injEq, Prod.mk.injEq] at hsteer
      obtain ⟨e1, e2, -⟩ := hsteer
      obtain ⟨pre, post, h1, -, h3⟩ := (getSteerTarget.scan_some iterPos SLOP _ p).mp hs
      have hpm : p ∈ (q.findStraightPath iterPos targetPos (polys.take npolys)).take 3 := by
        rw [h1]; simp
      have hv := hvert p hpm
      subst e1 e2
      rcases h3 with hoff | hout
      · -- off-mesh link: the delta is scaled only when `len` is not below `STEP_SIZE`
        unfold findFollowPath.scales at hscale
        have hb : (p.flag &&& DT_STRAIGHTPATH_OFFMESH_CONNECTION != 0) = true := by
          simpa using hoff
        rw [hb] at hscale
        simp only [Bool.or_true, Bool.true_and, Bool.not_eq_true', decide_eq_false_iff_not,
          not_lt] at hscale
        exact lt_of_lt_of_le (by norm_num [STEP_SIZE]) hscale
      · -- not in range: rejected by the radius, or 1000 or more above or below
        rw [inRange_iff] at hout
        unfold findFollowPath.deltaLen
        apply hsqrt
        have hdot : dtVdot (dtVsub ⟨p.pos.x, iterPos.y, p.pos.z⟩ iterPos)
            (dtVsub ⟨p.pos.x, iterPos.y, p.pos.z⟩ iterPos)
            = (iterPos.x - p.pos.x) * (iterPos.x - p.pos.x)
              + (iterPos.z - p.pos.z) * (iterPos.z - p.pos.z) := by
          simp only [dtVdot, dtVsub]
          ring
        rw [hdot]
        by_cases hv2 : |iterPos.y - p.pos.y| < 1000
        · have hhor : ¬ ((iterPos.x - p.pos.x) * (iterPos.x - p.pos.x)
              + (iterPos.z - p.pos.z) * (iterPos.z - p.pos.z) < SLOP * SLOP) :=
            fun hc => hout ⟨hc, hv2⟩
          rw [not_lt] at hhor
          exact lt_of_lt_of_le (by norm_num [SLOP]) hhor
        · rw [not_lt, abs_sub_comm] at hv2
          rcases hv hv2 with hx | hz
          · have : 0 < (iterPos.x - p.pos.x) * (iterPos.x - p.pos.x) :=
              mul_self_pos.mpr (sub_ne_zero.mpr (Ne.symm hx))
            have h2 := mul_self_nonneg (iterPos.z - p.pos.z)
            linarith
          · have : 0 < (iterPos.z - p.pos.z) * (iterPos.z - p.pos.z) :=
              mul_self_pos.mpr (sub_ne_zero.mpr (Ne.symm hz))
            have h2 := mul_self_nonneg (iterPos.x - p.pos.x)
            linarith

/-- Witness of C20 (amended): on flat ground the cursor at the origin steers to the end
point `(2,0,0)`; `len = 2` is not below `STEP_SIZE`, the delta is scaled. -/
theorem scaling_len_positive_witness :
    findFollowPath.moveTarget exampleConfig ⟨0, 0, 0⟩ ⟨2, 0, 0⟩ (2 &&& DT_STRAIGHTPATH_END != 0)
        (2 &&& DT_STRAIGHTPATH_OFFMESH_CONNECTION != 0)
      = dtVmad ⟨0, 0, 0⟩ (dtVsub ⟨2, 0, 0⟩ ⟨0, 0, 0⟩)
          (STEP_SIZE / findFollowPath.deltaLen exampleConfig ⟨0, 0, 0⟩ ⟨2, 0, 0⟩) ∧
    0 < findFollowPath.deltaLen exampleConfig ⟨0, 0, 0⟩ ⟨2, 0, 0⟩ :=
  scaling_len_positive exampleConfig straightQuery ⟨0, 0, 0⟩ ⟨2, 0, 0⟩ [1] 1 ⟨2, 0, 0⟩ 2 0
    rat_sqrt_pos (by decide!)
    (by
      intro p hp
      have : p = ⟨⟨2, 0, 0⟩, DT_STRAIGHTPATH_END, 0⟩ := by simpa [straightQuery] using hp
      subst this
      intro h
      norm_num at h)
    (by decide!)

end Sapphire.World.Navi
